import Mathlib

/-!
# Selling-mode controller of `protocol_session`

A shallow embedding of `protocol_session/detail/Selling.cpp` together with the
parts of `Connection.hpp` it uses.

* The per-connection protocol automaton (`protocol_statemachine::CBStateMachine`)
  is an external collaborator: it is taken as a parameter `A : CBStateMachine M`
  over an arbitrary state type `M`, and nothing is assumed about its transitions.
* The callbacks handed to the controller (`_removedConnection`,
  `_loadPieceForBuyer`, ...) and the events driven into an automaton are recorded,
  in call order, in the `trace` of the result of each operation.
* `assert(..)` failures are the outcome `aborted`; C++ exceptions are the outcome
  `raised e`; in both cases the state reached so far is kept in the result.
-/

namespace ProtocolSession

/-! ## Value types supplied by collaborators -/

/-- Template parameter `ConnectionIdType`, fixed to the naturals with their order. -/
abbrev ConnId := Nat

/-- External `protocol_wire::SellerTerms`; only stored, compared and passed along. -/
abbrev SellerTerms := Nat

/-- External `protocol_wire::BuyerTerms`; only compared and passed along. -/
abbrev BuyerTerms := Nat

/-- External `protocol_wire::PieceData`; an opaque payload. -/
abbrev PieceData := Nat

/-- External `Coin::KeyPair`. -/
abbrev KeyPair := Nat

/-- External `Coin::PubKeyHash`. -/
abbrev PubKeyHash := Nat

/-- External `Coin::Signature`. -/
abbrev Signature := Nat

/-- The session lifecycle state `SessionState`. -/
inductive SessionState where
  | stopped
  | paused
  | started
  deriving DecidableEq, Repr

/-- The reason `DisconnectCause` attached to a removed-connection notification. -/
inductive DisconnectCause where
  | client
  | buyer_requested_invalid_piece
  | buyer_interrupted_payment
  | buyer_sent_invalid_payment
  | buyer_message_overflow
  deriving DecidableEq, Repr

/-- The cause carried by `exception::PeerNotReadyToStartUploading`. -/
inductive PeerNotReadyToStartUploadingCause where
  | connection_gone
  | connection_not_in_invited_state
  | terms_expired
  deriving DecidableEq, Repr

/-- The mode a peer announced, `protocol_statemachine::ModeAnnounced`. -/
inductive ModeAnnounced where
  | none
  | observe
  | sell
  | buy
  deriving DecidableEq, Repr

/-- The view `protocol_statemachine::AnnouncedModeAndTerms` of what the peer announced. -/
structure AnnouncedModeAndTerms where
  modeAnnounced : ModeAnnounced
  buyModeTerms : BuyerTerms
  deriving DecidableEq, Repr

/-- The read-only view `paymentchannel::Payee` of the payment channel. -/
structure Payee where
  price : Nat
  numberOfPaymentsMade : Nat
  amountPaid : Nat
  deriving DecidableEq, Repr

/-- The automaton events the controller drives (`protocol_statemachine::event::*`). -/
inductive Event where
  | SellModeStarted (terms : SellerTerms)
  | Joined (contractKeyPair : KeyPair) (finalPkHash : PubKeyHash)
  | PieceLoaded (data : PieceData)
  | UpdateTerms (terms : SellerTerms)
  deriving DecidableEq, Repr

/-- The interface of the external automaton `protocol_statemachine::CBStateMachine`,
as far as `Connection` forwards it: the state of a fresh machine, the reaction to an
event, the two `inState<T>()` queries the controller makes, and the two views. -/
structure CBStateMachine (M : Type) where
  fresh : M
  processEvent : M → Event → M
  inInvited : M → Bool
  inServicingPieceRequests : M → Bool
  announcedModeAndTermsFromPeer : M → AnnouncedModeAndTerms
  payee : M → Payee

/-! ## Observable effects -/

/-- One entry of the trace of an operation: a call of one of the callbacks given to the
controller at construction, or an event driven into the automaton of a connection
(identified by that connection's `connectionId()`). -/
inductive Effect where
  | RemovedConnection (id : ConnId) (cause : DisconnectCause)
  | LoadPieceForBuyer (id : ConnId) (index : Int)
  | ClaimLastPayment (id : ConnId) (payee : Payee)
  | ReceivedValidPayment (id : ConnId) (price paymentsMade amountPaid : Nat)
  | ProcessEvent (id : ConnId) (event : Event)
  deriving DecidableEq, Repr

/-- The exceptions an operation of the controller can end with. -/
inductive Exception where
  | StateIncompatibleOperation
  | ConnectionDoesNotExist (id : ConnId)
  | PeerNotReadyToStartUploading (cause : PeerNotReadyToStartUploadingCause)
  | StateMachineDeletedException
  | PipelineLogicError
  deriving DecidableEq, Repr

/-- How a call ended: normally with a value, with an exception, or in a failed `assert`. -/
inductive Outcome (α : Type) where
  | returned (value : α)
  | raised (e : Exception)
  | aborted
  deriving DecidableEq, Repr

/-! ## PieceDeliveryPipeline -/

/-- The progress of one requested piece. -/
inductive PieceState where
  | Requested
  | Loading
  | Loaded
  | Sent
  | Paid
  deriving DecidableEq, Repr

/-- One entry of a delivery pipeline. -/
structure Piece where
  index : Int
  state : PieceState
  data : PieceData
  deriving DecidableEq, Repr

/-- Modelled from the spec: the class `PieceDeliveryPipeline`
(`protocol_session/detail/PieceDeliveryPipeline.hpp` is not among the sources). The
entries in flight for one connection, in arrival order. -/
abbrev PieceDeliveryPipeline := List Piece

namespace PieceDeliveryPipeline

/-- Modelled from the spec: `PieceDeliveryPipeline::add(index)` "appends a new Requested
entry at the tail. Fails (programmer error / precondition) if index already tracked for
this connection." `none` is the failure. -/
def add (p : PieceDeliveryPipeline) (index : Int) : Option PieceDeliveryPipeline :=
  if p.any (fun e => e.index == index) then none
  else some (p ++ [{ index := index, state := PieceState.Requested, data := 0 }])

/-- Modelled from the spec: `PieceDeliveryPipeline::dataReady(index, data)` "transitions
the matching Requested/Loading entry to Loaded, attaching the payload. No-op if the
connection no longer tracks that index". -/
def dataReady (p : PieceDeliveryPipeline) (index : Int) (data : PieceData) :
    PieceDeliveryPipeline :=
  p.map (fun e =>
    if e.index = index ∧ (e.state = PieceState.Requested ∨ e.state = PieceState.Loading) then
      { e with state := PieceState.Loaded, data := data }
    else e)

/-- The state change of `getNextBatchToLoad` on one entry of the window. -/
def markLoading (e : Piece) : Piece :=
  if e.state = PieceState.Requested then { e with state := PieceState.Loading } else e

/-- Modelled from the spec: `PieceDeliveryPipeline::getNextBatchToLoad(limit)` "returns,
in arrival order, every Requested entry not yet Loading, up to `limit` total entries
counted across the whole in-flight window; marks returned entries Loading as a side
effect." The result is the batch of indices and the pipeline afterwards. -/
def getNextBatchToLoad (p : PieceDeliveryPipeline) (limit : Nat) :
    List Int × PieceDeliveryPipeline :=
  (((p.take limit).filter (fun e => e.state = PieceState.Requested)).map Piece.index,
    (p.take limit).map markLoading ++ p.drop limit)

/-- The walk of `getNextBatchToSend` over the entries, `sent` being the number of
Sent-and-unpaid entries so far. -/
def sendWalk (limit : Nat) : Nat → List Piece → List PieceData × List Piece
  | _, [] => ([], [])
  | sent, e :: rest =>
    if e.state = PieceState.Loaded then
      if limit < sent + 1 then ([], e :: rest)
      else
        ((e.data :: (sendWalk limit (sent + 1) rest).1),
          { e with state := PieceState.Sent } :: (sendWalk limit (sent + 1) rest).2)
    else ((sendWalk limit sent rest).1, e :: (sendWalk limit sent rest).2)

/-- Modelled from the spec: `PieceDeliveryPipeline::getNextBatchToSend(limit)` "returns,
in arrival order, every Loaded entry, but stops once the number of Sent-and-unpaid
entries would exceed `limit`; marks returned entries Sent as a side effect; returns
their payloads for transmission." -/
def getNextBatchToSend (p : PieceDeliveryPipeline) (limit : Nat) :
    List PieceData × PieceDeliveryPipeline :=
  sendWalk limit (p.countP (fun e => e.state = PieceState.Sent)) p

/-- Removal of the oldest Sent entry. -/
def dropOldestSent : List Piece → List Piece
  | [] => []
  | e :: rest => if e.state = PieceState.Sent then rest else e :: dropOldestSent rest

/-- Modelled from the spec: `PieceDeliveryPipeline::paymentReceived()` "advances the
oldest Sent entry to Paid and removes it. Fails (logic error) if no Sent entry exists".
`none` is the failure. -/
def paymentReceived (p : PieceDeliveryPipeline) : Option PieceDeliveryPipeline :=
  if p.any (fun e => e.state = PieceState.Sent) then some (dropOldestSent p) else none

end PieceDeliveryPipeline

/-! ## Connection -/

/-- The class `detail::Connection` of `Connection.hpp`: its id, its automaton, its
maximum piece index and its delivery pipeline. -/
structure Connection (M : Type) where
  connectionId : ConnId
  machine : M
  maxPieceIndex : Int
  pieceDeliveryPipeline : PieceDeliveryPipeline
  deriving DecidableEq, Repr

namespace Connection

variable {M : Type}

/-- The method `Connection::setMaxPieceIndex`. -/
def setMaxPieceIndex (c : Connection M) (n : Int) : Connection M :=
  { c with maxPieceIndex := n }

/-- The method `Connection::processEvent`: the event is forwarded to the automaton. The
call is recorded as `Effect.ProcessEvent` under the connection's own id. -/
def processEvent (A : CBStateMachine M) (c : Connection M) (e : Event) :
    Connection M × List Effect :=
  ({ c with machine := A.processEvent c.machine e }, [Effect.ProcessEvent c.connectionId e])

/-- The query `Connection::inState<protocol_statemachine::Invited>()`. -/
def inInvited (A : CBStateMachine M) (c : Connection M) : Bool :=
  A.inInvited c.machine

/-- The query `Connection::inState<protocol_statemachine::ServicingPieceRequests>()`. -/
def inServicingPieceRequests (A : CBStateMachine M) (c : Connection M) : Bool :=
  A.inServicingPieceRequests c.machine

/-- The view `Connection::announcedModeAndTermsFromPeer()`. -/
def announcedModeAndTermsFromPeer (A : CBStateMachine M) (c : Connection M) :
    AnnouncedModeAndTerms :=
  A.announcedModeAndTermsFromPeer c.machine

/-- The view `Connection::payee()`. -/
def payee (A : CBStateMachine M) (c : Connection M) : Payee :=
  A.payee c.machine

end Connection

/-- The registry type `ConnectionMap = std::map<ConnectionIdType, Connection *>`: the
entries in iteration order. -/
abbrev ConnectionMap (M : Type) := List (ConnId × Connection M)

/-- The keys of a registry, in iteration order. -/
def ConnectionMap.keys {M : Type} (m : ConnectionMap M) : List ConnId :=
  m.map Prod.fst

/-- The representation invariant of the registry: as in a `std::map` the keys are
strictly ascending, and each connection was constructed with the id it is registered
under (`_connectionId` is private and never reassigned). -/
def ConnectionMap.Valid {M : Type} (m : ConnectionMap M) : Prop :=
  m.keys.Pairwise (fun a b => a < b) ∧ ∀ p ∈ m, p.2.connectionId = p.1

/-! ## Session core -/

/-- The part of `Session` the controller reaches through `_session`: the lifecycle state
`_state` and the registry `_connections`. -/
structure Session (M : Type) where
  state : SessionState
  connections : ConnectionMap M
  deriving DecidableEq, Repr

namespace Session

variable {M : Type}

/-- Modelled from the spec: `Session::hasConnection(id)` (`Session.hpp` is not among the
sources), membership of `id` in the registry. -/
def hasConnection (s : Session M) (id : ConnId) : Bool :=
  s.connections.any (fun p => p.1 == id)

/-- Modelled from the spec: `Session::get(id)` (`Session.hpp` is not among the sources),
the connection registered under `id`, if any. -/
def get (s : Session M) (id : ConnId) : Option (Connection M) :=
  (s.connections.find? (fun p => p.1 == id)).map Prod.snd

/-- Write-back through the pointer `Session::get` returned: the connection registered
under `id` is now `c`. -/
def put (s : Session M) (id : ConnId) (c : Connection M) : Session M :=
  { s with connections := s.connections.map (fun p => if p.1 = id then (p.1, c) else p) }

/-- Insertion of an entry into a registry at its place in key order. -/
def insertEntry (id : ConnId) (c : Connection M) : ConnectionMap M → ConnectionMap M
  | [] => [(id, c)]
  | p :: rest => if id < p.1 then (id, c) :: p :: rest else p :: insertEntry id c rest

/-- Modelled from the spec: `Session::createAndAddConnection(id, callbacks)`
(`Session.hpp` is not among the sources) "registers connection"; the precondition is
"id not already registered" and `none` is its violation. The new connection has a fresh
automaton and an empty pipeline. -/
def createAndAddConnection (A : CBStateMachine M) (s : Session M) (id : ConnId) :
    Option (Session M × Connection M) :=
  if s.hasConnection id then none
  else
    some ({ s with connections := (insertEntry id
              { connectionId := id, machine := A.fresh, maxPieceIndex := 0,
                pieceDeliveryPipeline := [] } s.connections) },
          { connectionId := id, machine := A.fresh, maxPieceIndex := 0,
            pieceDeliveryPipeline := [] })

/-- Modelled from the spec: `Session::destroyConnection(id)` (`Session.hpp` is not among
the sources) "destroys the connection in the registry". -/
def destroyConnection (s : Session M) (id : ConnId) : Session M :=
  { s with connections := s.connections.filter (fun p => p.1 != id) }

end Session

/-! ## Selling controller -/

/-- The data members of `Selling`: the session it points to, the seller terms, the
maximum piece index and the two flow-control caps. The callbacks are represented by
the trace. -/
structure Selling (M : Type) where
  session : Session M
  terms : SellerTerms
  MAX_PIECE_INDEX : Int
  maxOutstandingPayments : Nat
  maxPiecesToPreload : Nat
  deriving DecidableEq, Repr

/-- What a call of an operation on the controller leaves behind: the state, the
callbacks and automaton events issued, in order, and how the call ended. -/
structure Result (M : Type) (α : Type) where
  state : Selling M
  trace : List Effect
  outcome : Outcome α
  deriving DecidableEq, Repr

/-- What a helper working on one connection leaves behind; `ok = false` is a failed
`assert`. -/
structure Step (M : Type) where
  conn : Connection M
  trace : List Effect
  ok : Bool
  deriving DecidableEq, Repr

namespace Selling

variable {M : Type}

/-- The lifecycle state `_session->state()`. -/
def state (s : Selling M) : SessionState :=
  s.session.state

/-- The ids registered in `_session->_connections`, in iteration order. -/
def ids (s : Selling M) : List ConnId :=
  s.session.connections.keys

/-- The method `Selling::tryToClaimLastPayment(c)` (lines 409-417). -/
def tryToClaimLastPayment (A : CBStateMachine M) (c : Connection M) : List Effect :=
  if 0 < (c.payee A).numberOfPaymentsMade then
    [Effect.ClaimLastPayment c.connectionId (c.payee A)]
  else []

/-- The loop `for (auto data : piecesToSend) c->processEvent(PieceLoaded(data))`. -/
def sendAll (A : CBStateMachine M) : Connection M → List PieceData → Connection M × List Effect
  | c, [] => (c, [])
  | c, d :: rest =>
    ((sendAll A (c.processEvent A (Event.PieceLoaded d)).1 rest).1,
      (c.processEvent A (Event.PieceLoaded d)).2 ++
        (sendAll A (c.processEvent A (Event.PieceLoaded d)).1 rest).2)

/-- The method `Selling::tryToSendPieces(c)` (lines 394-407). -/
def tryToSendPieces (A : CBStateMachine M) (s : Selling M) (c : Connection M) : Step M :=
  if s.session.state ≠ SessionState.started then { conn := c, trace := [], ok := false }
  else if ¬ c.inServicingPieceRequests A = true then { conn := c, trace := [], ok := false }
  else
    { conn := (sendAll A
          { c with pieceDeliveryPipeline :=
              (c.pieceDeliveryPipeline.getNextBatchToSend s.maxOutstandingPayments).2 }
          (c.pieceDeliveryPipeline.getNextBatchToSend s.maxOutstandingPayments).1).1,
      trace := (sendAll A
          { c with pieceDeliveryPipeline :=
              (c.pieceDeliveryPipeline.getNextBatchToSend s.maxOutstandingPayments).2 }
          (c.pieceDeliveryPipeline.getNextBatchToSend s.maxOutstandingPayments).1).2,
      ok := true }

/-- The method `Selling::tryToLoadPieces(c)` (lines 381-393). -/
def tryToLoadPieces (A : CBStateMachine M) (s : Selling M) (c : Connection M) : Step M :=
  if s.session.state ≠ SessionState.started then { conn := c, trace := [], ok := false }
  else if ¬ c.inServicingPieceRequests A = true then { conn := c, trace := [], ok := false }
  else
    { conn := { c with pieceDeliveryPipeline :=
          (c.pieceDeliveryPipeline.getNextBatchToLoad
            (s.maxOutstandingPayments + s.maxPiecesToPreload)).2 },
      trace := (c.pieceDeliveryPipeline.getNextBatchToLoad
          (s.maxOutstandingPayments + s.maxPiecesToPreload)).1.map
            (fun index => Effect.LoadPieceForBuyer c.connectionId index),
      ok := true }

/-- The sequence `tryToSendPieces(c); tryToLoadPieces(c);` of `start` and
`receivedValidPayment`. -/
def sendThenLoad (A : CBStateMachine M) (s : Selling M) (c : Connection M) : Step M :=
  if (tryToSendPieces A s c).ok then
    { conn := (tryToLoadPieces A s (tryToSendPieces A s c).conn).conn,
      trace := (tryToSendPieces A s c).trace ++
        (tryToLoadPieces A s (tryToSendPieces A s c).conn).trace,
      ok := (tryToLoadPieces A s (tryToSendPieces A s c).conn).ok }
  else tryToSendPieces A s c

/-- A range-for over `_session->_connections` whose body works on the connection of each
entry; a failed `assert` in the body ends the walk. -/
def forEachConnection (body : Connection M → Step M) :
    ConnectionMap M → ConnectionMap M × List Effect × Bool
  | [] => ([], [], true)
  | (k, c) :: rest =>
    if (body c).ok then
      ((k, (body c).conn) :: (forEachConnection body rest).1,
        (body c).trace ++ (forEachConnection body rest).2.1,
        (forEachConnection body rest).2.2)
    else ((k, (body c).conn) :: rest, (body c).trace, false)

/-- The outcome of a `void` method whose asserts held or not. -/
def finished (ok : Bool) : Outcome Unit :=
  if ok then Outcome.returned () else Outcome.aborted

/-- The internal `Selling::removeConnection(id, cause)` (lines 362-379). The returned
iterator is the entry after the destroyed one. -/
def removeConnectionCause (A : CBStateMachine M) (s : Selling M) (id : ConnId)
    (cause : DisconnectCause) : Result M Unit :=
  if s.session.state = SessionState.stopped then
    { state := s, trace := [], outcome := Outcome.aborted }
  else if ¬ s.session.hasConnection id = true then
    { state := s, trace := [], outcome := Outcome.aborted }
  else
    match s.session.get id with
    | none => { state := s, trace := [], outcome := Outcome.raised (Exception.ConnectionDoesNotExist id) }
    | some c =>
      { state := { s with session := s.session.destroyConnection id },
        trace := tryToClaimLastPayment A c ++ [Effect.RemovedConnection id cause],
        outcome := Outcome.returned () }

/-- The method `Selling::addConnection(id, callbacks)` (lines 53-66). -/
def addConnection (A : CBStateMachine M) (s : Selling M) (id : ConnId) : Result M Nat :=
  match s.session.createAndAddConnection A id with
  | none => { state := s, trace := [], outcome := Outcome.aborted }
  | some (session, connection) =>
    { state := { s with session := (session.put id
          ((connection.setMaxPieceIndex s.MAX_PIECE_INDEX).processEvent A
            (Event.SellModeStarted s.terms)).1) },
      trace := ((connection.setMaxPieceIndex s.MAX_PIECE_INDEX).processEvent A
            (Event.SellModeStarted s.terms)).2,
      outcome := Outcome.returned session.connections.length }

/-- The client-initiated `Selling::removeConnection(id)` (lines 68-78). -/
def removeConnection (A : CBStateMachine M) (s : Selling M) (id : ConnId) : Result M Unit :=
  if s.session.state = SessionState.stopped then
    { state := s, trace := [], outcome := Outcome.raised Exception.StateIncompatibleOperation }
  else if ¬ s.session.hasConnection id = true then
    { state := s, trace := [], outcome := Outcome.raised (Exception.ConnectionDoesNotExist id) }
  else removeConnectionCause A s id DisconnectCause.client

/-- The method `Selling::startUploading` (lines 80-106). -/
def startUploading (A : CBStateMachine M) (s : Selling M) (id : ConnId) (terms : BuyerTerms)
    (contractKeyPair : KeyPair) (finalPkHash : PubKeyHash) : Result M Unit :=
  if s.session.state = SessionState.stopped then
    { state := s, trace := [], outcome := Outcome.raised Exception.StateIncompatibleOperation }
  else if ¬ s.session.hasConnection id = true then
    { state := s, trace := [],
      outcome := Outcome.raised (Exception.PeerNotReadyToStartUploading
        PeerNotReadyToStartUploadingCause.connection_gone) }
  else
    match s.session.get id with
    | none => { state := s, trace := [], outcome := Outcome.raised (Exception.ConnectionDoesNotExist id) }
    | some c =>
      if ¬ c.inInvited A = true then
        { state := s, trace := [],
          outcome := Outcome.raised (Exception.PeerNotReadyToStartUploading
            PeerNotReadyToStartUploadingCause.connection_not_in_invited_state) }
      else if (c.announcedModeAndTermsFromPeer A).modeAnnounced ≠ ModeAnnounced.buy then
        { state := s, trace := [], outcome := Outcome.aborted }
      else if (c.announcedModeAndTermsFromPeer A).buyModeTerms ≠ terms then
        { state := s, trace := [],
          outcome := Outcome.raised (Exception.PeerNotReadyToStartUploading
            PeerNotReadyToStartUploadingCause.terms_expired) }
      else
        { state := { s with session := (s.session.put id
              (c.processEvent A (Event.Joined contractKeyPair finalPkHash)).1) },
          trace := (c.processEvent A (Event.Joined contractKeyPair finalPkHash)).2,
          outcome := Outcome.returned () }

/-- The body of the loop of `Selling::pieceLoaded` for one connection (lines 116-127). -/
def pieceLoadedBody (A : CBStateMachine M) (s : Selling M) (data : PieceData) (index : Int)
    (c : Connection M) : Step M :=
  if ¬ c.inServicingPieceRequests A = true then { conn := c, trace := [], ok := true }
  else if s.session.state = SessionState.started then
    tryToSendPieces A s
      { c with pieceDeliveryPipeline := c.pieceDeliveryPipeline.dataReady index data }
  else
    { conn := { c with pieceDeliveryPipeline := c.pieceDeliveryPipeline.dataReady index data },
      trace := [], ok := true }

/-- The method `Selling::pieceLoaded(data, index)` (lines 108-129). -/
def pieceLoaded (A : CBStateMachine M) (s : Selling M) (data : PieceData) (index : Int) :
    Result M Unit :=
  if s.session.state = SessionState.stopped then
    { state := s, trace := [], outcome := Outcome.returned () }
  else
    { state := { s with session := { s.session with connections :=
          (forEachConnection (pieceLoadedBody A s data index) s.session.connections).1 } },
      trace := (forEachConnection (pieceLoadedBody A s data index) s.session.connections).2.1,
      outcome := finished
        (forEachConnection (pieceLoadedBody A s data index) s.session.connections).2.2 }

/-- The method `Selling::pieceRequested(id, index)` (lines 180-200). -/
def pieceRequested (A : CBStateMachine M) (s : Selling M) (id : ConnId) (index : Int) :
    Result M Unit :=
  if s.session.state = SessionState.stopped then
    { state := s, trace := [], outcome := Outcome.aborted }
  else if ¬ s.session.hasConnection id = true then
    { state := s, trace := [], outcome := Outcome.aborted }
  else
    match s.session.get id with
    | none => { state := s, trace := [], outcome := Outcome.raised (Exception.ConnectionDoesNotExist id) }
    | some connection =>
      match connection.pieceDeliveryPipeline.add index with
      | none => { state := s, trace := [], outcome := Outcome.aborted }
      | some pipeline =>
        if s.session.state = SessionState.started then
          { state := { s with session := (s.session.put id
                (tryToLoadPieces A s { connection with pieceDeliveryPipeline := pipeline }).conn) },
            trace := (tryToLoadPieces A s
                { connection with pieceDeliveryPipeline := pipeline }).trace,
            outcome := finished (tryToLoadPieces A s
                { connection with pieceDeliveryPipeline := pipeline }).ok }
        else
          { state := { s with session := (s.session.put id
                { connection with pieceDeliveryPipeline := pipeline }) },
            trace := [], outcome := Outcome.returned () }

/-- The common shape of `invalidPieceRequested`, `paymentInterrupted` and
`receivedInvalidPayment`: two asserts, the removal with the given cause, and the throw of
`StateMachineDeletedException`. -/
def removeThenSignalDeletion (A : CBStateMachine M) (s : Selling M) (id : ConnId)
    (cause : DisconnectCause) : Result M Unit :=
  if s.session.state = SessionState.stopped then
    { state := s, trace := [], outcome := Outcome.aborted }
  else if ¬ s.session.hasConnection id = true then
    { state := s, trace := [], outcome := Outcome.aborted }
  else
    match (removeConnectionCause A s id cause).outcome with
    | Outcome.returned _ =>
      { state := (removeConnectionCause A s id cause).state,
        trace := (removeConnectionCause A s id cause).trace,
        outcome := Outcome.raised Exception.StateMachineDeletedException }
    | _ => removeConnectionCause A s id cause

/-- The method `Selling::invalidPieceRequested(id)` (lines 202-215). -/
def invalidPieceRequested (A : CBStateMachine M) (s : Selling M) (id : ConnId) : Result M Unit :=
  removeThenSignalDeletion A s id DisconnectCause.buyer_requested_invalid_piece

/-- The method `Selling::paymentInterrupted(id)` (lines 217-230). -/
def paymentInterrupted (A : CBStateMachine M) (s : Selling M) (id : ConnId) : Result M Unit :=
  removeThenSignalDeletion A s id DisconnectCause.buyer_interrupted_payment

/-- The method `Selling::receivedValidPayment(id, signature)` (lines 232-248). -/
def receivedValidPayment (A : CBStateMachine M) (s : Selling M) (id : ConnId)
    (_signature : Signature) : Result M Unit :=
  match s.session.get id with
  | none => { state := s, trace := [], outcome := Outcome.raised (Exception.ConnectionDoesNotExist id) }
  | some connection =>
    match connection.pieceDeliveryPipeline.paymentReceived with
    | none =>
      { state := s,
        trace := [Effect.ReceivedValidPayment id (connection.payee A).price
          (connection.payee A).numberOfPaymentsMade (connection.payee A).amountPaid],
        outcome := Outcome.raised Exception.PipelineLogicError }
    | some pipeline =>
      if s.session.state = SessionState.started then
        { state := { s with session := (s.session.put id
              (sendThenLoad A s { connection with pieceDeliveryPipeline := pipeline }).conn) },
          trace := Effect.ReceivedValidPayment id (connection.payee A).price
              (connection.payee A).numberOfPaymentsMade (connection.payee A).amountPaid ::
            (sendThenLoad A s { connection with pieceDeliveryPipeline := pipeline }).trace,
          outcome := finished
            (sendThenLoad A s { connection with pieceDeliveryPipeline := pipeline }).ok }
      else
        { state := { s with session := (s.session.put id
              { connection with pieceDeliveryPipeline := pipeline }) },
          trace := [Effect.ReceivedValidPayment id (connection.payee A).price
            (connection.payee A).numberOfPaymentsMade (connection.payee A).amountPaid],
          outcome := Outcome.returned () }

/-- The method `Selling::receivedInvalidPayment(id, signature)` (lines 250-263). -/
def receivedInvalidPayment (A : CBStateMachine M) (s : Selling M) (id : ConnId)
    (_signature : Signature) : Result M Unit :=
  removeThenSignalDeletion A s id DisconnectCause.buyer_sent_invalid_payment

/-- The method `Selling::remoteMessageOverflow(id)` (lines 265-270). -/
def remoteMessageOverflow (A : CBStateMachine M) (s : Selling M) (id : ConnId) : Result M Unit :=
  removeConnectionCause A s id DisconnectCause.buyer_message_overflow

/-- The method `Selling::leavingState()` (lines 272-280). -/
def leavingState (A : CBStateMachine M) (s : Selling M) : Result M Unit :=
  { state := s,
    trace := (s.session.connections.map (fun p => tryToClaimLastPayment A p.2)).flatten,
    outcome := Outcome.returned () }

/-- The body of the loop of `Selling::start` for one connection (lines 299-305). -/
def startBody (A : CBStateMachine M) (s : Selling M) (c : Connection M) : Step M :=
  if c.inServicingPieceRequests A = true then sendThenLoad A s c
  else { conn := c, trace := [], ok := true }

/-- The method `Selling::start()` (lines 282-307). -/
def start (A : CBStateMachine M) (s : Selling M) : Result M Unit :=
  if s.session.state = SessionState.started then
    { state := s, trace := [], outcome := Outcome.raised Exception.StateIncompatibleOperation }
  else
    { state := { s with session :=
          { state := SessionState.started,
            connections := (forEachConnection
              (startBody A { s with session := { s.session with state := SessionState.started } })
              s.session.connections).1 } },
      trace := (forEachConnection
          (startBody A { s with session := { s.session with state := SessionState.started } })
          s.session.connections).2.1,
      outcome := finished (forEachConnection
          (startBody A { s with session := { s.session with state := SessionState.started } })
          s.session.connections).2.2 }

/-- The loop of `Selling::stop` (lines 317-318): `removeConnection(it->first, client)`
for the entry at the cursor, the cursor then moving to the entry `destroyConnection`
returns, which is the next one in key order. -/
def removeEach (A : CBStateMachine M) : List ConnId → Selling M → Result M Unit
  | [], s => { state := s, trace := [], outcome := Outcome.returned () }
  | id :: rest, s =>
    match (removeConnectionCause A s id DisconnectCause.client).outcome with
    | Outcome.returned _ =>
      { state := (removeEach A rest (removeConnectionCause A s id DisconnectCause.client).state).state,
        trace := (removeConnectionCause A s id DisconnectCause.client).trace ++
          (removeEach A rest (removeConnectionCause A s id DisconnectCause.client).state).trace,
        outcome :=
          (removeEach A rest (removeConnectionCause A s id DisconnectCause.client).state).outcome }
    | _ => removeConnectionCause A s id DisconnectCause.client

/-- The method `Selling::stop()` (lines 309-322). -/
def stop (A : CBStateMachine M) (s : Selling M) : Result M Unit :=
  if s.session.state = SessionState.stopped then
    { state := s, trace := [], outcome := Outcome.raised Exception.StateIncompatibleOperation }
  else
    match (removeEach A s.ids s).outcome with
    | Outcome.returned _ =>
      { state := { (removeEach A s.ids s).state with session :=
            { (removeEach A s.ids s).state.session with state := SessionState.stopped } },
        trace := (removeEach A s.ids s).trace,
        outcome := Outcome.returned () }
    | _ => removeEach A s.ids s

/-- The method `Selling::pause()` (lines 324-334). -/
def pause (s : Selling M) : Result M Unit :=
  if s.session.state = SessionState.paused ∨ s.session.state = SessionState.stopped then
    { state := s, trace := [], outcome := Outcome.raised Exception.StateIncompatibleOperation }
  else
    { state := { s with session := { s.session with state := SessionState.paused } },
      trace := [], outcome := Outcome.returned () }

/-- The loop of `Selling::updateTerms` (lines 348-349). -/
def announceTerms (A : CBStateMachine M) (terms : SellerTerms) :
    ConnectionMap M → ConnectionMap M × List Effect
  | [] => ([], [])
  | (k, c) :: rest =>
    ((k, (c.processEvent A (Event.UpdateTerms terms)).1) :: (announceTerms A terms rest).1,
      (c.processEvent A (Event.UpdateTerms terms)).2 ++ (announceTerms A terms rest).2)

/-- The method `Selling::updateTerms(terms)` (lines 341-350). -/
def updateTerms (A : CBStateMachine M) (s : Selling M) (terms : SellerTerms) : Result M Unit :=
  { state := { s with terms := terms, session := { s.session with connections :=
        (announceTerms A terms s.session.connections).1 } },
    trace := (announceTerms A terms s.session.connections).2,
    outcome := Outcome.returned () }

/-- The loop of the constructor over the existing peers (lines 40-49). -/
def announceSellMode (A : CBStateMachine M) (terms : SellerTerms) (maxPieceIndex : Int) :
    ConnectionMap M → ConnectionMap M × List Effect
  | [] => ([], [])
  | (k, c) :: rest =>
    ((k, ((c.setMaxPieceIndex maxPieceIndex).processEvent A (Event.SellModeStarted terms)).1) ::
        (announceSellMode A terms maxPieceIndex rest).1,
      ((c.setMaxPieceIndex maxPieceIndex).processEvent A (Event.SellModeStarted terms)).2 ++
        (announceSellMode A terms maxPieceIndex rest).2)

/-- The constructor `Selling::Selling` (lines 19-51): the caps are fixed at 4 and 2 and
every existing peer is told the maximum piece index and the sell mode. The result is the
controller and the events driven. -/
def construct (A : CBStateMachine M) (session : Session M) (terms : SellerTerms)
    (MAX_PIECE_INDEX : Int) : Selling M × List Effect :=
  ({ session := { session with connections :=
        (announceSellMode A terms MAX_PIECE_INDEX session.connections).1 },
     terms := terms, MAX_PIECE_INDEX := MAX_PIECE_INDEX,
     maxOutstandingPayments := 4, maxPiecesToPreload := 2 },
   (announceSellMode A terms MAX_PIECE_INDEX session.connections).2)

/-- The method `Selling::terms()` (lines 357-360). -/
def getTerms (s : Selling M) : SellerTerms :=
  s.terms

end Selling

/-! ## Calls on the controller as data -/

/-- An inbound call on the controller, with its arguments. -/
inductive Op where
  | addConnection (id : ConnId)
  | removeConnection (id : ConnId)
  | startUploading (id : ConnId) (terms : BuyerTerms) (contractKeyPair : KeyPair)
      (finalPkHash : PubKeyHash)
  | pieceLoaded (data : PieceData) (index : Int)
  | pieceRequested (id : ConnId) (index : Int)
  | receivedValidPayment (id : ConnId) (signature : Signature)
  | receivedInvalidPayment (id : ConnId) (signature : Signature)
  | invalidPieceRequested (id : ConnId)
  | paymentInterrupted (id : ConnId)
  | remoteMessageOverflow (id : ConnId)
  | start
  | pause
  | stop
  | updateTerms (terms : SellerTerms)
  | leavingState
  deriving DecidableEq, Repr

/-- Whether the call is one of the lifecycle commands `start`, `pause`, `stop`. -/
def Op.isLifecycleCommand : Op → Bool
  | Op.start => true
  | Op.pause => true
  | Op.stop => true
  | _ => false

/-- A result with the returned value forgotten. -/
def Result.void {M α : Type} (r : Result M α) : Result M Unit :=
  { state := r.state, trace := r.trace,
    outcome := match r.outcome with
      | Outcome.returned _ => Outcome.returned ()
      | Outcome.raised e => Outcome.raised e
      | Outcome.aborted => Outcome.aborted }

/-- The call `op` made on the controller in state `s`. -/
def Selling.perform {M : Type} (A : CBStateMachine M) (s : Selling M) : Op → Result M Unit
  | Op.addConnection id => (s.addConnection A id).void
  | Op.removeConnection id => s.removeConnection A id
  | Op.startUploading id terms kp h => s.startUploading A id terms kp h
  | Op.pieceLoaded data index => s.pieceLoaded A data index
  | Op.pieceRequested id index => s.pieceRequested A id index
  | Op.receivedValidPayment id sig => s.receivedValidPayment A id sig
  | Op.receivedInvalidPayment id sig => s.receivedInvalidPayment A id sig
  | Op.invalidPieceRequested id => s.invalidPieceRequested A id
  | Op.paymentInterrupted id => s.paymentInterrupted A id
  | Op.remoteMessageOverflow id => s.remoteMessageOverflow A id
  | Op.start => s.start A
  | Op.pause => s.pause
  | Op.stop => s.stop A
  | Op.updateTerms terms => s.updateTerms A terms
  | Op.leavingState => s.leavingState A

/-- The state after a sequence of calls, made one after the other. A call that ends in
a failed `assert` ends the run. -/
def Selling.run {M : Type} (A : CBStateMachine M) : Selling M → List Op → Selling M
  | s, [] => s
  | s, op :: rest =>
    if (s.perform A op).outcome = Outcome.aborted then (s.perform A op).state
    else Selling.run A (s.perform A op).state rest

/-- The pairs of lifecycle states joined by an edge of the lifecycle state machine. -/
def lifecycleEdge : SessionState → SessionState → Bool
  | SessionState.stopped, SessionState.started => true
  | SessionState.paused, SessionState.started => true
  | SessionState.started, SessionState.paused => true
  | SessionState.started, SessionState.stopped => true
  | SessionState.paused, SessionState.stopped => true
  | _, _ => false

/-- The connection id an effect is about. -/
def Effect.connection : Effect → ConnId
  | Effect.RemovedConnection id _ => id
  | Effect.LoadPieceForBuyer id _ => id
  | Effect.ClaimLastPayment id _ => id
  | Effect.ReceivedValidPayment id _ _ _ => id
  | Effect.ProcessEvent id _ => id

/-- Whether an effect is a call of `RemovedConnectionCallback`. -/
def Effect.isRemovedConnection : Effect → Bool
  | Effect.RemovedConnection _ _ => true
  | _ => false

/-! ## A concrete automaton and concrete controller states

They instantiate the general theorems on explicit inputs. -/

/-- The states of the seller side of a small automaton. -/
inductive Phase where
  | ChooseMode
  | ReadyForInvitation
  | Invited
  | ServicingPieceRequests
  deriving DecidableEq, Repr

/-- The state of the small automaton: its phase and the two views. -/
structure Machine where
  phase : Phase
  announced : AnnouncedModeAndTerms
  payee : Payee
  deriving DecidableEq, Repr

/-- A small automaton: selling mode leads to `ReadyForInvitation`, joining a contract to
`ServicingPieceRequests`, and a loaded piece or new terms leave the phase as it is. -/
def sampleMachine : CBStateMachine Machine where
  fresh := { phase := Phase.ChooseMode,
             announced := { modeAnnounced := ModeAnnounced.none, buyModeTerms := 0 },
             payee := { price := 0, numberOfPaymentsMade := 0, amountPaid := 0 } }
  processEvent := fun m e =>
    match e with
    | Event.SellModeStarted _ => { m with phase := Phase.ReadyForInvitation }
    | Event.Joined _ _ => { m with phase := Phase.ServicingPieceRequests }
    | Event.PieceLoaded _ => m
    | Event.UpdateTerms _ => m
  inInvited := fun m => decide (m.phase = Phase.Invited)
  inServicingPieceRequests := fun m => decide (m.phase = Phase.ServicingPieceRequests)
  announcedModeAndTermsFromPeer := fun m => m.announced
  payee := fun m => m.payee

/-- A connection of the small automaton in the given phase, whose peer announced buy
mode with terms `7` and has made `paid` payments of price `3`. -/
def sampleConnection (id : ConnId) (phase : Phase) (paid : Nat)
    (pipeline : PieceDeliveryPipeline) : Connection Machine :=
  { connectionId := id,
    machine := { phase := phase,
                 announced := { modeAnnounced := ModeAnnounced.buy, buyModeTerms := 7 },
                 payee := { price := 3, numberOfPaymentsMade := paid, amountPaid := 3 * paid } },
    maxPieceIndex := 100,
    pieceDeliveryPipeline := pipeline }

/-- A controller with the caps of the constructor (4 and 2) over the given session. -/
def sampleSelling (state : SessionState) (connections : ConnectionMap Machine) :
    Selling Machine :=
  { session := { state := state, connections := connections },
    terms := 11, MAX_PIECE_INDEX := 100, maxOutstandingPayments := 4, maxPiecesToPreload := 2 }

/-- A registry of three connections: `1` invited, `2` servicing piece requests with one
payment made, `5` servicing piece requests with an empty pipeline. -/
def sampleConnections : ConnectionMap Machine :=
  [(1, sampleConnection 1 Phase.Invited 0 []),
   (2, sampleConnection 2 Phase.ServicingPieceRequests 1
        [{ index := 0, state := PieceState.Sent, data := 40 },
         { index := 1, state := PieceState.Loaded, data := 41 }]),
   (5, sampleConnection 5 Phase.ServicingPieceRequests 0 [])]

/-- A pipeline whose load window is full: six entries, all being loaded. -/
def fullWindow : PieceDeliveryPipeline :=
  [{ index := 10, state := PieceState.Loading, data := 0 },
   { index := 11, state := PieceState.Loading, data := 0 },
   { index := 12, state := PieceState.Loading, data := 0 },
   { index := 13, state := PieceState.Loading, data := 0 },
   { index := 14, state := PieceState.Loading, data := 0 },
   { index := 15, state := PieceState.Loading, data := 0 }]

/-- A registry whose only connection, `1`, is servicing piece requests with its load
window full. -/
def busyConnections : ConnectionMap Machine :=
  [(1, sampleConnection 1 Phase.ServicingPieceRequests 0 fullWindow)]

/-- A registry whose only connection, `1`, is servicing piece requests and already has
piece `5` loaded. -/
def repeatConnections : ConnectionMap Machine :=
  [(1, sampleConnection 1 Phase.ServicingPieceRequests 0
        [{ index := 5, state := PieceState.Loaded, data := 44 }])]

/-! ## Calls on a pipeline as data -/

/-- A call the controller makes on the pipeline of a connection: `add` in
`pieceRequested`, `dataReady` in `pieceLoaded`, `getNextBatchToLoad` in `tryToLoadPieces`,
`getNextBatchToSend` in `tryToSendPieces`, `paymentReceived` in `receivedValidPayment`. -/
inductive PipelineOp where
  | add (index : Int)
  | dataReady (index : Int) (data : PieceData)
  | getNextBatchToLoad
  | getNextBatchToSend
  | paymentReceived
  deriving DecidableEq, Repr

namespace PieceDeliveryPipeline

/-- The pipeline after one call, with the limits the controller passes:
`maxOutstandingPayments + maxPiecesToPreload` to `getNextBatchToLoad` and
`maxOutstandingPayments` to `getNextBatchToSend`. A rejected `add` or `paymentReceived`
leaves the pipeline as it was. -/
def perform (maxOutstandingPayments maxPiecesToPreload : Nat) (p : PieceDeliveryPipeline) :
    PipelineOp → PieceDeliveryPipeline
  | PipelineOp.add index => (p.add index).getD p
  | PipelineOp.dataReady index data => p.dataReady index data
  | PipelineOp.getNextBatchToLoad =>
    (p.getNextBatchToLoad (maxOutstandingPayments + maxPiecesToPreload)).2
  | PipelineOp.getNextBatchToSend => (p.getNextBatchToSend maxOutstandingPayments).2
  | PipelineOp.paymentReceived => p.paymentReceived.getD p

/-- The pipeline after a sequence of calls. -/
def run (maxOutstandingPayments maxPiecesToPreload : Nat) :
    PieceDeliveryPipeline → List PipelineOp → PieceDeliveryPipeline
  | p, [] => p
  | p, op :: rest =>
    run maxOutstandingPayments maxPiecesToPreload
      (perform maxOutstandingPayments maxPiecesToPreload p op) rest

/-- The number of entries in the given state. -/
def countIn (st : PieceState) (p : PieceDeliveryPipeline) : Nat :=
  p.countP (fun e => e.state = st)

/-- The number of entries in flight: Requested, Loading, Loaded or Sent. -/
def inFlight (p : PieceDeliveryPipeline) : Nat :=
  countIn PieceState.Requested p + countIn PieceState.Loading p +
    countIn PieceState.Loaded p + countIn PieceState.Sent p

end PieceDeliveryPipeline

/-- The pipeline `p1` is what a sequence of the controller's calls makes of the pipeline
`p`. -/
@[reducible] def PieceDeliveryPipeline.Reaches (maxOutstandingPayments maxPiecesToPreload : Nat)
    (p p1 : PieceDeliveryPipeline) : Prop :=
  ∃ ops, p1 = PieceDeliveryPipeline.run maxOutstandingPayments maxPiecesToPreload p ops

/-- The connection `c1` has the pipeline of a new connection, or the pipeline that a
sequence of the controller's calls makes of the pipeline of the connection registered
under `j` in the controller state `s`. -/
@[reducible] def Selling.Continues {M : Type} (s : Selling M) (j : ConnId)
    (c1 : Connection M) : Prop :=
  c1.pieceDeliveryPipeline = [] ∨
    ∃ c, s.session.get j = some c ∧
      PieceDeliveryPipeline.Reaches s.maxOutstandingPayments s.maxPiecesToPreload
        c.pieceDeliveryPipeline c1.pieceDeliveryPipeline

/-! ## The internal removal, statement by statement -/

/-- The statements of the internal `Selling::removeConnection(id, cause)` that follow its
two asserts and the fetch `c = _session->get(id)`: the claim of the last payment
`tryToClaimLastPayment(c)` (line 372), the notification of the client
`_removedConnection(id, cause)` (line 375), and the destruction of the connection
`_session->destroyConnection(id)` (line 378). -/
inductive RemovalStatement where
  | claimLastPayment
  | notifyRemoved
  | destroy
  deriving DecidableEq, Repr

/-- What a statement of the internal `removeConnection(id, cause)` does to the world
around the controller: a call of a client callback, recorded with the session as it is
at the moment of the call, or the destruction of a connection in the registry, recorded
with the session it leaves behind. -/
inductive RemovalEvent (M : Type) where
  | called (e : Effect) (during : Session M)
  | destroyed (id : ConnId) (after : Session M)
  deriving DecidableEq, Repr

/-- The callbacks among the events, in order. -/
def RemovalEvent.callbacks {M : Type} : List (RemovalEvent M) → List Effect
  | [] => []
  | RemovalEvent.called e _ :: rest => e :: RemovalEvent.callbacks rest
  | RemovalEvent.destroyed _ _ :: rest => RemovalEvent.callbacks rest

/-- One statement of the internal `removeConnection(id, cause)` run in the controller
state `s`, with `c` the connection fetched before the first statement: the state after
the statement and what it did. The two callbacks leave the controller state as it is;
the destruction removes `id` from the registry. -/
def Selling.runRemovalStatement {M : Type} (A : CBStateMachine M) (id : ConnId)
    (cause : DisconnectCause) (c : Connection M) (s : Selling M) :
    RemovalStatement → Selling M × List (RemovalEvent M)
  | RemovalStatement.claimLastPayment =>
    (s, (Selling.tryToClaimLastPayment A c).map (fun e => RemovalEvent.called e s.session))
  | RemovalStatement.notifyRemoved =>
    (s, [RemovalEvent.called (Effect.RemovedConnection id cause) s.session])
  | RemovalStatement.destroy =>
    ({ s with session := s.session.destroyConnection id },
      [RemovalEvent.destroyed id (s.session.destroyConnection id)])

/-- Statements run one after the other, each in the state the one before it left. -/
def Selling.runRemovalStatements {M : Type} (A : CBStateMachine M) (id : ConnId)
    (cause : DisconnectCause) (c : Connection M) :
    Selling M → List RemovalStatement → Selling M × List (RemovalEvent M)
  | s, [] => (s, [])
  | s, statement :: rest =>
    ((Selling.runRemovalStatements A id cause c
        (Selling.runRemovalStatement A id cause c s statement).1 rest).1,
      (Selling.runRemovalStatement A id cause c s statement).2 ++
        (Selling.runRemovalStatements A id cause c
          (Selling.runRemovalStatement A id cause c s statement).1 rest).2)

/-- The statements of the internal `removeConnection(id, cause)` in the order of the
source: line 372, line 375, line 378. -/
def Selling.removeConnectionStatements : List RemovalStatement :=
  [RemovalStatement.claimLastPayment, RemovalStatement.notifyRemoved,
   RemovalStatement.destroy]

/-- What a run of the internal `removeConnection(id, cause)` leaves behind: the state,
what its statements did, in order, and how the call ended. -/
structure RemovalRun (M : Type) where
  state : Selling M
  log : List (RemovalEvent M)
  outcome : Outcome Unit
  deriving DecidableEq, Repr

/-- The internal `Selling::removeConnection(id, cause)` (lines 362-379) statement by
statement: the two asserts (lines 364-365), the fetch of the connection (line 369), and
then the three statements of lines 372, 375 and 378 in this order. -/
def Selling.removeConnectionSteps {M : Type} (A : CBStateMachine M) (s : Selling M)
    (id : ConnId) (cause : DisconnectCause) : RemovalRun M :=
  if s.session.state = SessionState.stopped then
    { state := s, log := [], outcome := Outcome.aborted }
  else if ¬ s.session.hasConnection id = true then
    { state := s, log := [], outcome := Outcome.aborted }
  else
    match s.session.get id with
    | none =>
      { state := s, log := [], outcome := Outcome.raised (Exception.ConnectionDoesNotExist id) }
    | some c =>
      { state := (Selling.runRemovalStatements A id cause c s
          Selling.removeConnectionStatements).1,
        log := (Selling.runRemovalStatements A id cause c s
          Selling.removeConnectionStatements).2,
        outcome := Outcome.returned () }

/-- Whether an effect is a call of `ClaimLastPayment`. -/
def Effect.isClaimLastPayment : Effect → Bool
  | Effect.ClaimLastPayment _ _ => true
  | _ => false

/-- Whether an effect is a call of `ReceivedValidPayment`. -/
def Effect.isReceivedValidPayment : Effect → Bool
  | Effect.ReceivedValidPayment _ _ _ _ => true
  | _ => false

/-! ## More concrete inputs -/

/-- A registry whose only connection, `5`, is servicing piece requests with an empty
pipeline. -/
def loneConnections : ConnectionMap Machine :=
  [(5, sampleConnection 5 Phase.ServicingPieceRequests 0 [])]

/-- Seven requests of connection `5`, for the pieces `0` to `6`. -/
def sevenRequests : List Op :=
  [Op.pieceRequested 5 0, Op.pieceRequested 5 1, Op.pieceRequested 5 2, Op.pieceRequested 5 3,
   Op.pieceRequested 5 4, Op.pieceRequested 5 5, Op.pieceRequested 5 6]

/-- Seven requests of connection `5` followed by the arrival of the data of each of the
seven pieces. -/
def sevenRequestsThenData : List Op :=
  sevenRequests ++
    [Op.pieceLoaded 50 0, Op.pieceLoaded 51 1, Op.pieceLoaded 52 2, Op.pieceLoaded 53 3,
     Op.pieceLoaded 54 4, Op.pieceLoaded 55 5, Op.pieceLoaded 56 6]

/-- A registry whose only connection, `1`, is servicing piece requests, has made two
payments, and has piece `0` sent, piece `1` loaded and piece `2` requested. -/
def payingConnections : ConnectionMap Machine :=
  [(1, sampleConnection 1 Phase.ServicingPieceRequests 2
        [{ index := 0, state := PieceState.Sent, data := 40 },
         { index := 1, state := PieceState.Loaded, data := 41 },
         { index := 2, state := PieceState.Requested, data := 0 }])]

end ProtocolSession

/-! ## Theorems -/

namespace ProtocolSession

open Selling

variable {M : Type}

/-! ### The registry -/

theorem Session.hasConnection_iff (s : Session M) (id : ConnId) :
    s.hasConnection id = true ↔ id ∈ s.connections.keys := by
  unfold Session.hasConnection ConnectionMap.keys
  induction s.connections with
  | nil => simp
  | cons p rest ih =>
    simp only [List.any_cons, Bool.or_eq_true, ih, List.map_cons, List.mem_cons, beq_iff_eq]
    constructor
    · rintro (h | h)
      · exact Or.inl h.symm
      · exact Or.inr h
    · rintro (h | h)
      · exact Or.inl h.symm
      · exact Or.inr h

theorem Session.get_isSome_iff (s : Session M) (id : ConnId) :
    (∃ c, s.get id = some c) ↔ s.hasConnection id = true := by
  unfold Session.get Session.hasConnection
  induction s.connections with
  | nil => simp
  | cons p rest ih =>
    by_cases h : p.1 = id
    · simp [List.find?_cons, h]
    · simp [List.find?_cons, h]
      simpa using ih

theorem Session.get_mem (s : Session M) (id : ConnId) (c : Connection M)
    (h : s.get id = some c) : (id, c) ∈ s.connections := by
  unfold Session.get at h
  cases hf : s.connections.find? (fun p => p.1 == id) with
  | none => simp [hf] at h
  | some p =>
    have h1 := List.mem_of_find?_eq_some hf
    have h2 := List.find?_some hf
    simp only [hf, Option.map_some', Option.some.injEq] at h
    simp only [beq_iff_eq] at h2
    have : p = (id, c) := by
      cases p
      simp_all
    exact this ▸ h1

/-- What the internal `removeConnection(id, cause)` does on a session that is not stopped
and has `id` registered. -/
theorem Selling.removeConnectionCause_of_get (A : CBStateMachine M) (s : Selling M)
    (id : ConnId) (cause : DisconnectCause) (c : Connection M)
    (hs : s.session.state ≠ SessionState.stopped) (hc : s.session.get id = some c) :
    removeConnectionCause A s id cause =
      { state := { s with session := s.session.destroyConnection id },
        trace := tryToClaimLastPayment A c ++ [Effect.RemovedConnection id cause],
        outcome := Outcome.returned () } := by
  have hh : s.session.hasConnection id = true := (Session.get_isSome_iff _ _).1 ⟨c, hc⟩
  unfold removeConnectionCause
  simp [hs, hh, hc]

/-- The outcome of the internal `removeConnection(id, cause)` is never an exception. -/
theorem Selling.removeConnectionCause_not_raised (A : CBStateMachine M) (s : Selling M)
    (id : ConnId) (cause : DisconnectCause) (e : Exception) :
    (removeConnectionCause A s id cause).outcome ≠ Outcome.raised e := by
  unfold removeConnectionCause
  by_cases hs : s.session.state = SessionState.stopped
  · simp [hs]
  · by_cases hh : s.session.hasConnection id = true
    · obtain ⟨c, hc⟩ := (Session.get_isSome_iff _ _).2 hh
      simp [hs, hh, hc]
    · simp [hs, hh]

/-- A failed internal `removeConnection(id, cause)` leaves everything as it was. -/
theorem Selling.removeConnectionCause_aborted (A : CBStateMachine M) (s : Selling M)
    (id : ConnId) (cause : DisconnectCause)
    (h : (removeConnectionCause A s id cause).outcome ≠ Outcome.returned ()) :
    removeConnectionCause A s id cause = { state := s, trace := [], outcome := Outcome.aborted } := by
  unfold removeConnectionCause at h ⊢
  by_cases hs : s.session.state = SessionState.stopped
  · simp [hs]
  · by_cases hh : s.session.hasConnection id = true
    · obtain ⟨c, hc⟩ := (Session.get_isSome_iff _ _).2 hh
      simp [hs, hh, hc] at h
    · simp [hs, hh]

theorem ConnectionMap.filter_ne_of_lt (k : ConnId) (rest : ConnectionMap M)
    (h : ∀ a ∈ rest.keys, k < a) : rest.filter (fun p => p.1 != k) = rest := by
  rw [List.filter_eq_self]
  intro p hp
  have : k < p.1 := h p.1 (List.mem_map_of_mem Prod.fst hp)
  simp only [bne_iff_ne, ne_eq]
  exact Nat.ne_of_gt this

/-- The loop of `stop` over a registry with ascending keys removes every entry, in
order. -/
theorem Selling.removeEach_all (A : CBStateMachine M) :
    ∀ (l : ConnectionMap M) (s : Selling M), s.session.connections = l →
      l.keys.Pairwise (fun a b => a < b) → s.session.state ≠ SessionState.stopped →
      removeEach A l.keys s =
        { state := { s with session := { s.session with connections := [] } },
          trace := (l.map (fun p =>
            tryToClaimLastPayment A p.2 ++ [Effect.RemovedConnection p.1 DisconnectCause.client])).flatten,
          outcome := Outcome.returned () } := by
  intro l
  induction l with
  | nil =>
    intro s hl _ _
    simp only [ConnectionMap.keys, List.map_nil, removeEach, List.flatten_nil]
    rw [← hl]
  | cons p rest ih =>
    intro s hl hp hs
    obtain ⟨k, c⟩ := p
    have hget : s.session.get k = some c := by
      simp [Session.get, hl]
    have hrem := removeConnectionCause_of_get A s k DisconnectCause.client c hs hget
    simp only [ConnectionMap.keys, List.map_cons, List.pairwise_cons] at hp
    have hdestroy : (s.session.destroyConnection k).connections = rest := by
      simp only [Session.destroyConnection, hl, List.filter_cons, bne_self_eq_false]
      exact ConnectionMap.filter_ne_of_lt k rest hp.1
    have ih' := ih { s with session := s.session.destroyConnection k } hdestroy hp.2
      (by simpa [Session.destroyConnection] using hs)
    simp only [ConnectionMap.keys] at ih'
    simp only [ConnectionMap.keys, List.map_cons, removeEach, hrem, ih', List.flatten_cons]
    simp [Session.destroyConnection]

theorem count_removed_claim (A : CBStateMachine M) (c : Connection M) (id : ConnId)
    (cause : DisconnectCause) :
    (tryToClaimLastPayment A c).count (Effect.RemovedConnection id cause) = 0 := by
  unfold tryToClaimLastPayment
  split <;> simp

theorem count_removed_all (A : CBStateMachine M) (id : ConnId) (cause : DisconnectCause) :
    ∀ (l : ConnectionMap M), l.keys.Nodup →
      ((l.map (fun p => tryToClaimLastPayment A p.2 ++
          [Effect.RemovedConnection p.1 DisconnectCause.client])).flatten).count
        (Effect.RemovedConnection id cause)
      = if id ∈ l.keys ∧ cause = DisconnectCause.client then 1 else 0 := by
  intro l
  induction l with
  | nil => simp [ConnectionMap.keys]
  | cons p rest ih =>
    intro hn
    simp only [ConnectionMap.keys, List.map_cons, List.nodup_cons] at hn
    have ih' := ih hn.2
    simp only [ConnectionMap.keys] at ih'
    simp only [ConnectionMap.keys, List.map_cons, List.flatten_cons, List.count_append, ih',
      count_removed_claim, List.mem_cons, List.count_cons, List.count_nil, zero_add]
    by_cases h1 : p.1 = id
    · have hnot : id ∉ List.map Prod.fst rest := h1 ▸ hn.1
      by_cases h2 : cause = DisconnectCause.client
      · simp [h1, h2, hnot]
      · have h2' : ¬ DisconnectCause.client = cause := fun h => h2 h.symm
        simp [h1, h2, h2', hnot]
    · have h1' : ¬ id = p.1 := fun h => h1 h.symm
      have hor : (id = p.1 ∨ id ∈ List.map Prod.fst rest) ↔ id ∈ List.map Prod.fst rest :=
        ⟨fun h => h.resolve_left h1', Or.inr⟩
      simp [h1]
      exact if_congr (and_congr_left' hor.symm) rfl rfl

/-! ### C1 -/

/-- C1: on a started or paused session whose registry is a well-formed map, `stop()`
returns normally, leaves the registry empty and the lifecycle state stopped, and calls
`RemovedConnectionCallback` exactly once for each id registered before, with cause
`client`, and for nothing else. -/
theorem stop_removes_every_connection (A : CBStateMachine M) (s : Selling M)
    (hs : s.state = SessionState.started ∨ s.state = SessionState.paused)
    (hv : s.session.connections.Valid) :
    (stop A s).outcome = Outcome.returned () ∧
    (stop A s).state.session.connections = [] ∧
    (stop A s).state.state = SessionState.stopped ∧
    ∀ (id : ConnId) (cause : DisconnectCause),
      (stop A s).trace.count (Effect.RemovedConnection id cause) =
        if id ∈ s.ids ∧ cause = DisconnectCause.client then 1 else 0 := by
  have hns : s.session.state ≠ SessionState.stopped := by
    rcases hs with h | h <;> (unfold Selling.state at h; rw [h]; decide)
  have hall := removeEach_all A s.session.connections s rfl hv.1 hns
  have hnodup : s.session.connections.keys.Nodup :=
    hv.1.imp (fun h => Nat.ne_of_lt h)
  have hstop : stop A s =
      { state := { s with session := { state := SessionState.stopped, connections := [] } },
        trace := (s.session.connections.map (fun p => tryToClaimLastPayment A p.2 ++
          [Effect.RemovedConnection p.1 DisconnectCause.client])).flatten,
        outcome := Outcome.returned () } := by
    unfold stop Selling.ids
    simp [hns, hall]
  rw [hstop]
  refine ⟨rfl, rfl, rfl, ?_⟩
  intro id cause
  exact count_removed_all A id cause s.session.connections hnodup

/-- The statement of C1 on a paused session with three connections. -/
theorem stop_removes_every_connection_witness :
    (sampleSelling SessionState.paused sampleConnections).state = SessionState.paused ∧
    (stop sampleMachine (sampleSelling SessionState.paused sampleConnections)).state.session.connections
      = [] ∧
    (stop sampleMachine (sampleSelling SessionState.paused sampleConnections)).trace.count
      (Effect.RemovedConnection 2 DisconnectCause.client) = 1 :=
  ⟨by decide,
   (stop_removes_every_connection sampleMachine
      (sampleSelling SessionState.paused sampleConnections) (Or.inr (by decide))
      ⟨by decide, by decide⟩).2.1,
   by
    have h := (stop_removes_every_connection sampleMachine
      (sampleSelling SessionState.paused sampleConnections) (Or.inr (by decide))
      ⟨by decide, by decide⟩).2.2.2 2 DisconnectCause.client
    rw [h]
    decide⟩

/-! ### C2 -/

/-- C2: on a stopped session with an empty registry, the single call `addConnection(1)`
returns normally and leaves the session stopped with connection `1` registered, so the
state reached violates "stopped implies no connection". -/
theorem addConnection_while_stopped_keeps_connection :
    (sampleSelling SessionState.stopped []).state = SessionState.stopped ∧
    (sampleSelling SessionState.stopped []).ids = [] ∧
    ((sampleSelling SessionState.stopped []).perform sampleMachine (Op.addConnection 1)).outcome
      = Outcome.returned () ∧
    (Selling.run sampleMachine (sampleSelling SessionState.stopped []) [Op.addConnection 1]).state
      = SessionState.stopped ∧
    (Selling.run sampleMachine (sampleSelling SessionState.stopped []) [Op.addConnection 1]).ids
      = [1] := by
  decide

/-! ### C3 -/

theorem Selling.removeConnectionCause_cases (A : CBStateMachine M) (s : Selling M)
    (id : ConnId) (cause : DisconnectCause) :
    (removeConnectionCause A s id cause).outcome = Outcome.returned () ∨
    removeConnectionCause A s id cause = { state := s, trace := [], outcome := Outcome.aborted } := by
  by_cases h : (removeConnectionCause A s id cause).outcome = Outcome.returned ()
  · exact Or.inl h
  · exact Or.inr (removeConnectionCause_aborted A s id cause h)

/-- The internal `removeConnection(id, cause)` never changes the lifecycle state. -/
theorem Selling.removeConnectionCause_state (A : CBStateMachine M) (s : Selling M)
    (id : ConnId) (cause : DisconnectCause) :
    (removeConnectionCause A s id cause).state.session.state = s.session.state := by
  unfold removeConnectionCause
  split
  · rfl
  · split
    · rfl
    · split <;> rfl

/-- The loop of `stop` ends normally or in a failed `assert`, never in an exception, and
never changes the lifecycle state. -/
theorem Selling.removeEach_outcome (A : CBStateMachine M) :
    ∀ (l : List ConnId) (s : Selling M),
      ((removeEach A l s).outcome = Outcome.returned () ∨
        (removeEach A l s).outcome = Outcome.aborted) ∧
      (removeEach A l s).state.session.state = s.session.state := by
  intro l
  induction l with
  | nil => intro s; simp [removeEach]
  | cons id rest ih =>
    intro s
    rcases removeConnectionCause_cases A s id DisconnectCause.client with h | h
    · have hst := removeConnectionCause_state A s id DisconnectCause.client
      have := ih (removeConnectionCause A s id DisconnectCause.client).state
      simp only [removeEach, h]
      exact ⟨this.1, this.2.trans hst⟩
    · simp [removeEach, h]

/-- The outcome of a `void` method built from its asserts is never an exception. -/
theorem Selling.finished_ne_raised (b : Bool) (e : Exception) :
    finished b ≠ Outcome.raised e := by
  cases b <;> simp [finished]

/-- C3: `start()` raises `StateIncompatibleOperation` exactly when the session is
started, `pause()` exactly when it is not started, `stop()` exactly when it is stopped;
these are the only exceptions the three commands raise, and a command that raises
leaves the whole controller state (lifecycle state and registry) as it was and has
issued no callback and no automaton event. -/
theorem lifecycle_commands_reject_noop (A : CBStateMachine M) (s : Selling M) :
    ((start A s).outcome = Outcome.raised Exception.StateIncompatibleOperation ↔
      s.state = SessionState.started) ∧
    ((pause s).outcome = Outcome.raised Exception.StateIncompatibleOperation ↔
      s.state ≠ SessionState.started) ∧
    ((stop A s).outcome = Outcome.raised Exception.StateIncompatibleOperation ↔
      s.state = SessionState.stopped) ∧
    (∀ e, (start A s).outcome = Outcome.raised e →
      e = Exception.StateIncompatibleOperation ∧ (start A s).state = s ∧ (start A s).trace = []) ∧
    (∀ e, (pause s).outcome = Outcome.raised e →
      e = Exception.StateIncompatibleOperation ∧ (pause s).state = s ∧ (pause s).trace = []) ∧
    (∀ e, (stop A s).outcome = Outcome.raised e →
      e = Exception.StateIncompatibleOperation ∧ (stop A s).state = s ∧ (stop A s).trace = []) := by
  have hstart : ∀ e, (start A s).outcome = Outcome.raised e →
      s.state = SessionState.started ∧ e = Exception.StateIncompatibleOperation ∧
        (start A s).state = s ∧ (start A s).trace = [] := by
    intro e
    unfold start Selling.state
    by_cases h : s.session.state = SessionState.started
    · simp only [if_pos h]
      intro he
      simp only [Outcome.raised.injEq] at he
      exact ⟨h, he.symm, by trivial, by trivial⟩
    · simp only [if_neg h]
      intro he
      exact absurd he (finished_ne_raised _ _)
  have hpause : ∀ e, (pause s).outcome = Outcome.raised e →
      s.state ≠ SessionState.started ∧ e = Exception.StateIncompatibleOperation ∧
        (pause s).state = s ∧ (pause s).trace = [] := by
    intro e
    unfold pause Selling.state
    by_cases h : s.session.state = SessionState.paused ∨ s.session.state = SessionState.stopped
    · simp only [if_pos h]
      intro he
      simp only [Outcome.raised.injEq] at he
      refine ⟨?_, he.symm, by trivial, by trivial⟩
      rcases h with h | h <;> (rw [h]; decide)
    · simp only [if_neg h]
      intro he
      simp at he
  have hstop : ∀ e, (stop A s).outcome = Outcome.raised e →
      s.state = SessionState.stopped ∧ e = Exception.StateIncompatibleOperation ∧
        (stop A s).state = s ∧ (stop A s).trace = [] := by
    intro e
    unfold stop Selling.state
    by_cases h : s.session.state = SessionState.stopped
    · simp only [if_pos h]
      intro he
      simp only [Outcome.raised.injEq] at he
      exact ⟨h, he.symm, by trivial, by trivial⟩
    · simp only [if_neg h]
      rcases (removeEach_outcome A s.ids s).1 with h1 | h1
      · simp [h1]
      · simp [h1]
  refine ⟨⟨fun h => (hstart _ h).1, ?_⟩, ⟨fun h => (hpause _ h).1, ?_⟩,
    ⟨fun h => (hstop _ h).1, ?_⟩, fun e h => (hstart e h).2, fun e h => (hpause e h).2,
    fun e h => (hstop e h).2⟩
  · intro h
    unfold Selling.state at h
    simp [start, h]
  · intro h
    unfold Selling.state at h
    have : s.session.state = SessionState.paused ∨ s.session.state = SessionState.stopped := by
      cases hs : s.session.state <;> simp_all
    simp [pause, this]
  · intro h
    unfold Selling.state at h
    simp [stop, h]

/-- The statement of C3 on a started session: `start()` raises and changes nothing. -/
theorem lifecycle_commands_reject_noop_witness :
    (start sampleMachine (sampleSelling SessionState.started sampleConnections)).outcome =
      Outcome.raised Exception.StateIncompatibleOperation ∧
    (start sampleMachine (sampleSelling SessionState.started sampleConnections)).state =
      sampleSelling SessionState.started sampleConnections ∧
    (start sampleMachine (sampleSelling SessionState.started sampleConnections)).trace = [] :=
  ⟨by decide,
   ((lifecycle_commands_reject_noop sampleMachine
      (sampleSelling SessionState.started sampleConnections)).2.2.2.1
      Exception.StateIncompatibleOperation (by decide)).2⟩

/-! ### C4 -/

theorem Selling.addConnection_state (A : CBStateMachine M) (s : Selling M) (id : ConnId) :
    (addConnection A s id).state.session.state = s.session.state := by
  unfold addConnection Session.createAndAddConnection
  by_cases h : s.session.hasConnection id = true
  · simp [h]
  · simp [h, Session.put]

theorem Selling.removeConnection_state (A : CBStateMachine M) (s : Selling M) (id : ConnId) :
    (removeConnection A s id).state.session.state = s.session.state := by
  unfold removeConnection
  split
  · rfl
  · split
    · rfl
    · exact removeConnectionCause_state A s id _

theorem Selling.startUploading_state (A : CBStateMachine M) (s : Selling M) (id : ConnId)
    (terms : BuyerTerms) (kp : KeyPair) (h : PubKeyHash) :
    (startUploading A s id terms kp h).state.session.state = s.session.state := by
  unfold startUploading
  repeat' split
  all_goals rfl

theorem Selling.pieceLoaded_state (A : CBStateMachine M) (s : Selling M) (data : PieceData)
    (index : Int) : (pieceLoaded A s data index).state.session.state = s.session.state := by
  unfold pieceLoaded
  split <;> rfl

theorem Selling.pieceRequested_state (A : CBStateMachine M) (s : Selling M) (id : ConnId)
    (index : Int) : (pieceRequested A s id index).state.session.state = s.session.state := by
  unfold pieceRequested
  repeat' split
  all_goals rfl

theorem Selling.receivedValidPayment_state (A : CBStateMachine M) (s : Selling M) (id : ConnId)
    (sig : Signature) : (receivedValidPayment A s id sig).state.session.state = s.session.state := by
  unfold receivedValidPayment
  repeat' split
  all_goals rfl

theorem Selling.removeThenSignalDeletion_state (A : CBStateMachine M) (s : Selling M)
    (id : ConnId) (cause : DisconnectCause) :
    (removeThenSignalDeletion A s id cause).state.session.state = s.session.state := by
  unfold removeThenSignalDeletion
  split
  · rfl
  · split
    · rfl
    · split <;> exact removeConnectionCause_state A s id cause

/-- Every call other than `start`, `pause` and `stop` leaves the lifecycle state as it
was, however the call ends. -/
theorem Selling.perform_state (A : CBStateMachine M) (s : Selling M) (op : Op)
    (h : op.isLifecycleCommand = false) :
    (s.perform A op).state.session.state = s.session.state := by
  cases op with
  | addConnection id => exact addConnection_state A s id
  | removeConnection id => exact removeConnection_state A s id
  | startUploading id terms kp hh => exact startUploading_state A s id terms kp hh
  | pieceLoaded data index => exact pieceLoaded_state A s data index
  | pieceRequested id index => exact pieceRequested_state A s id index
  | receivedValidPayment id sig => exact receivedValidPayment_state A s id sig
  | receivedInvalidPayment id sig => exact removeThenSignalDeletion_state A s id _
  | invalidPieceRequested id => exact removeThenSignalDeletion_state A s id _
  | paymentInterrupted id => exact removeThenSignalDeletion_state A s id _
  | remoteMessageOverflow id => exact removeConnectionCause_state A s id _
  | start => simp [Op.isLifecycleCommand] at h
  | pause => simp [Op.isLifecycleCommand] at h
  | stop => simp [Op.isLifecycleCommand] at h
  | updateTerms terms => rfl
  | leavingState => rfl

/-- C4: the lifecycle state moves only along the edges of the lifecycle state machine.
After `start()` the state is started, and `start()` returns normally only from stopped
or paused; `pause()` on a started session returns normally and ends in paused, and on
any other session changes nothing; `stop()` that returns normally was called on a
session that was not stopped and ends in stopped, and `stop()` that does not return
normally leaves the lifecycle state as it was; every other inbound call
(`addConnection`, `removeConnection`, `startUploading`, `pieceLoaded`, `pieceRequested`,
`receivedValidPayment`, `receivedInvalidPayment`, `invalidPieceRequested`,
`paymentInterrupted`, `remoteMessageOverflow`, `updateTerms`, `leavingState`) leaves the
lifecycle state as it was, however it ends. -/
theorem lifecycle_state_changes_only_on_edges (A : CBStateMachine M) (s : Selling M) :
    (start A s).state.state = SessionState.started ∧
    ((start A s).outcome = Outcome.returned () → s.state ≠ SessionState.started) ∧
    (s.state = SessionState.started →
      (pause s).outcome = Outcome.returned () ∧ (pause s).state.state = SessionState.paused) ∧
    (s.state ≠ SessionState.started → (pause s).state = s) ∧
    ((stop A s).outcome = Outcome.returned () →
      s.state ≠ SessionState.stopped ∧ (stop A s).state.state = SessionState.stopped) ∧
    ((stop A s).outcome ≠ Outcome.returned () → (stop A s).state.state = s.state) ∧
    (∀ op : Op, op.isLifecycleCommand = false → (s.perform A op).state.state = s.state) := by
  refine ⟨?_, ?_, ?_, ?_, ?_, ?_, fun op h => perform_state A s op h⟩
  · unfold start Selling.state
    by_cases h : s.session.state = SessionState.started
    · simp only [if_pos h]
      exact h
    · simp only [if_neg h]
  · unfold start Selling.state
    by_cases h : s.session.state = SessionState.started
    · simp [if_pos h]
    · intro _
      exact h
  · intro h
    unfold Selling.state at h
    simp [pause, h, Selling.state]
  · intro h
    unfold Selling.state at h
    have : s.session.state = SessionState.paused ∨ s.session.state = SessionState.stopped := by
      cases hs : s.session.state <;> simp_all
    simp [pause, this]
  · unfold stop Selling.state
    by_cases h : s.session.state = SessionState.stopped
    · simp [if_pos h]
    · simp only [if_neg h]
      rcases (removeEach_outcome A s.ids s).1 with h1 | h1
      · simp only [h1]
        intro _
        exact ⟨h, trivial⟩
      · simp [h1]
  · unfold stop Selling.state
    by_cases h : s.session.state = SessionState.stopped
    · simp [if_pos h]
    · simp only [if_neg h]
      rcases (removeEach_outcome A s.ids s).1 with h1 | h1
      · simp [h1]
      · simp only [h1]
        intro _
        exact (removeEach_outcome A s.ids s).2

/-- The statement of C4 on a paused session: `pieceRequested` leaves it paused, and
`pause()` on a started session ends in paused. -/
theorem lifecycle_state_changes_only_on_edges_witness :
    ((sampleSelling SessionState.paused sampleConnections).perform sampleMachine
      (Op.pieceRequested 5 3)).state.state = SessionState.paused ∧
    (pause (sampleSelling SessionState.started sampleConnections)).state.state =
      SessionState.paused :=
  ⟨(lifecycle_state_changes_only_on_edges sampleMachine
      (sampleSelling SessionState.paused sampleConnections)).2.2.2.2.2.2
      (Op.pieceRequested 5 3) (by decide),
   ((lifecycle_state_changes_only_on_edges sampleMachine
      (sampleSelling SessionState.started sampleConnections)).2.2.1 (by decide)).2⟩

/-! ### C5 -/

theorem Session.destroyConnection_get_ne (s : Session M) (id j : ConnId) (h : j ≠ id) :
    (s.destroyConnection id).get j = s.get j := by
  unfold Session.destroyConnection Session.get
  simp only
  induction s.connections with
  | nil => rfl
  | cons p rest ih =>
    obtain ⟨k, c⟩ := p
    simp only [List.filter_cons, List.find?_cons]
    by_cases hk : k = id
    · have h1 : (k != id) = false := by simp [hk]
      have h2 : (k == j) = false := by
        simp only [beq_eq_false_iff_ne, ne_eq, hk]
        exact fun e => h e.symm
      simp only [h1, h2, Bool.false_eq_true, if_false]
      exact ih
    · have h1 : (k != id) = true := by simp [hk]
      simp only [h1, if_true, List.find?_cons]
      cases hj : (k == j)
      · exact ih
      · rfl

theorem Session.destroyConnection_hasConnection_self (s : Session M) (id : ConnId) :
    (s.destroyConnection id).hasConnection id = false := by
  unfold Session.destroyConnection Session.hasConnection
  simp only [Bool.eq_false_iff, ne_eq, List.any_eq_true, not_exists, not_and]
  intro p hp
  have := (List.mem_filter.1 hp).2
  simpa using this

theorem Session.destroyConnection_hasConnection_ne (s : Session M) (id j : ConnId)
    (h : j ≠ id) : (s.destroyConnection id).hasConnection j = s.hasConnection j := by
  have h1 := Session.get_isSome_iff (s.destroyConnection id) j
  have h2 := Session.get_isSome_iff s j
  rw [Session.destroyConnection_get_ne s id j h] at h1
  have : (s.destroyConnection id).hasConnection j = true ↔ s.hasConnection j = true :=
    h1.symm.trans h2
  cases ha : (s.destroyConnection id).hasConnection j <;> cases hb : s.hasConnection j <;>
    simp_all

theorem Selling.filter_removed_claim (A : CBStateMachine M) (c : Connection M) (id : ConnId)
    (cause : DisconnectCause) :
    (tryToClaimLastPayment A c ++ [Effect.RemovedConnection id cause]).filter
      Effect.isRemovedConnection = [Effect.RemovedConnection id cause] := by
  unfold tryToClaimLastPayment
  split <;> simp [Effect.isRemovedConnection]

/-- C5: the client-initiated `removeConnection(id)` raises `StateIncompatibleOperation`
on a stopped session and `ConnectionDoesNotExist` on a session that is not stopped and
does not have `id` registered, in both cases leaving the controller state as it was and
calling nothing; otherwise it returns normally, `id` is no longer registered, every other
id is registered exactly as before (with the same connection), and the only call of
`RemovedConnectionCallback` is one call with `(id, client)`. -/
theorem removeConnection_client_contract (A : CBStateMachine M) (s : Selling M) (id : ConnId) :
    (s.state = SessionState.stopped →
      removeConnection A s id =
        { state := s, trace := [],
          outcome := Outcome.raised Exception.StateIncompatibleOperation }) ∧
    (s.state ≠ SessionState.stopped → s.session.hasConnection id = false →
      removeConnection A s id =
        { state := s, trace := [],
          outcome := Outcome.raised (Exception.ConnectionDoesNotExist id) }) ∧
    (s.state ≠ SessionState.stopped → s.session.hasConnection id = true →
      (removeConnection A s id).outcome = Outcome.returned () ∧
      (removeConnection A s id).state.session.hasConnection id = false ∧
      (∀ j, j ≠ id →
        (removeConnection A s id).state.session.hasConnection j = s.session.hasConnection j ∧
        (removeConnection A s id).state.session.get j = s.session.get j) ∧
      (removeConnection A s id).trace.filter Effect.isRemovedConnection =
        [Effect.RemovedConnection id DisconnectCause.client]) := by
  unfold Selling.state
  refine ⟨?_, ?_, ?_⟩
  · intro h
    simp [removeConnection, h]
  · intro h1 h2
    simp [removeConnection, h1, h2]
  · intro h1 h2
    obtain ⟨c, hc⟩ := (Session.get_isSome_iff _ _).2 h2
    have hrem := removeConnectionCause_of_get A s id DisconnectCause.client c h1 hc
    have heq : removeConnection A s id = removeConnectionCause A s id DisconnectCause.client := by
      simp [removeConnection, h1, h2]
    rw [heq, hrem]
    refine ⟨rfl, Session.destroyConnection_hasConnection_self _ _, ?_,
      filter_removed_claim A c id _⟩
    intro j hj
    exact ⟨Session.destroyConnection_hasConnection_ne _ _ _ hj,
      Session.destroyConnection_get_ne _ _ _ hj⟩

/-- The statement of C5 on a started session from which connection `2` is removed, on a
stopped session, and for an id that is not registered. -/
theorem removeConnection_client_contract_witness :
    ((removeConnection sampleMachine (sampleSelling SessionState.started sampleConnections)
        2).outcome = Outcome.returned () ∧
      (removeConnection sampleMachine (sampleSelling SessionState.started sampleConnections)
        2).state.session.hasConnection 2 = false) ∧
    removeConnection sampleMachine (sampleSelling SessionState.stopped []) 2 =
      { state := sampleSelling SessionState.stopped [], trace := [],
        outcome := Outcome.raised Exception.StateIncompatibleOperation } ∧
    removeConnection sampleMachine (sampleSelling SessionState.started sampleConnections) 3 =
      { state := sampleSelling SessionState.started sampleConnections, trace := [],
        outcome := Outcome.raised (Exception.ConnectionDoesNotExist 3) } :=
  ⟨⟨((removeConnection_client_contract sampleMachine
        (sampleSelling SessionState.started sampleConnections) 2).2.2
        (by decide) (by decide)).1,
     ((removeConnection_client_contract sampleMachine
        (sampleSelling SessionState.started sampleConnections) 2).2.2
        (by decide) (by decide)).2.1⟩,
   (removeConnection_client_contract sampleMachine
      (sampleSelling SessionState.stopped []) 2).1 (by decide),
   (removeConnection_client_contract sampleMachine
      (sampleSelling SessionState.started sampleConnections) 3).2.1 (by decide) (by decide)⟩

/-! ### C6 -/

theorem Session.hasConnection_of_get (s : Session M) (id : ConnId) (c : Connection M)
    (h : s.get id = some c) : s.hasConnection id = true :=
  (Session.get_isSome_iff s id).1 ⟨c, h⟩

theorem Session.get_none_of_not_has (s : Session M) (id : ConnId)
    (h : s.hasConnection id = false) : s.get id = none := by
  cases hg : s.get id with
  | none => rfl
  | some c =>
    have := Session.hasConnection_of_get s id c hg
    simp [h] at this

/-- C6: for an automaton in which, as the source notes before its assert, an invited
connection's peer has announced buy mode, `startUploading(id, terms, keyPair,
finalPkHash)` drives a `Joined` event exactly when the session is not stopped, `id` is
registered, its connection is in `Invited` and the announced buy terms equal `terms`;
it then returns normally, the one effect is that event on that connection, and the
connection's automaton has taken it. In every other case no event is sent, nothing
changes, and the call raises `StateIncompatibleOperation` when stopped,
`PeerNotReadyToStartUploading` with `connection_gone` when `id` is not registered, with
`connection_not_in_invited_state` when the connection is not in `Invited`, and with
`terms_expired` when it is in `Invited` and the announced buy terms differ. -/
theorem startUploading_contract (A : CBStateMachine M) (s : Selling M) (id : ConnId)
    (terms : BuyerTerms) (kp : KeyPair) (pk : PubKeyHash)
    (hbuy : ∀ c, s.session.get id = some c → c.inInvited A = true →
      (c.announcedModeAndTermsFromPeer A).modeAnnounced = ModeAnnounced.buy) :
    ((∃ cid, Effect.ProcessEvent cid (Event.Joined kp pk) ∈
        (startUploading A s id terms kp pk).trace) ↔
      (s.state ≠ SessionState.stopped ∧ ∃ c, s.session.get id = some c ∧
        c.inInvited A = true ∧ (c.announcedModeAndTermsFromPeer A).buyModeTerms = terms)) ∧
    (∀ c, s.state ≠ SessionState.stopped → s.session.get id = some c →
      c.inInvited A = true → (c.announcedModeAndTermsFromPeer A).buyModeTerms = terms →
      startUploading A s id terms kp pk =
        { state := { s with session := (s.session.put id
            { c with machine := A.processEvent c.machine (Event.Joined kp pk) }) },
          trace := [Effect.ProcessEvent c.connectionId (Event.Joined kp pk)],
          outcome := Outcome.returned () }) ∧
    (s.state = SessionState.stopped →
      startUploading A s id terms kp pk =
        { state := s, trace := [],
          outcome := Outcome.raised Exception.StateIncompatibleOperation }) ∧
    (s.state ≠ SessionState.stopped → s.session.hasConnection id = false →
      startUploading A s id terms kp pk =
        { state := s, trace := [],
          outcome := Outcome.raised (Exception.PeerNotReadyToStartUploading
            PeerNotReadyToStartUploadingCause.connection_gone) }) ∧
    (∀ c, s.state ≠ SessionState.stopped → s.session.get id = some c →
      c.inInvited A = false →
      startUploading A s id terms kp pk =
        { state := s, trace := [],
          outcome := Outcome.raised (Exception.PeerNotReadyToStartUploading
            PeerNotReadyToStartUploadingCause.connection_not_in_invited_state) }) ∧
    (∀ c, s.state ≠ SessionState.stopped → s.session.get id = some c →
      c.inInvited A = true → (c.announcedModeAndTermsFromPeer A).buyModeTerms ≠ terms →
      startUploading A s id terms kp pk =
        { state := s, trace := [],
          outcome := Outcome.raised (Exception.PeerNotReadyToStartUploading
            PeerNotReadyToStartUploadingCause.terms_expired) }) := by
  unfold Selling.state
  have hok : ∀ c, s.session.state ≠ SessionState.stopped → s.session.get id = some c →
      c.inInvited A = true → (c.announcedModeAndTermsFromPeer A).buyModeTerms = terms →
      startUploading A s id terms kp pk =
        { state := { s with session := (s.session.put id
            { c with machine := A.processEvent c.machine (Event.Joined kp pk) }) },
          trace := [Effect.ProcessEvent c.connectionId (Event.Joined kp pk)],
          outcome := Outcome.returned () } := by
    intro c h1 h2 h3 h4
    have hh := Session.hasConnection_of_get _ _ _ h2
    have hb := hbuy c h2 h3
    simp [startUploading, h1, hh, h2, h3, hb, h4, Connection.processEvent]
  have hstopped : s.session.state = SessionState.stopped →
      startUploading A s id terms kp pk =
        { state := s, trace := [],
          outcome := Outcome.raised Exception.StateIncompatibleOperation } := by
    intro h
    simp [startUploading, h]
  have hgone : s.session.state ≠ SessionState.stopped → s.session.hasConnection id = false →
      startUploading A s id terms kp pk =
        { state := s, trace := [],
          outcome := Outcome.raised (Exception.PeerNotReadyToStartUploading
            PeerNotReadyToStartUploadingCause.connection_gone) } := by
    intro h1 h2
    simp [startUploading, h1, h2]
  have hinv : ∀ c, s.session.state ≠ SessionState.stopped → s.session.get id = some c →
      c.inInvited A = false →
      startUploading A s id terms kp pk =
        { state := s, trace := [],
          outcome := Outcome.raised (Exception.PeerNotReadyToStartUploading
            PeerNotReadyToStartUploadingCause.connection_not_in_invited_state) } := by
    intro c h1 h2 h3
    have hh := Session.hasConnection_of_get _ _ _ h2
    simp [startUploading, h1, hh, h2, h3]
  have hexp : ∀ c, s.session.state ≠ SessionState.stopped → s.session.get id = some c →
      c.inInvited A = true → (c.announcedModeAndTermsFromPeer A).buyModeTerms ≠ terms →
      startUploading A s id terms kp pk =
        { state := s, trace := [],
          outcome := Outcome.raised (Exception.PeerNotReadyToStartUploading
            PeerNotReadyToStartUploadingCause.terms_expired) } := by
    intro c h1 h2 h3 h4
    have hh := Session.hasConnection_of_get _ _ _ h2
    have hb := hbuy c h2 h3
    simp [startUploading, h1, hh, h2, h3, hb, h4]
  refine ⟨⟨?_, ?_⟩, hok, hstopped, hgone, hinv, hexp⟩
  · rintro ⟨cid, hmem⟩
    by_cases h1 : s.session.state = SessionState.stopped
    · rw [hstopped h1] at hmem
      simp at hmem
    · cases hh : s.session.hasConnection id with
      | false =>
        rw [hgone h1 hh] at hmem
        simp at hmem
      | true =>
        obtain ⟨c, hc⟩ := (Session.get_isSome_iff _ _).2 hh
        cases h3 : c.inInvited A with
        | false =>
          rw [hinv c h1 hc h3] at hmem
          simp at hmem
        | true =>
          by_cases h4 : (c.announcedModeAndTermsFromPeer A).buyModeTerms = terms
          · exact ⟨h1, c, hc, h3, h4⟩
          · rw [hexp c h1 hc h3 h4] at hmem
            simp at hmem
  · rintro ⟨h1, c, hc, h3, h4⟩
    exact ⟨c.connectionId, by rw [hok c h1 hc h3 h4]; simp⟩

/-- The statement of C6 on a started session: for the invited connection `1` and the
announced terms `7` the event is driven, and for the terms `8` the call raises
`terms_expired`. -/
theorem startUploading_contract_witness :
    startUploading sampleMachine (sampleSelling SessionState.started sampleConnections) 1 7 20 30 =
      { state := { sampleSelling SessionState.started sampleConnections with
          session := ((sampleSelling SessionState.started sampleConnections).session.put 1
            { sampleConnection 1 Phase.Invited 0 [] with
              machine := (sampleMachine.processEvent
                (sampleConnection 1 Phase.Invited 0 []).machine (Event.Joined 20 30)) }) },
        trace := [Effect.ProcessEvent 1 (Event.Joined 20 30)],
        outcome := Outcome.returned () } ∧
    startUploading sampleMachine (sampleSelling SessionState.started sampleConnections) 1 8 20 30 =
      { state := sampleSelling SessionState.started sampleConnections, trace := [],
        outcome := Outcome.raised (Exception.PeerNotReadyToStartUploading
          PeerNotReadyToStartUploadingCause.terms_expired) } :=
  ⟨(startUploading_contract sampleMachine (sampleSelling SessionState.started sampleConnections)
      1 7 20 30 (by decide)).2.1 (sampleConnection 1 Phase.Invited 0 [])
      (by decide) (by decide) (by decide) (by decide),
   (startUploading_contract sampleMachine (sampleSelling SessionState.started sampleConnections)
      1 8 20 30 (by decide)).2.2.2.2.2 (sampleConnection 1 Phase.Invited 0 [])
      (by decide) (by decide) (by decide) (by decide)⟩

/-! ### C7 -/

/-- What `invalidPieceRequested`, `paymentInterrupted` and `receivedInvalidPayment` do on
a session that is not stopped and has `id` registered. -/
theorem Selling.removeThenSignalDeletion_of_get (A : CBStateMachine M) (s : Selling M)
    (id : ConnId) (cause : DisconnectCause) (c : Connection M)
    (hs : s.session.state ≠ SessionState.stopped) (hc : s.session.get id = some c) :
    removeThenSignalDeletion A s id cause =
      { state := { s with session := s.session.destroyConnection id },
        trace := tryToClaimLastPayment A c ++ [Effect.RemovedConnection id cause],
        outcome := Outcome.raised Exception.StateMachineDeletedException } := by
  have hh := Session.hasConnection_of_get _ _ _ hc
  have hrem := removeConnectionCause_of_get A s id cause c hs hc
  unfold removeThenSignalDeletion
  simp [hs, hh, hrem]

/-- C7: on a started session with `id` registered, `receivedInvalidPayment(id, sig)`
ends by raising the automaton-deletion signal, its only call of
`RemovedConnectionCallback` is one call with `(id, buyer_sent_invalid_payment)`, and
`id` is no longer registered afterwards. -/
theorem receivedInvalidPayment_removes_connection (A : CBStateMachine M) (s : Selling M)
    (id : ConnId) (sig : Signature) (hs : s.state = SessionState.started)
    (hh : s.session.hasConnection id = true) :
    (receivedInvalidPayment A s id sig).outcome =
      Outcome.raised Exception.StateMachineDeletedException ∧
    (receivedInvalidPayment A s id sig).trace.filter Effect.isRemovedConnection =
      [Effect.RemovedConnection id DisconnectCause.buyer_sent_invalid_payment] ∧
    (receivedInvalidPayment A s id sig).state.session.hasConnection id = false := by
  obtain ⟨c, hc⟩ := (Session.get_isSome_iff _ _).2 hh
  have hns : s.session.state ≠ SessionState.stopped := by
    unfold Selling.state at hs
    rw [hs]
    decide
  unfold receivedInvalidPayment
  rw [removeThenSignalDeletion_of_get A s id _ c hns hc]
  exact ⟨rfl, filter_removed_claim A c id _, Session.destroyConnection_hasConnection_self _ _⟩

/-- The statement of C7 on a started session whose connection `2` sent an invalid
payment. -/
theorem receivedInvalidPayment_removes_connection_witness :
    (sampleSelling SessionState.started sampleConnections).state = SessionState.started ∧
    (sampleSelling SessionState.started sampleConnections).session.hasConnection 2 = true ∧
    (receivedInvalidPayment sampleMachine (sampleSelling SessionState.started sampleConnections)
      2 9).outcome = Outcome.raised Exception.StateMachineDeletedException ∧
    (receivedInvalidPayment sampleMachine (sampleSelling SessionState.started sampleConnections)
      2 9).trace.filter Effect.isRemovedConnection =
      [Effect.RemovedConnection 2 DisconnectCause.buyer_sent_invalid_payment] ∧
    (receivedInvalidPayment sampleMachine (sampleSelling SessionState.started sampleConnections)
      2 9).state.session.hasConnection 2 = false :=
  ⟨by decide, by decide,
   receivedInvalidPayment_removes_connection sampleMachine
     (sampleSelling SessionState.started sampleConnections) 2 9 (by decide) (by decide)⟩

/-! ### C8 -/

theorem ConnectionMap.Valid.connectionId_of_get {s : Session M}
    (hv : s.connections.Valid) (id : ConnId) (c : Connection M) (hc : s.get id = some c) :
    c.connectionId = id :=
  hv.2 (id, c) (Session.get_mem s id c hc)

theorem Selling.claim_connection (A : CBStateMachine M) (c : Connection M) :
    ∀ e ∈ tryToClaimLastPayment A c, e.connection = c.connectionId := by
  intro e he
  unfold tryToClaimLastPayment at he
  split at he
  · simp only [List.mem_singleton] at he
    rw [he]
    rfl
  · simp at he

/-- C8: on a session that is not stopped, whose registry is a well-formed map with `id`
registered, each of `invalidPieceRequested(id)`, `paymentInterrupted(id)`,
`receivedInvalidPayment(id, sig)` and `remoteMessageOverflow(id)` leaves the lifecycle
state as it was, leaves every other id registered with the very same connection
(pipeline and automaton included), issues no effect about any other id, and its only
call of `RemovedConnectionCallback` is the one for `id`, with the cause
`buyer_requested_invalid_piece`, `buyer_interrupted_payment`,
`buyer_sent_invalid_payment`, `buyer_message_overflow` respectively. -/
theorem misbehaving_peer_affects_only_itself (A : CBStateMachine M) (s : Selling M)
    (id : ConnId) (sig : Signature) (hs : s.state ≠ SessionState.stopped)
    (hh : s.session.hasConnection id = true) (hv : s.session.connections.Valid) :
    ∀ p ∈ [(Op.invalidPieceRequested id, DisconnectCause.buyer_requested_invalid_piece),
           (Op.paymentInterrupted id, DisconnectCause.buyer_interrupted_payment),
           (Op.receivedInvalidPayment id sig, DisconnectCause.buyer_sent_invalid_payment),
           (Op.remoteMessageOverflow id, DisconnectCause.buyer_message_overflow)],
      (s.perform A p.1).state.state = s.state ∧
      (∀ j, j ≠ id →
        (s.perform A p.1).state.session.hasConnection j = s.session.hasConnection j ∧
        (s.perform A p.1).state.session.get j = s.session.get j) ∧
      (∀ e ∈ (s.perform A p.1).trace, e.connection = id) ∧
      (s.perform A p.1).trace.filter Effect.isRemovedConnection =
        [Effect.RemovedConnection id p.2] := by
  obtain ⟨c, hc⟩ := (Session.get_isSome_iff _ _).2 hh
  have hid : c.connectionId = id := hv.connectionId_of_get id c hc
  unfold Selling.state at hs
  have key : ∀ (cause : DisconnectCause) (r : Result M Unit),
      r.state = { s with session := s.session.destroyConnection id } →
      r.trace = tryToClaimLastPayment A c ++ [Effect.RemovedConnection id cause] →
      r.state.state = s.state ∧
      (∀ j, j ≠ id →
        r.state.session.hasConnection j = s.session.hasConnection j ∧
        r.state.session.get j = s.session.get j) ∧
      (∀ e ∈ r.trace, e.connection = id) ∧
      r.trace.filter Effect.isRemovedConnection = [Effect.RemovedConnection id cause] := by
    intro cause r h1 h2
    rw [h1, h2]
    refine ⟨rfl, fun j hj => ⟨Session.destroyConnection_hasConnection_ne _ _ _ hj,
      Session.destroyConnection_get_ne _ _ _ hj⟩, ?_, filter_removed_claim A c id cause⟩
    intro e he
    rcases List.mem_append.1 he with h | h
    · rw [claim_connection A c e h, hid]
    · simp only [List.mem_singleton] at h
      rw [h]
      rfl
  intro p hp
  simp only [List.mem_cons, List.mem_singleton, List.not_mem_nil, or_false] at hp
  rcases hp with rfl | rfl | rfl | rfl
  · exact key _ _
      (by simp [Selling.perform, invalidPieceRequested, removeThenSignalDeletion_of_get A s id _ c hs hc])
      (by simp [Selling.perform, invalidPieceRequested, removeThenSignalDeletion_of_get A s id _ c hs hc])
  · exact key _ _
      (by simp [Selling.perform, paymentInterrupted, removeThenSignalDeletion_of_get A s id _ c hs hc])
      (by simp [Selling.perform, paymentInterrupted, removeThenSignalDeletion_of_get A s id _ c hs hc])
  · exact key _ _
      (by simp [Selling.perform, receivedInvalidPayment, removeThenSignalDeletion_of_get A s id _ c hs hc])
      (by simp [Selling.perform, receivedInvalidPayment, removeThenSignalDeletion_of_get A s id _ c hs hc])
  · exact key _ _
      (by simp [Selling.perform, remoteMessageOverflow, removeConnectionCause_of_get A s id _ c hs hc])
      (by simp [Selling.perform, remoteMessageOverflow, removeConnectionCause_of_get A s id _ c hs hc])

/-- The statement of C8 on a paused session whose connection `2` interrupts its
payment: connection `5` is untouched and the cause is `buyer_interrupted_payment`. -/
theorem misbehaving_peer_affects_only_itself_witness :
    ((sampleSelling SessionState.paused sampleConnections).perform sampleMachine
        (Op.paymentInterrupted 2)).state.state = SessionState.paused ∧
    ((sampleSelling SessionState.paused sampleConnections).perform sampleMachine
        (Op.paymentInterrupted 2)).state.session.get 5 =
      some (sampleConnection 5 Phase.ServicingPieceRequests 0 []) ∧
    ((sampleSelling SessionState.paused sampleConnections).perform sampleMachine
        (Op.paymentInterrupted 2)).trace.filter Effect.isRemovedConnection =
      [Effect.RemovedConnection 2 DisconnectCause.buyer_interrupted_payment] := by
  have h := misbehaving_peer_affects_only_itself sampleMachine
    (sampleSelling SessionState.paused sampleConnections) 2 9 (by decide) (by decide)
    ⟨by decide, by decide⟩
    (Op.paymentInterrupted 2, DisconnectCause.buyer_interrupted_payment) (by simp)
  exact ⟨h.1, ((h.2.1 5 (by decide)).2).trans (by decide), h.2.2.2⟩

/-! ### C9 -/

theorem Selling.announceTerms_eq (A : CBStateMachine M) (terms : SellerTerms) :
    ∀ l : ConnectionMap M,
      announceTerms A terms l =
        (l.map (fun p => (p.1,
            { p.2 with machine := A.processEvent p.2.machine (Event.UpdateTerms terms) })),
          l.map (fun p => Effect.ProcessEvent p.2.connectionId (Event.UpdateTerms terms))) := by
  intro l
  induction l with
  | nil => rfl
  | cons p rest ih =>
    obtain ⟨k, c⟩ := p
    simp [announceTerms, ih, Connection.processEvent]

theorem ConnectionMap.Valid.map_connectionId {l : ConnectionMap M} (hv : l.Valid)
    (f : ConnId → Effect) :
    l.map (fun p => f p.2.connectionId) = l.keys.map f := by
  unfold ConnectionMap.keys
  rw [List.map_map]
  apply List.map_congr_left
  intro p hp
  simp [hv.2 p hp]

theorem ConnectionMap.Valid.nodup {l : ConnectionMap M} (hv : l.Valid) : l.keys.Nodup :=
  hv.1.imp (fun h => Nat.ne_of_lt h)

/-- C9: for every terms value `T`, every lifecycle state and every registry that is a
well-formed map, `updateTerms(T)` returns normally; `terms()` called right after returns
`T`; the trace consists of exactly one `UpdateTerms(T)` event for each registered
connection and nothing else; every connection's automaton has taken that event; and the
registered ids are the same as before. -/
theorem updateTerms_contract (A : CBStateMachine M) (s : Selling M) (T : SellerTerms)
    (hv : s.session.connections.Valid) :
    (updateTerms A s T).outcome = Outcome.returned () ∧
    (updateTerms A s T).state.getTerms = T ∧
    (updateTerms A s T).state.ids = s.ids ∧
    (updateTerms A s T).state.state = s.state ∧
    (updateTerms A s T).trace =
      s.ids.map (fun id => Effect.ProcessEvent id (Event.UpdateTerms T)) ∧
    (∀ id, (updateTerms A s T).trace.count (Effect.ProcessEvent id (Event.UpdateTerms T)) =
      if id ∈ s.ids then 1 else 0) ∧
    (∀ id c, s.session.get id = some c →
      (updateTerms A s T).state.session.get id =
        some { c with machine := A.processEvent c.machine (Event.UpdateTerms T) }) := by
  have htrace : (updateTerms A s T).trace =
      s.ids.map (fun id => Effect.ProcessEvent id (Event.UpdateTerms T)) := by
    simp only [updateTerms, announceTerms_eq, Selling.ids]
    exact hv.map_connectionId (fun id => Effect.ProcessEvent id (Event.UpdateTerms T))
  refine ⟨rfl, rfl, ?_, rfl, htrace, ?_, ?_⟩
  · simp [updateTerms, announceTerms_eq, Selling.ids, ConnectionMap.keys, List.map_map,
      Function.comp_def]
  · intro id
    rw [htrace]
    have hinj : Function.Injective (fun id : ConnId => Effect.ProcessEvent id (Event.UpdateTerms T)) := by
      intro a b hab
      simpa using hab
    rw [List.count_map_of_injective _ _ hinj]
    by_cases hm : id ∈ s.ids
    · simp only [hm, if_true]
      exact List.count_eq_one_of_mem hv.nodup hm
    · simp only [hm, if_false]
      exact List.count_eq_zero_of_not_mem hm
  · intro id c hc
    simp only [updateTerms, announceTerms_eq]
    unfold Session.get at hc ⊢
    simp only
    revert hc
    induction s.session.connections with
    | nil => simp
    | cons p rest ih =>
      obtain ⟨k, c0⟩ := p
      simp only [List.map_cons, List.find?_cons]
      cases hk : (k == id)
      · simpa using ih
      · simp only [Option.map_some', Option.some.injEq]
        intro h
        rw [h]

/-- The statement of C9 on a paused session with three connections. -/
theorem updateTerms_contract_witness :
    (updateTerms sampleMachine (sampleSelling SessionState.paused sampleConnections) 12).state.getTerms
      = 12 ∧
    (updateTerms sampleMachine (sampleSelling SessionState.paused sampleConnections) 12).trace =
      [Effect.ProcessEvent 1 (Event.UpdateTerms 12), Effect.ProcessEvent 2 (Event.UpdateTerms 12),
       Effect.ProcessEvent 5 (Event.UpdateTerms 12)] :=
  ⟨(updateTerms_contract sampleMachine (sampleSelling SessionState.paused sampleConnections) 12
      ⟨by decide, by decide⟩).2.1,
   ((updateTerms_contract sampleMachine (sampleSelling SessionState.paused sampleConnections) 12
      ⟨by decide, by decide⟩).2.2.2.2.1).trans (by decide)⟩

/-! ### C10 -/

theorem PieceDeliveryPipeline.sendWalk_append (limit : Nat) (e : Piece)
    (he : e.state ≠ PieceState.Loaded) :
    ∀ (q : List Piece) (n : Nat),
      PieceDeliveryPipeline.sendWalk limit n (q ++ [e]) =
        ((PieceDeliveryPipeline.sendWalk limit n q).1,
          (PieceDeliveryPipeline.sendWalk limit n q).2 ++ [e]) := by
  intro q
  induction q with
  | nil =>
    intro n
    simp [PieceDeliveryPipeline.sendWalk, he]
  | cons a rest ih =>
    intro n
    simp only [List.cons_append, PieceDeliveryPipeline.sendWalk]
    by_cases ha : a.state = PieceState.Loaded
    · by_cases hl : limit < n + 1
      · simp [ha, hl]
      · simp [ha, hl, ih]
    · simp [ha, ih]

theorem PieceDeliveryPipeline.sendWalk_length (limit : Nat) :
    ∀ (q : List Piece) (n : Nat),
      (PieceDeliveryPipeline.sendWalk limit n q).2.length = q.length := by
  intro q
  induction q with
  | nil => intro n; rfl
  | cons a rest ih =>
    intro n
    simp only [PieceDeliveryPipeline.sendWalk]
    by_cases ha : a.state = PieceState.Loaded
    · by_cases hl : limit < n + 1
      · simp [ha, hl]
      · simp [ha, hl, ih]
    · simp [ha, ih]

/-- Sending the pieces of a batch changes neither the id nor the pipeline of the
connection, and issues automaton events only. -/
theorem Selling.sendAll_frame (A : CBStateMachine M) :
    ∀ (ds : List PieceData) (c : Connection M),
      (sendAll A c ds).1.connectionId = c.connectionId ∧
      (sendAll A c ds).1.pieceDeliveryPipeline = c.pieceDeliveryPipeline ∧
      (sendAll A c ds).2 = ds.map (fun d => Effect.ProcessEvent c.connectionId (Event.PieceLoaded d)) := by
  intro ds
  induction ds with
  | nil => intro c; simp [sendAll]
  | cons d rest ih =>
    intro c
    have h := ih (c.processEvent A (Event.PieceLoaded d)).1
    simp only [sendAll, h.1, h.2.1, h.2.2]
    simp [Connection.processEvent]

/-- An automaton that stays in `ServicingPieceRequests` when handed a loaded piece is
still there after a whole batch. -/
theorem Selling.sendAll_servicing (A : CBStateMachine M)
    (hstay : ∀ m d, A.inServicingPieceRequests m = true →
      A.inServicingPieceRequests (A.processEvent m (Event.PieceLoaded d)) = true) :
    ∀ (ds : List PieceData) (c : Connection M), c.inServicingPieceRequests A = true →
      (sendAll A c ds).1.inServicingPieceRequests A = true := by
  intro ds
  induction ds with
  | nil => intro c hc; simpa [sendAll] using hc
  | cons d rest ih =>
    intro c hc
    simp only [sendAll]
    apply ih
    simp only [Connection.processEvent, Connection.inServicingPieceRequests] at hc ⊢
    exact hstay _ _ hc

/-- A walk over the registry whose body never fails an `assert` visits every entry. -/
theorem Selling.forEachConnection_ok (body : Connection M → Step M)
    (hok : ∀ c, (body c).ok = true) :
    ∀ l : ConnectionMap M,
      forEachConnection body l =
        (l.map (fun p => (p.1, (body p.2).conn)),
          (l.map (fun p => (body p.2).trace)).flatten, true) := by
  intro l
  induction l with
  | nil => rfl
  | cons p rest ih =>
    obtain ⟨k, c⟩ := p
    simp [forEachConnection, hok c, ih]

theorem Session.put_get (s : Session M) (id : ConnId) (c c1 : Connection M)
    (hc : s.get id = some c) : (s.put id c1).get id = some c1 := by
  unfold Session.get at hc ⊢
  unfold Session.put
  simp only
  revert hc
  induction s.connections with
  | nil => simp
  | cons p rest ih =>
    obtain ⟨k, c0⟩ := p
    simp only [List.map_cons, List.find?_cons]
    by_cases hk : k = id
    · simp [hk]
    · have hk' : (k == id) = false := by simpa using hk
      simp only [hk, if_false, hk']
      exact ih

theorem Session.put_mem (s : Session M) (id : ConnId) (c c1 : Connection M)
    (hc : s.get id = some c) : (id, c1) ∈ (s.put id c1).connections := by
  have hm := Session.get_mem s id c hc
  unfold Session.put
  simp only [List.mem_map]
  exact ⟨(id, c), hm, by simp⟩

/-- Under a started session, for a connection that is servicing piece requests and an
automaton that stays there when handed a piece, the body of the loop of `start` fails no
`assert` and loads the batch the pipeline offers after the send. -/
theorem Selling.startBody_ok (A : CBStateMachine M) (s : Selling M)
    (hs : s.session.state = SessionState.started)
    (hstay : ∀ m d, A.inServicingPieceRequests m = true →
      A.inServicingPieceRequests (A.processEvent m (Event.PieceLoaded d)) = true)
    (c : Connection M) :
    (startBody A s c).ok = true ∧
    (c.inServicingPieceRequests A = true →
      ∀ index ∈ ((c.pieceDeliveryPipeline.getNextBatchToSend
          s.maxOutstandingPayments).2.getNextBatchToLoad
            (s.maxOutstandingPayments + s.maxPiecesToPreload)).1,
        Effect.LoadPieceForBuyer c.connectionId index ∈ (startBody A s c).trace) := by
  unfold startBody
  by_cases hc : c.inServicingPieceRequests A = true
  · have hsend : tryToSendPieces A s c =
        { conn := (sendAll A
            { c with pieceDeliveryPipeline :=
                (c.pieceDeliveryPipeline.getNextBatchToSend s.maxOutstandingPayments).2 }
            (c.pieceDeliveryPipeline.getNextBatchToSend s.maxOutstandingPayments).1).1,
          trace := (sendAll A
            { c with pieceDeliveryPipeline :=
                (c.pieceDeliveryPipeline.getNextBatchToSend s.maxOutstandingPayments).2 }
            (c.pieceDeliveryPipeline.getNextBatchToSend s.maxOutstandingPayments).1).2,
          ok := true } := by
      simp [tryToSendPieces, hs, hc]
    have hframe := sendAll_frame A
      (c.pieceDeliveryPipeline.getNextBatchToSend s.maxOutstandingPayments).1
      { c with pieceDeliveryPipeline :=
          (c.pieceDeliveryPipeline.getNextBatchToSend s.maxOutstandingPayments).2 }
    have hserv := sendAll_servicing A hstay
      (c.pieceDeliveryPipeline.getNextBatchToSend s.maxOutstandingPayments).1
      { c with pieceDeliveryPipeline :=
          (c.pieceDeliveryPipeline.getNextBatchToSend s.maxOutstandingPayments).2 } hc
    simp only [hc, if_true, sendThenLoad, hsend]
    simp only [tryToLoadPieces, hs, ne_eq, not_true_eq_false, if_false, hserv, hframe.1, hframe.2.1]
    refine ⟨trivial, fun _ index hidx => ?_⟩
    apply List.mem_append_right
    exact List.mem_map_of_mem _ hidx
  · simp [hc]

/-- A `start()` on a session that is not started, for an automaton that stays in
`ServicingPieceRequests` when handed a loaded piece, returns normally and, for every
registered connection servicing piece requests, calls `LoadPieceForBuyer` for every index
its pipeline offers for loading after the send. -/
theorem Selling.start_loads (A : CBStateMachine M) (s : Selling M)
    (hs : s.session.state ≠ SessionState.started)
    (hstay : ∀ m d, A.inServicingPieceRequests m = true →
      A.inServicingPieceRequests (A.processEvent m (Event.PieceLoaded d)) = true) :
    (start A s).outcome = Outcome.returned () ∧
    ∀ k c, (k, c) ∈ s.session.connections → c.inServicingPieceRequests A = true →
      ∀ index ∈ ((c.pieceDeliveryPipeline.getNextBatchToSend
          s.maxOutstandingPayments).2.getNextBatchToLoad
            (s.maxOutstandingPayments + s.maxPiecesToPreload)).1,
        Effect.LoadPieceForBuyer c.connectionId index ∈ (start A s).trace := by
  have hb := fun c1 => startBody_ok A
    { s with session := { s.session with state := SessionState.started } } rfl hstay c1
  simp only [start, if_neg hs, forEachConnection_ok _ (fun c1 => (hb c1).1)]
  refine ⟨rfl, fun k c hmem hserv index hidx => ?_⟩
  rw [List.mem_flatten]
  exact ⟨_, List.mem_map_of_mem _ hmem, (hb c).2 hserv index hidx⟩

/-- C10 (as amended): on a started session whose registry is a well-formed map, with a
connection under `id` that is servicing piece requests, does not yet track `index` and
holds fewer entries than the load window `maxOutstandingPayments + maxPiecesToPreload`,
and for an automaton that stays in `ServicingPieceRequests` when handed a loaded piece:
`pause()` and then `pieceRequested(id, index)` both return normally with an empty trace
(no `LoadPieceForBuyer`, no piece event), `index` is appended to the pipeline in state
Requested, and a following `start()` returns normally and calls
`LoadPieceForBuyer(id, index)`. Moreover `pieceRequested` on any paused session has an
empty trace. -/
theorem paused_request_waits_for_start (A : CBStateMachine M) (s : Selling M) (id : ConnId)
    (index : Int) (c : Connection M)
    (hs : s.state = SessionState.started) (hv : s.session.connections.Valid)
    (hc : s.session.get id = some c) (hserv : c.inServicingPieceRequests A = true)
    (hnew : ∀ e ∈ c.pieceDeliveryPipeline, e.index ≠ index)
    (hroom : c.pieceDeliveryPipeline.length < s.maxOutstandingPayments + s.maxPiecesToPreload)
    (hstay : ∀ m d, A.inServicingPieceRequests m = true →
      A.inServicingPieceRequests (A.processEvent m (Event.PieceLoaded d)) = true) :
    (pause s).outcome = Outcome.returned () ∧ (pause s).trace = [] ∧
    (pieceRequested A (pause s).state id index).outcome = Outcome.returned () ∧
    (pieceRequested A (pause s).state id index).trace = [] ∧
    (pieceRequested A (pause s).state id index).state.session.get id =
      some { c with pieceDeliveryPipeline := c.pieceDeliveryPipeline ++
        [{ index := index, state := PieceState.Requested, data := 0 }] } ∧
    (start A (pieceRequested A (pause s).state id index).state).outcome = Outcome.returned () ∧
    Effect.LoadPieceForBuyer id index ∈
      (start A (pieceRequested A (pause s).state id index).state).trace ∧
    (∀ (s1 : Selling M) (id1 : ConnId) (index1 : Int), s1.state = SessionState.paused →
      (pieceRequested A s1 id1 index1).trace = []) := by
  unfold Selling.state at hs
  have hid : c.connectionId = id := hv.connectionId_of_get id c hc
  have hh : s.session.hasConnection id = true := Session.hasConnection_of_get _ _ _ hc
  have hpause : pause s =
      { state := { s with session := Session.mk SessionState.paused s.session.connections },
        trace := [], outcome := Outcome.returned () } := by
    simp [pause, hs]
  have hadd : c.pieceDeliveryPipeline.add index =
      some (c.pieceDeliveryPipeline ++
        [{ index := index, state := PieceState.Requested, data := 0 }]) := by
    unfold PieceDeliveryPipeline.add
    have : c.pieceDeliveryPipeline.any (fun e => e.index == index) = false := by
      simp only [List.any_eq_false, beq_iff_eq]
      exact fun e he => hnew e he
    simp [this]
  obtain ⟨c1, hc1⟩ : ∃ c1 : Connection M, c1 = { c with pieceDeliveryPipeline :=
      c.pieceDeliveryPipeline ++ [{ index := index, state := PieceState.Requested, data := 0 }] } :=
    ⟨_, rfl⟩
  rw [← hc1]
  have hh1 : (Session.mk SessionState.paused s.session.connections).hasConnection id = true := hh
  have hg1 : (Session.mk SessionState.paused s.session.connections).get id = some c := hc
  have hreq : pieceRequested A (pause s).state id index =
      { state := { s with
          session := (Session.mk SessionState.paused s.session.connections).put id c1 },
        trace := [], outcome := Outcome.returned () } := by
    rw [hpause, hc1]
    simp [pieceRequested, hh1, hg1, hadd]
  have hgeneral : ∀ (s1 : Selling M) (id1 : ConnId) (index1 : Int),
      s1.state = SessionState.paused → (pieceRequested A s1 id1 index1).trace = [] := by
    intro s1 id1 index1 h1
    unfold Selling.state at h1
    unfold pieceRequested
    simp only [h1]
    repeat' split
    all_goals first | rfl | (rename_i h; simp at h)
  have hstart := start_loads A (pieceRequested A (pause s).state id index).state
    (by rw [hreq]; simp [Session.put]) hstay
  refine ⟨by rw [hpause], by rw [hpause], by rw [hreq], by rw [hreq], ?_, hstart.1, ?_,
    hgeneral⟩
  · rw [hreq]
    exact Session.put_get _ id c _ hg1
  · have hmem : (id, c1) ∈ (pieceRequested A (pause s).state id index).state.session.connections := by
      rw [hreq]
      exact Session.put_mem _ id c c1 hg1
    have hserv1 : c1.inServicingPieceRequests A = true := by
      rw [hc1]
      exact hserv
    have hcaps : (pieceRequested A (pause s).state id index).state.maxOutstandingPayments =
          s.maxOutstandingPayments ∧
        (pieceRequested A (pause s).state id index).state.maxPiecesToPreload =
          s.maxPiecesToPreload := by
      rw [hreq]
      exact ⟨rfl, rfl⟩
    have hload := hstart.2 id c1 hmem hserv1 index (by
      rw [hcaps.1, hcaps.2, hc1]
      simp only [PieceDeliveryPipeline.getNextBatchToSend, PieceDeliveryPipeline.getNextBatchToLoad]
      rw [PieceDeliveryPipeline.sendWalk_append _ _ (by simp)]
      simp only
      rw [List.take_of_length_le (by
        simp only [List.length_append, PieceDeliveryPipeline.sendWalk_length, List.length_singleton]
        exact hroom)]
      simp)
    have hid1 : c1.connectionId = id := by
      rw [hc1]
      exact hid
    rw [hid1] at hload
    exact hload

/-- The statement of C10 (as amended) on a started session whose connection `5` has an
empty pipeline: piece `5`, requested while paused, is loaded by the following `start()`. -/
theorem paused_request_waits_for_start_witness :
    (sampleSelling SessionState.started sampleConnections).state = SessionState.started ∧
    (pieceRequested sampleMachine
      (pause (sampleSelling SessionState.started sampleConnections)).state 5 5).trace = [] ∧
    Effect.LoadPieceForBuyer 5 5 ∈
      (start sampleMachine (pieceRequested sampleMachine
        (pause (sampleSelling SessionState.started sampleConnections)).state 5 5).state).trace := by
  have h := paused_request_waits_for_start sampleMachine
    (sampleSelling SessionState.started sampleConnections) 5 5
    (sampleConnection 5 Phase.ServicingPieceRequests 0 [])
    (by decide) ⟨by decide, by decide⟩ (by decide) (by decide) (by decide) (by decide)
    (fun _ _ h => h)
  exact ⟨by decide, h.2.2.2.1, h.2.2.2.2.2.2.1⟩

/-- C10 fails as stated. On a started session whose connection `1` is servicing piece
requests with six pieces being loaded, `pause()`, `pieceRequested(1, 5)` and `start()`
all return normally, piece `5` is queued as Requested, and `start()` does not call
`LoadPieceForBuyer(1, 5)`: the load window of `4 + 2` entries is full. And when
connection `1` already tracks piece `5` (as Loaded), `pieceRequested(1, 5)` on the
paused session fails its precondition and piece `5` is not in state Requested. -/
theorem paused_request_outside_window_not_loaded :
    (sampleSelling SessionState.started busyConnections).state = SessionState.started ∧
    ((sampleSelling SessionState.started busyConnections).session.get 1).map
      (Connection.inServicingPieceRequests sampleMachine) = some true ∧
    (pause (sampleSelling SessionState.started busyConnections)).outcome = Outcome.returned () ∧
    (pieceRequested sampleMachine
      (pause (sampleSelling SessionState.started busyConnections)).state 1 5).outcome =
        Outcome.returned () ∧
    ((pieceRequested sampleMachine
      (pause (sampleSelling SessionState.started busyConnections)).state 1 5).state.session.get
        1).map Connection.pieceDeliveryPipeline =
      some (fullWindow ++ [{ index := 5, state := PieceState.Requested, data := 0 }]) ∧
    (start sampleMachine (pieceRequested sampleMachine
      (pause (sampleSelling SessionState.started busyConnections)).state 1 5).state).outcome =
        Outcome.returned () ∧
    Effect.LoadPieceForBuyer 1 5 ∉
      (start sampleMachine (pieceRequested sampleMachine
        (pause (sampleSelling SessionState.started busyConnections)).state 1 5).state).trace ∧
    (pieceRequested sampleMachine
      (pause (sampleSelling SessionState.started repeatConnections)).state 1 5).outcome =
        Outcome.aborted ∧
    ((pieceRequested sampleMachine
      (pause (sampleSelling SessionState.started repeatConnections)).state 1 5).state.session.get
        1).map Connection.pieceDeliveryPipeline =
      some [{ index := 5, state := PieceState.Loaded, data := 44 }] := by
  decide

/-! ### The invariant "stopped implies no connection" -/

/-- A normal return of the internal `removeConnection(id, cause)` has destroyed the
connection. -/
theorem Selling.removeConnectionCause_returned (A : CBStateMachine M) (s : Selling M)
    (id : ConnId) (cause : DisconnectCause)
    (h : (removeConnectionCause A s id cause).outcome = Outcome.returned ()) :
    (removeConnectionCause A s id cause).state =
      { s with session := s.session.destroyConnection id } := by
  unfold removeConnectionCause at h ⊢
  by_cases hs : s.session.state = SessionState.stopped
  · simp [hs] at h
  · by_cases hh : s.session.hasConnection id = true
    · obtain ⟨c, hc⟩ := (Session.get_isSome_iff _ _).2 hh
      simp [hs, hh, hc]
    · simp [hs, hh] at h

/-- A normal return of the loop of `stop` over the ids `l` has destroyed every
connection registered under one of them. -/
theorem Selling.removeEach_returned (A : CBStateMachine M) :
    ∀ (l : List ConnId) (s : Selling M),
      (removeEach A l s).outcome = Outcome.returned () →
      (removeEach A l s).state.session.connections =
        s.session.connections.filter (fun p => decide (p.1 ∉ l)) := by
  intro l
  induction l with
  | nil =>
    intro s _
    simp [removeEach]
  | cons id rest ih =>
    intro s hout
    by_cases h : (removeConnectionCause A s id DisconnectCause.client).outcome =
        Outcome.returned ()
    · have hst := removeConnectionCause_returned A s id DisconnectCause.client h
      simp only [removeEach, h] at hout ⊢
      rw [ih _ hout, hst]
      simp only [Session.destroyConnection, List.filter_filter]
      apply List.filter_congr
      intro p _
      by_cases hp : p.1 = id
      · simp [hp]
      · by_cases hr : p.1 ∈ rest
        · simp [hp, hr]
        · simp [hp, hr]
    · have hab := removeConnectionCause_aborted A s id DisconnectCause.client h
      simp [removeEach, hab] at hout

/-- The invariant "stopped implies no connection" is kept by every inbound call except
an `addConnection` made while the session is stopped. -/
theorem Selling.perform_keeps_stopped_empty (A : CBStateMachine M) (s : Selling M) (op : Op)
    (hinv : s.session.state = SessionState.stopped → s.session.connections = [])
    (hadd : ∀ id, op = Op.addConnection id → s.session.state ≠ SessionState.stopped) :
    (s.perform A op).state.session.state = SessionState.stopped →
      (s.perform A op).state.session.connections = [] := by
  intro hres
  by_cases hl : op.isLifecycleCommand = true
  · cases op with
    | start =>
      exfalso
      revert hres
      simp only [Selling.perform, start]
      split <;> intro h
      · rename_i hs
        simp [hs] at h
      · simp at h
    | pause =>
      revert hres
      simp only [Selling.perform, pause]
      split
      · exact hinv
      · intro h
        simp at h
    | stop =>
      revert hres
      simp only [Selling.perform, stop]
      by_cases hs : s.session.state = SessionState.stopped
      · simp only [if_pos hs]
        exact hinv
      · simp only [if_neg hs]
        by_cases hr : (removeEach A s.ids s).outcome = Outcome.returned ()
        · simp only [hr]
          intro _
          rw [removeEach_returned A s.ids s hr]
          simp only [Selling.ids, ConnectionMap.keys, List.filter_eq_nil_iff]
          intro p hp
          simp only [decide_eq_true_eq, not_not]
          exact List.mem_map_of_mem Prod.fst hp
        · rcases (removeEach_outcome A s.ids s) with ⟨h1 | h1, h2⟩
          · exact absurd h1 hr
          · simp only [h1]
            intro h
            rw [h2] at h
            exact absurd h hs
    | _ => simp [Op.isLifecycleCommand] at hl
  · have hl' : op.isLifecycleCommand = false := by simpa using hl
    have hst : s.session.state = SessionState.stopped := by
      rw [← perform_state A s op hl']
      exact hres
    have hemp := hinv hst
    cases op with
    | addConnection id => exact absurd hst (hadd id rfl)
    | removeConnection id => simp [Selling.perform, removeConnection, hst, hemp]
    | startUploading id terms kp hh => simp [Selling.perform, startUploading, hst, hemp]
    | pieceLoaded data index => simp [Selling.perform, pieceLoaded, hst, hemp]
    | pieceRequested id index => simp [Selling.perform, pieceRequested, hst, hemp]
    | receivedValidPayment id sig =>
      simp [Selling.perform, receivedValidPayment, Session.get, hemp]
    | receivedInvalidPayment id sig =>
      simp [Selling.perform, receivedInvalidPayment, removeThenSignalDeletion, hst, hemp]
    | invalidPieceRequested id =>
      simp [Selling.perform, invalidPieceRequested, removeThenSignalDeletion, hst, hemp]
    | paymentInterrupted id =>
      simp [Selling.perform, paymentInterrupted, removeThenSignalDeletion, hst, hemp]
    | remoteMessageOverflow id =>
      simp [Selling.perform, remoteMessageOverflow, removeConnectionCause, hst, hemp]
    | start => simp [Op.isLifecycleCommand] at hl'
    | pause => simp [Op.isLifecycleCommand] at hl'
    | stop => simp [Op.isLifecycleCommand] at hl'
    | updateTerms terms => simp [Selling.perform, updateTerms, announceTerms, hemp]
    | leavingState => simp [Selling.perform, leavingState, hemp]

/-! ### C11 -/

/-- A walk that maps every connection leaves the keys as they were, and looks up the
mapped connection. -/
theorem Session.get_map (st : SessionState) (f : Connection M → Connection M) (id : ConnId) :
    ∀ l : ConnectionMap M,
      (Session.mk st (l.map (fun p => (p.1, f p.2)))).get id =
        ((Session.mk st l).get id).map f := by
  intro l
  unfold Session.get
  simp only
  induction l with
  | nil => rfl
  | cons p rest ih =>
    obtain ⟨k, c⟩ := p
    simp only [List.map_cons, List.find?_cons]
    cases hk : (k == id)
    · exact ih
    · rfl

theorem ConnectionMap.keys_map (f : Connection M → Connection M) (l : ConnectionMap M) :
    ConnectionMap.keys (l.map (fun p => (p.1, f p.2))) = ConnectionMap.keys l := by
  unfold ConnectionMap.keys
  simp [List.map_map, Function.comp_def]

/-- What `tryToSendPieces(c)` does when its two asserts hold. -/
theorem Selling.tryToSendPieces_ok (A : CBStateMachine M) (s : Selling M) (c : Connection M)
    (hs : s.session.state = SessionState.started)
    (hc : c.inServicingPieceRequests A = true) :
    (tryToSendPieces A s c).ok = true ∧
    (tryToSendPieces A s c).conn.connectionId = c.connectionId ∧
    (tryToSendPieces A s c).conn.maxPieceIndex = c.maxPieceIndex ∧
    (tryToSendPieces A s c).conn.pieceDeliveryPipeline =
      (c.pieceDeliveryPipeline.getNextBatchToSend s.maxOutstandingPayments).2 ∧
    (tryToSendPieces A s c).conn =
      (sendAll A { c with pieceDeliveryPipeline :=
          (c.pieceDeliveryPipeline.getNextBatchToSend s.maxOutstandingPayments).2 }
        (c.pieceDeliveryPipeline.getNextBatchToSend s.maxOutstandingPayments).1).1 ∧
    (tryToSendPieces A s c).trace =
      (c.pieceDeliveryPipeline.getNextBatchToSend s.maxOutstandingPayments).1.map
        (fun d => Effect.ProcessEvent c.connectionId (Event.PieceLoaded d)) := by
  have hframe := sendAll_frame A
    (c.pieceDeliveryPipeline.getNextBatchToSend s.maxOutstandingPayments).1
    { c with pieceDeliveryPipeline :=
        (c.pieceDeliveryPipeline.getNextBatchToSend s.maxOutstandingPayments).2 }
  have hmax : ∀ (ds : List PieceData) (c0 : Connection M),
      (sendAll A c0 ds).1.maxPieceIndex = c0.maxPieceIndex := by
    intro ds
    induction ds with
    | nil => intro c0; rfl
    | cons d rest ih =>
      intro c0
      simp only [sendAll]
      rw [ih]
      rfl
  have heq : tryToSendPieces A s c =
      { conn := (sendAll A { c with pieceDeliveryPipeline :=
            (c.pieceDeliveryPipeline.getNextBatchToSend s.maxOutstandingPayments).2 }
          (c.pieceDeliveryPipeline.getNextBatchToSend s.maxOutstandingPayments).1).1,
        trace := (sendAll A { c with pieceDeliveryPipeline :=
            (c.pieceDeliveryPipeline.getNextBatchToSend s.maxOutstandingPayments).2 }
          (c.pieceDeliveryPipeline.getNextBatchToSend s.maxOutstandingPayments).1).2,
        ok := true } := by
    simp [tryToSendPieces, hs, hc]
  rw [heq]
  exact ⟨rfl, hframe.1, hmax _ _, hframe.2.1, rfl, hframe.2.2⟩

/-- What the body of the loop of `pieceLoaded` does for one connection. -/
theorem Selling.pieceLoadedBody_spec (A : CBStateMachine M) (s : Selling M) (data : PieceData)
    (index : Int) (c : Connection M) :
    (pieceLoadedBody A s data index c).ok = true ∧
    (c.inServicingPieceRequests A = false → (pieceLoadedBody A s data index c).conn = c) ∧
    (c.inServicingPieceRequests A = true → s.session.state ≠ SessionState.started →
      (pieceLoadedBody A s data index c).conn =
        { c with pieceDeliveryPipeline := c.pieceDeliveryPipeline.dataReady index data }) ∧
    (c.inServicingPieceRequests A = true → s.session.state = SessionState.started →
      (pieceLoadedBody A s data index c).conn.connectionId = c.connectionId ∧
      (pieceLoadedBody A s data index c).conn.maxPieceIndex = c.maxPieceIndex ∧
      (pieceLoadedBody A s data index c).conn.pieceDeliveryPipeline =
        ((c.pieceDeliveryPipeline.dataReady index data).getNextBatchToSend
          s.maxOutstandingPayments).2) ∧
    (pieceLoadedBody A s data index c).trace =
      if c.inServicingPieceRequests A = true ∧ s.session.state = SessionState.started then
        ((c.pieceDeliveryPipeline.dataReady index data).getNextBatchToSend
          s.maxOutstandingPayments).1.map
            (fun d => Effect.ProcessEvent c.connectionId (Event.PieceLoaded d))
      else [] := by
  unfold pieceLoadedBody
  cases hc : c.inServicingPieceRequests A with
  | false => simp
  | true =>
    by_cases hs : s.session.state = SessionState.started
    · have h := tryToSendPieces_ok A s
        { c with pieceDeliveryPipeline := c.pieceDeliveryPipeline.dataReady index data } hs hc
      simp only [not_true_eq_false, if_false, if_pos hs, true_and]
      exact ⟨h.1, fun h' => absurd h' (by simp), fun _ h' => absurd hs h',
        fun _ _ => ⟨h.2.1, h.2.2.1, h.2.2.2.1⟩, h.2.2.2.2.2⟩
    · simp [hs]

/-- C11: `pieceLoaded(data, index)` on a stopped session changes nothing and issues
nothing. On a session that is not stopped it returns normally, keeps the registered
ids, leaves every connection that is not in `ServicingPieceRequests` exactly as it was,
and applies `dataReady(index, data)` to the pipeline of every connection that is in
`ServicingPieceRequests`, followed by `getNextBatchToSend(maxOutstandingPayments)` only
when the session is started; the trace consists of the piece events of the batches sent,
connection by connection, with nothing for a connection in another state or when the
session is not started, so on a paused session the trace is empty. -/
theorem pieceLoaded_contract (A : CBStateMachine M) (s : Selling M) (data : PieceData)
    (index : Int) :
    (s.state = SessionState.stopped →
      pieceLoaded A s data index = { state := s, trace := [], outcome := Outcome.returned () }) ∧
    (s.state ≠ SessionState.stopped →
      (pieceLoaded A s data index).outcome = Outcome.returned () ∧
      (pieceLoaded A s data index).state.ids = s.ids ∧
      (∀ id c, s.session.get id = some c → c.inServicingPieceRequests A = false →
        (pieceLoaded A s data index).state.session.get id = some c) ∧
      (∀ id c, s.session.get id = some c → c.inServicingPieceRequests A = true →
        ∃ c1, (pieceLoaded A s data index).state.session.get id = some c1 ∧
          c1.connectionId = c.connectionId ∧ c1.maxPieceIndex = c.maxPieceIndex ∧
          c1.pieceDeliveryPipeline =
            if s.state = SessionState.started then
              ((c.pieceDeliveryPipeline.dataReady index data).getNextBatchToSend
                s.maxOutstandingPayments).2
            else c.pieceDeliveryPipeline.dataReady index data) ∧
      (pieceLoaded A s data index).trace =
        (s.session.connections.map (fun p =>
          if p.2.inServicingPieceRequests A = true ∧ s.state = SessionState.started then
            ((p.2.pieceDeliveryPipeline.dataReady index data).getNextBatchToSend
              s.maxOutstandingPayments).1.map
                (fun d => Effect.ProcessEvent p.2.connectionId (Event.PieceLoaded d))
          else [])).flatten) ∧
    (s.state = SessionState.paused → (pieceLoaded A s data index).trace = []) := by
  unfold Selling.state
  have hnot : s.session.state ≠ SessionState.stopped →
      pieceLoaded A s data index =
        { state := { s with session := (Session.mk s.session.state
            (s.session.connections.map
              (fun p => (p.1, (pieceLoadedBody A s data index p.2).conn)))) },
          trace := (s.session.connections.map
            (fun p => (pieceLoadedBody A s data index p.2).trace)).flatten,
          outcome := Outcome.returned () } := by
    intro hs
    simp [pieceLoaded, hs,
      forEachConnection_ok _ (fun c => (pieceLoadedBody_spec A s data index c).1), finished]
  have htrace : s.session.state ≠ SessionState.stopped →
      (pieceLoaded A s data index).trace =
        (s.session.connections.map (fun p =>
          if p.2.inServicingPieceRequests A = true ∧ s.session.state = SessionState.started then
            ((p.2.pieceDeliveryPipeline.dataReady index data).getNextBatchToSend
              s.maxOutstandingPayments).1.map
                (fun d => Effect.ProcessEvent p.2.connectionId (Event.PieceLoaded d))
          else [])).flatten := by
    intro hs
    rw [hnot hs]
    simp only
    congr 1
    apply List.map_congr_left
    intro p _
    exact (pieceLoadedBody_spec A s data index p.2).2.2.2.2
  refine ⟨?_, ?_, ?_⟩
  · intro hs
    simp [pieceLoaded, hs]
  · intro hs
    refine ⟨by rw [hnot hs], ?_, ?_, ?_, htrace hs⟩
    · rw [hnot hs]
      exact ConnectionMap.keys_map
        (fun c => (pieceLoadedBody A s data index c).conn) s.session.connections
    · intro id c hc hserv
      rw [hnot hs]
      have := Session.get_map s.session.state
        (fun c => (pieceLoadedBody A s data index c).conn) id s.session.connections
      simp only at this ⊢
      rw [this]
      have hc' : (Session.mk s.session.state s.session.connections).get id = some c := hc
      rw [hc']
      simp only [Option.map_some', Option.some.injEq]
      exact (pieceLoadedBody_spec A s data index c).2.1 hserv
    · intro id c hc hserv
      rw [hnot hs]
      have := Session.get_map s.session.state
        (fun c => (pieceLoadedBody A s data index c).conn) id s.session.connections
      simp only at this ⊢
      rw [this]
      have hc' : (Session.mk s.session.state s.session.connections).get id = some c := hc
      rw [hc']
      refine ⟨_, rfl, ?_⟩
      by_cases hst : s.session.state = SessionState.started
      · have h := (pieceLoadedBody_spec A s data index c).2.2.2.1 hserv hst
        simp only [if_pos hst]
        exact h
      · have h := (pieceLoadedBody_spec A s data index c).2.2.1 hserv hst
        simp only [if_neg hst]
        rw [h]
        exact ⟨rfl, rfl, rfl⟩
  · intro hp
    have hs : s.session.state ≠ SessionState.stopped := by
      rw [hp]
      decide
    rw [htrace hs]
    simp [hp]

/-- The statement of C11 on a paused and a started session with three connections, for
the data of piece `1`: paused, nothing is sent; started, connection `2` has its loaded
piece sent. -/
theorem pieceLoaded_contract_witness :
    (pieceLoaded sampleMachine (sampleSelling SessionState.paused sampleConnections) 41 1).trace
      = [] ∧
    (pieceLoaded sampleMachine (sampleSelling SessionState.started sampleConnections) 41 1).trace
      = [Effect.ProcessEvent 2 (Event.PieceLoaded 41)] ∧
    pieceLoaded sampleMachine (sampleSelling SessionState.stopped []) 41 1 =
      { state := sampleSelling SessionState.stopped [], trace := [],
        outcome := Outcome.returned () } :=
  ⟨(pieceLoaded_contract sampleMachine (sampleSelling SessionState.paused sampleConnections)
      41 1).2.2 (by decide),
   (((pieceLoaded_contract sampleMachine (sampleSelling SessionState.started sampleConnections)
      41 1).2.1 (by decide)).2.2.2.2).trans (by decide),
   (pieceLoaded_contract sampleMachine (sampleSelling SessionState.stopped []) 41 1).1
      (by decide)⟩

/-! ### C12 -/

/-- What `tryToLoadPieces(c)` does when its two asserts hold. -/
theorem Selling.tryToLoadPieces_ok (A : CBStateMachine M) (s : Selling M) (c : Connection M)
    (hs : s.session.state = SessionState.started)
    (hc : c.inServicingPieceRequests A = true) :
    tryToLoadPieces A s c =
      { conn := { c with pieceDeliveryPipeline :=
          (c.pieceDeliveryPipeline.getNextBatchToLoad
            (s.maxOutstandingPayments + s.maxPiecesToPreload)).2 },
        trace := (c.pieceDeliveryPipeline.getNextBatchToLoad
          (s.maxOutstandingPayments + s.maxPiecesToPreload)).1.map
            (fun index => Effect.LoadPieceForBuyer c.connectionId index),
        ok := true } := by
  simp [tryToLoadPieces, hs, hc]

/-- The effects of `tryToSendPieces(c)` are automaton events. -/
theorem Selling.tryToSendPieces_trace (A : CBStateMachine M) (s : Selling M)
    (c : Connection M) :
    ∀ e ∈ (tryToSendPieces A s c).trace, ∃ d, e = Effect.ProcessEvent c.connectionId
      (Event.PieceLoaded d) := by
  intro e he
  unfold tryToSendPieces at he
  split at he
  · simp at he
  · split at he
    · simp at he
    · simp only [(sendAll_frame A _ _).2.2, List.mem_map] at he
      obtain ⟨d, _, hd⟩ := he
      exact ⟨d, hd.symm⟩

/-- The effects of `tryToLoadPieces(c)` are calls of `LoadPieceForBuyer`. -/
theorem Selling.tryToLoadPieces_trace (A : CBStateMachine M) (s : Selling M)
    (c : Connection M) :
    ∀ e ∈ (tryToLoadPieces A s c).trace, ∃ index, e = Effect.LoadPieceForBuyer c.connectionId
      index := by
  intro e he
  unfold tryToLoadPieces at he
  split at he
  · simp at he
  · split at he
    · simp at he
    · simp only [List.mem_map] at he
      obtain ⟨i, _, hi⟩ := he
      exact ⟨i, hi.symm⟩

/-- Sending and loading never call `ReceivedValidPayment`. -/
theorem Selling.sendThenLoad_no_payment (A : CBStateMachine M) (s : Selling M)
    (c : Connection M) :
    (sendThenLoad A s c).trace.filter Effect.isReceivedValidPayment = [] := by
  rw [List.filter_eq_nil_iff]
  intro e he
  unfold sendThenLoad at he
  split at he
  · rcases List.mem_append.1 he with h | h
    · obtain ⟨d, hd⟩ := tryToSendPieces_trace A s c e h
      simp [hd, Effect.isReceivedValidPayment]
    · obtain ⟨i, hi⟩ := tryToLoadPieces_trace A s _ e h
      simp [hi, Effect.isReceivedValidPayment]
  · obtain ⟨d, hd⟩ := tryToSendPieces_trace A s c e he
    simp [hd, Effect.isReceivedValidPayment]

/-- What `tryToSendPieces(c); tryToLoadPieces(c);` does on a started session for a
connection that is servicing piece requests, when the automaton stays there on a loaded
piece: the batch to send is sent, then the batch to load is loaded. -/
theorem Selling.sendThenLoad_ok (A : CBStateMachine M) (s : Selling M) (c : Connection M)
    (hs : s.session.state = SessionState.started)
    (hc : c.inServicingPieceRequests A = true)
    (hstay : ∀ m d, A.inServicingPieceRequests m = true →
      A.inServicingPieceRequests (A.processEvent m (Event.PieceLoaded d)) = true) :
    (sendThenLoad A s c).ok = true ∧
    (sendThenLoad A s c).conn.connectionId = c.connectionId ∧
    (sendThenLoad A s c).conn.pieceDeliveryPipeline =
      ((c.pieceDeliveryPipeline.getNextBatchToSend
        s.maxOutstandingPayments).2.getNextBatchToLoad
          (s.maxOutstandingPayments + s.maxPiecesToPreload)).2 ∧
    (sendThenLoad A s c).trace =
      (c.pieceDeliveryPipeline.getNextBatchToSend s.maxOutstandingPayments).1.map
          (fun d => Effect.ProcessEvent c.connectionId (Event.PieceLoaded d)) ++
        ((c.pieceDeliveryPipeline.getNextBatchToSend
          s.maxOutstandingPayments).2.getNextBatchToLoad
            (s.maxOutstandingPayments + s.maxPiecesToPreload)).1.map
          (fun index => Effect.LoadPieceForBuyer c.connectionId index) := by
  have hsend := tryToSendPieces_ok A s c hs hc
  have hserv : (tryToSendPieces A s c).conn.inServicingPieceRequests A = true := by
    rw [hsend.2.2.2.2.1]
    exact sendAll_servicing A hstay _ _ hc
  have hload := tryToLoadPieces_ok A s (tryToSendPieces A s c).conn hs hserv
  unfold sendThenLoad
  simp only [hsend.1, if_true, hload, hsend.2.1, hsend.2.2.2.1, hsend.2.2.2.2.2]
  exact ⟨trivial, trivial, trivial, trivial⟩

/-- C12 (as amended): for `id` registered with connection `c`,
`receivedValidPayment(id, signature)`
calls `ReceivedValidPayment` exactly once, first, with `id` and the price, number of
payments made and amount paid of the connection's payee, and then applies
`paymentReceived()` to the connection's pipeline. When the pipeline accepts it: on a
session that is not started the pipeline is replaced by the result and nothing else is
issued (no send, no load); on a started session, for a connection servicing piece
requests whose automaton stays there on a loaded piece, the call returns normally and
issues, after the callback, the piece events of `getNextBatchToSend` and then the
`LoadPieceForBuyer` calls of `getNextBatchToLoad` on the pipeline left by the send. When
the pipeline rejects it, the call ends with that error right after the callback; on a
started session a connection that is not servicing piece requests fails the assert of
the send. -/
theorem receivedValidPayment_contract (A : CBStateMachine M) (s : Selling M) (id : ConnId)
    (sig : Signature) (c : Connection M) (hc : s.session.get id = some c) :
    (receivedValidPayment A s id sig).trace.filter Effect.isReceivedValidPayment =
      [Effect.ReceivedValidPayment id (c.payee A).price (c.payee A).numberOfPaymentsMade
        (c.payee A).amountPaid] ∧
    (receivedValidPayment A s id sig).trace.head? =
      some (Effect.ReceivedValidPayment id (c.payee A).price (c.payee A).numberOfPaymentsMade
        (c.payee A).amountPaid) ∧
    (∀ p1, c.pieceDeliveryPipeline.paymentReceived = some p1 →
      s.state ≠ SessionState.started →
      receivedValidPayment A s id sig =
        { state := { s with
            session := (s.session.put id { c with pieceDeliveryPipeline := p1 }) },
          trace := [Effect.ReceivedValidPayment id (c.payee A).price
            (c.payee A).numberOfPaymentsMade (c.payee A).amountPaid],
          outcome := Outcome.returned () }) ∧
    (∀ p1, c.pieceDeliveryPipeline.paymentReceived = some p1 →
      s.state = SessionState.started → c.inServicingPieceRequests A = true →
      (∀ m d, A.inServicingPieceRequests m = true →
        A.inServicingPieceRequests (A.processEvent m (Event.PieceLoaded d)) = true) →
      (receivedValidPayment A s id sig).outcome = Outcome.returned () ∧
      (receivedValidPayment A s id sig).trace =
        Effect.ReceivedValidPayment id (c.payee A).price (c.payee A).numberOfPaymentsMade
            (c.payee A).amountPaid ::
          ((p1.getNextBatchToSend s.maxOutstandingPayments).1.map
              (fun d => Effect.ProcessEvent c.connectionId (Event.PieceLoaded d)) ++
            ((p1.getNextBatchToSend s.maxOutstandingPayments).2.getNextBatchToLoad
              (s.maxOutstandingPayments + s.maxPiecesToPreload)).1.map
              (fun index => Effect.LoadPieceForBuyer c.connectionId index)) ∧
      ∃ c1, (receivedValidPayment A s id sig).state.session.get id = some c1 ∧
        c1.connectionId = c.connectionId ∧
        c1.pieceDeliveryPipeline =
          ((p1.getNextBatchToSend s.maxOutstandingPayments).2.getNextBatchToLoad
            (s.maxOutstandingPayments + s.maxPiecesToPreload)).2) ∧
    (c.pieceDeliveryPipeline.paymentReceived = none →
      receivedValidPayment A s id sig =
        { state := s,
          trace := [Effect.ReceivedValidPayment id (c.payee A).price
            (c.payee A).numberOfPaymentsMade (c.payee A).amountPaid],
          outcome := Outcome.raised Exception.PipelineLogicError }) ∧
    (∀ p1, c.pieceDeliveryPipeline.paymentReceived = some p1 →
      s.state = SessionState.started → c.inServicingPieceRequests A = false →
      (receivedValidPayment A s id sig).outcome = Outcome.aborted ∧
      (receivedValidPayment A s id sig).trace =
        [Effect.ReceivedValidPayment id (c.payee A).price
          (c.payee A).numberOfPaymentsMade (c.payee A).amountPaid]) := by
  unfold Selling.state
  refine ⟨?_, ?_, ?_, ?_, ?_, ?_⟩
  · unfold receivedValidPayment
    simp only [hc]
    cases hp : c.pieceDeliveryPipeline.paymentReceived with
    | none => simp [Effect.isReceivedValidPayment]
    | some p1 =>
      by_cases hs : s.session.state = SessionState.started
      · simp only [if_pos hs, List.filter_cons, Effect.isReceivedValidPayment, if_true,
          sendThenLoad_no_payment]
      · simp [hs, Effect.isReceivedValidPayment]
  · unfold receivedValidPayment
    simp only [hc]
    cases hp : c.pieceDeliveryPipeline.paymentReceived with
    | none => simp
    | some p1 =>
      by_cases hs : s.session.state = SessionState.started
      · simp [hs]
      · simp [hs]
  · intro p1 hp hs
    simp [receivedValidPayment, hc, hp, hs]
  · intro p1 hp hs hserv hstay
    have hok := sendThenLoad_ok A s { c with pieceDeliveryPipeline := p1 } hs hserv hstay
    unfold receivedValidPayment
    simp only [hc, hp, if_pos hs, hok.1, finished, if_true, hok.2.2.2, true_and]
    refine ⟨_, Session.put_get _ id c _ hc, hok.2.1, hok.2.2.1⟩
  · intro hp
    simp [receivedValidPayment, hc, hp]
  · intro p1 hp hs hserv
    have hsend : tryToSendPieces A s { c with pieceDeliveryPipeline := p1 } =
        { conn := { c with pieceDeliveryPipeline := p1 }, trace := [], ok := false } := by
      have hserv1 : ({ c with pieceDeliveryPipeline := p1 } :
          Connection M).inServicingPieceRequests A = false := hserv
      simp [tryToSendPieces, hs, hserv1]
    unfold receivedValidPayment
    simp [hc, hp, hs, sendThenLoad, hsend, finished]

/-- The statement of C12 (as amended) on a started and on a paused session whose connection `1` has
piece `0` sent, piece `1` loaded and piece `2` requested: started, the payment is
reported, piece `1` is sent and piece `2` is loaded, in that order; paused, the payment
is reported and nothing else. -/
theorem receivedValidPayment_contract_witness :
    (receivedValidPayment sampleMachine (sampleSelling SessionState.started payingConnections)
      1 9).trace =
      [Effect.ReceivedValidPayment 1 3 2 6, Effect.ProcessEvent 1 (Event.PieceLoaded 41),
       Effect.LoadPieceForBuyer 1 2] ∧
    (receivedValidPayment sampleMachine (sampleSelling SessionState.paused payingConnections)
      1 9).trace = [Effect.ReceivedValidPayment 1 3 2 6] := by
  have h := receivedValidPayment_contract sampleMachine
    (sampleSelling SessionState.started payingConnections) 1 9
    (sampleConnection 1 Phase.ServicingPieceRequests 2
      [{ index := 0, state := PieceState.Sent, data := 40 },
       { index := 1, state := PieceState.Loaded, data := 41 },
       { index := 2, state := PieceState.Requested, data := 0 }]) (by decide)
  have h2 := receivedValidPayment_contract sampleMachine
    (sampleSelling SessionState.paused payingConnections) 1 9
    (sampleConnection 1 Phase.ServicingPieceRequests 2
      [{ index := 0, state := PieceState.Sent, data := 40 },
       { index := 1, state := PieceState.Loaded, data := 41 },
       { index := 2, state := PieceState.Requested, data := 0 }]) (by decide)
  refine ⟨?_, ?_⟩
  · exact ((h.2.2.2.1 [{ index := 1, state := PieceState.Loaded, data := 41 },
        { index := 2, state := PieceState.Requested, data := 0 }] (by decide) (by decide)
        (by decide) (fun _ _ hm => hm)).2.1).trans (by decide)
  · have h3 := h2.2.2.1 [{ index := 1, state := PieceState.Loaded, data := 41 },
        { index := 2, state := PieceState.Requested, data := 0 }] (by decide) (by decide)
    exact (congrArg Result.trace h3).trans (by decide)

/-- C12 fails as stated. On a started session whose connection `1` is servicing piece
requests and has piece `5` loaded and nothing sent, `receivedValidPayment(1, sig)` calls
`ReceivedValidPayment` and then ends with the error of `paymentReceived()`: it does not
attempt to send, although `tryToSendPieces` on that connection would send piece `5`, and
the controller state is left as it was. -/
theorem receivedValidPayment_rejected_sends_nothing :
    (sampleSelling SessionState.started repeatConnections).state = SessionState.started ∧
    (sampleSelling SessionState.started repeatConnections).session.hasConnection 1 = true ∧
    (receivedValidPayment sampleMachine (sampleSelling SessionState.started repeatConnections)
      1 9).trace = [Effect.ReceivedValidPayment 1 3 0 0] ∧
    (receivedValidPayment sampleMachine (sampleSelling SessionState.started repeatConnections)
      1 9).outcome = Outcome.raised Exception.PipelineLogicError ∧
    (receivedValidPayment sampleMachine (sampleSelling SessionState.started repeatConnections)
      1 9).state = sampleSelling SessionState.started repeatConnections ∧
    (tryToSendPieces sampleMachine (sampleSelling SessionState.started repeatConnections)
      (sampleConnection 1 Phase.ServicingPieceRequests 0
        [{ index := 5, state := PieceState.Loaded, data := 44 }])).trace =
      [Effect.ProcessEvent 1 (Event.PieceLoaded 44)] := by
  decide

/-! ### C13 -/

namespace PieceDeliveryPipeline

theorem countIn_cons (st : PieceState) (e : Piece) (p : List Piece) :
    countIn st (e :: p) = countIn st p + if e.state = st then 1 else 0 := by
  unfold countIn
  rw [List.countP_cons]
  simp

/-- A change of entries that keeps each entry's being in state `st` keeps the count. -/
theorem countIn_map (st : PieceState) (f : Piece → Piece)
    (hf : ∀ e, (f e).state = st ↔ e.state = st) (p : List Piece) :
    countIn st (p.map f) = countIn st p := by
  unfold countIn
  rw [List.countP_map]
  apply List.countP_congr
  intro e _
  simp [hf e]

theorem add_countIn_sent (p : PieceDeliveryPipeline) (index : Int) :
    countIn PieceState.Sent ((p.add index).getD p) = countIn PieceState.Sent p := by
  unfold add
  split
  · rfl
  · simp [countIn]

theorem dataReady_countIn_sent (p : PieceDeliveryPipeline) (index : Int) (data : PieceData) :
    countIn PieceState.Sent (p.dataReady index data) = countIn PieceState.Sent p := by
  unfold dataReady
  apply countIn_map
  intro e
  split
  · rename_i h
    constructor
    · intro h'
      simp at h'
    · intro h'
      rcases h.2 with h2 | h2 <;> simp [h'] at h2
  · rfl

theorem markLoading_sent (e : Piece) :
    (markLoading e).state = PieceState.Sent ↔ e.state = PieceState.Sent := by
  unfold markLoading
  split
  · rename_i h
    simp [h]
  · rfl

theorem getNextBatchToLoad_countIn_sent (p : PieceDeliveryPipeline) (limit : Nat) :
    countIn PieceState.Sent (p.getNextBatchToLoad limit).2 = countIn PieceState.Sent p := by
  unfold getNextBatchToLoad
  have h1 := countIn_map PieceState.Sent markLoading markLoading_sent (p.take limit)
  unfold countIn at h1 ⊢
  simp only [List.countP_append, h1]
  rw [← List.countP_append, List.take_append_drop]

/-- The walk of `getNextBatchToSend` never takes the number of Sent entries above the
limit: `m` counts the Sent entries already passed. -/
theorem sendWalk_countIn_sent (limit : Nat) :
    ∀ (q : List Piece) (m : Nat), m + countIn PieceState.Sent q ≤ limit →
      m + countIn PieceState.Sent (sendWalk limit (m + countIn PieceState.Sent q) q).2 ≤ limit := by
  intro q
  induction q with
  | nil => intro m h; simpa [sendWalk] using h
  | cons a rest ih =>
    intro m h
    by_cases ha : a.state = PieceState.Loaded
    · have hns : ¬ a.state = PieceState.Sent := by simp [ha]
      have hc : countIn PieceState.Sent (a :: rest) = countIn PieceState.Sent rest := by
        simp [countIn_cons, hns]
      rw [hc] at h ⊢
      by_cases hl : limit < m + countIn PieceState.Sent rest + 1
      · simp only [sendWalk, ha, if_true, hl]
        rw [hc]
        exact h
      · simp only [sendWalk, ha, if_true, hl, if_false]
        have hm : m + 1 + countIn PieceState.Sent rest ≤ limit := by omega
        have := ih (m + 1) hm
        have e1 : m + 1 + countIn PieceState.Sent rest = m + countIn PieceState.Sent rest + 1 := by
          omega
        rw [e1] at this
        rw [countIn_cons]
        simp only [if_true]
        omega
    · by_cases hs : a.state = PieceState.Sent
      · have hc : countIn PieceState.Sent (a :: rest) = countIn PieceState.Sent rest + 1 := by
          simp [countIn_cons, hs]
        rw [hc] at h ⊢
        simp only [sendWalk, ha, if_false]
        have hm : m + 1 + countIn PieceState.Sent rest ≤ limit := by omega
        have := ih (m + 1) hm
        have e1 : m + 1 + countIn PieceState.Sent rest = m + (countIn PieceState.Sent rest + 1) := by
          omega
        rw [e1] at this
        rw [countIn_cons]
        simp only [hs, if_true]
        omega
      · have hc : countIn PieceState.Sent (a :: rest) = countIn PieceState.Sent rest := by
          simp [countIn_cons, hs]
        rw [hc] at h ⊢
        simp only [sendWalk, ha, if_false]
        have := ih m h
        rw [countIn_cons]
        simp only [hs, if_false]
        omega

theorem getNextBatchToSend_countIn_sent (p : PieceDeliveryPipeline) (limit : Nat)
    (h : countIn PieceState.Sent p ≤ limit) :
    countIn PieceState.Sent (p.getNextBatchToSend limit).2 ≤ limit := by
  have := sendWalk_countIn_sent limit p 0 (by simpa using h)
  simpa [getNextBatchToSend, countIn] using this

theorem dropOldestSent_countIn_sent (p : List Piece) :
    countIn PieceState.Sent (dropOldestSent p) ≤ countIn PieceState.Sent p := by
  induction p with
  | nil => simp [dropOldestSent]
  | cons a rest ih =>
    unfold dropOldestSent
    split
    · rw [countIn_cons]
      omega
    · rw [countIn_cons, countIn_cons]
      omega

theorem paymentReceived_countIn_sent (p : PieceDeliveryPipeline) :
    countIn PieceState.Sent (p.paymentReceived.getD p) ≤ countIn PieceState.Sent p := by
  unfold paymentReceived
  split
  · exact dropOldestSent_countIn_sent p
  · exact Nat.le_refl _

/-- Every call the controller makes keeps the number of Sent entries within
`maxOutstandingPayments`. -/
theorem perform_countIn_sent (maxOut maxPre : Nat) (p : PieceDeliveryPipeline) (op : PipelineOp)
    (h : countIn PieceState.Sent p ≤ maxOut) :
    countIn PieceState.Sent (perform maxOut maxPre p op) ≤ maxOut := by
  cases op with
  | add index => simpa [perform, add_countIn_sent] using h
  | dataReady index data => simpa [perform, dataReady_countIn_sent] using h
  | getNextBatchToLoad => simpa [perform, getNextBatchToLoad_countIn_sent] using h
  | getNextBatchToSend => exact getNextBatchToSend_countIn_sent p maxOut h
  | paymentReceived => exact Nat.le_trans (paymentReceived_countIn_sent p) h

theorem run_countIn_sent (maxOut maxPre : Nat) :
    ∀ (ops : List PipelineOp) (p : PieceDeliveryPipeline),
      countIn PieceState.Sent p ≤ maxOut →
      countIn PieceState.Sent (run maxOut maxPre p ops) ≤ maxOut := by
  intro ops
  induction ops with
  | nil => intro p h; exact h
  | cons op rest ih =>
    intro p h
    exact ih _ (perform_countIn_sent maxOut maxPre p op h)

end PieceDeliveryPipeline

/-! ### C14 -/

namespace PieceDeliveryPipeline

theorem add_loading_window (p : PieceDeliveryPipeline) (index : Int) (k : Nat)
    (h : ∀ e ∈ p.drop k, e.state ≠ PieceState.Loading) :
    ∀ e ∈ ((p.add index).getD p).drop k, e.state ≠ PieceState.Loading := by
  unfold add
  split
  · exact h
  · intro e he
    simp only [Option.getD_some, List.drop_append_eq_append_drop] at he
    rcases List.mem_append.1 he with h1 | h1
    · exact h e h1
    · have := List.mem_of_mem_drop h1
      simp only [List.mem_singleton] at this
      rw [this]
      simp

theorem dataReady_loading_window (p : PieceDeliveryPipeline) (index : Int) (data : PieceData)
    (k : Nat) (h : ∀ e ∈ p.drop k, e.state ≠ PieceState.Loading) :
    ∀ e ∈ (p.dataReady index data).drop k, e.state ≠ PieceState.Loading := by
  intro e he
  unfold dataReady at he
  rw [← List.map_drop, List.mem_map] at he
  obtain ⟨a, ha, hae⟩ := he
  split at hae
  · rw [← hae]
    simp
  · rw [← hae]
    exact h a ha

theorem getNextBatchToLoad_loading_window (p : PieceDeliveryPipeline) (limit : Nat)
    (h : ∀ e ∈ p.drop limit, e.state ≠ PieceState.Loading) :
    ∀ e ∈ (p.getNextBatchToLoad limit).2.drop limit, e.state ≠ PieceState.Loading := by
  intro e he
  unfold getNextBatchToLoad at he
  simp only [List.drop_append_eq_append_drop] at he
  rcases List.mem_append.1 he with h1 | h1
  · rw [List.drop_eq_nil_of_le (by simp [List.length_take_le])] at h1
    simp at h1
  · exact h e (List.mem_of_mem_drop h1)

theorem sendWalk_loading_window (limit : Nat) :
    ∀ (q : List Piece) (n k : Nat), ∀ e ∈ (sendWalk limit n q).2.drop k,
      e.state = PieceState.Loading → e ∈ q.drop k := by
  intro q
  induction q with
  | nil =>
    intro n k e he _
    simp [sendWalk] at he
  | cons a rest ih =>
    intro n k e he hl
    by_cases ha : a.state = PieceState.Loaded
    · by_cases hlim : limit < n + 1
      · simpa [sendWalk, ha, hlim] using he
      · simp only [sendWalk, ha, if_true, hlim, if_false] at he
        cases k with
        | zero =>
          simp only [List.drop_zero, List.mem_cons] at he ⊢
          rcases he with h1 | h1
          · rw [h1] at hl
            simp at hl
          · exact Or.inr (by simpa using ih (n + 1) 0 e (by simpa using h1) hl)
        | succ k =>
          simp only [List.drop_succ_cons] at he ⊢
          exact ih (n + 1) k e he hl
    · simp only [sendWalk, ha, if_false] at he
      cases k with
      | zero =>
        simp only [List.drop_zero, List.mem_cons] at he ⊢
        rcases he with h1 | h1
        · exact Or.inl h1
        · exact Or.inr (by simpa using ih n 0 e (by simpa using h1) hl)
      | succ k =>
        simp only [List.drop_succ_cons] at he ⊢
        exact ih n k e he hl

theorem getNextBatchToSend_loading_window (p : PieceDeliveryPipeline) (limit k : Nat)
    (h : ∀ e ∈ p.drop k, e.state ≠ PieceState.Loading) :
    ∀ e ∈ (p.getNextBatchToSend limit).2.drop k, e.state ≠ PieceState.Loading := by
  intro e he hl
  exact h e (sendWalk_loading_window limit p _ k e he hl) hl

theorem dropOldestSent_drop (p : List Piece) :
    ∀ (k : Nat), ∀ e ∈ (dropOldestSent p).drop k, e ∈ p.drop k := by
  induction p with
  | nil => intro k e he; simp [dropOldestSent] at he
  | cons a rest ih =>
    intro k e he
    unfold dropOldestSent at he
    split at he
    · cases k with
      | zero => exact List.mem_cons_of_mem _ (by simpa using he)
      | succ k =>
        simp only [List.drop_succ_cons]
        exact List.drop_subset_drop_left rest (Nat.le_succ k) he
    · cases k with
      | zero =>
        simp only [List.drop_zero, List.mem_cons] at he ⊢
        rcases he with h1 | h1
        · exact Or.inl h1
        · exact Or.inr (by simpa using ih 0 e (by simpa using h1))
      | succ k =>
        simp only [List.drop_succ_cons] at he ⊢
        exact ih k e he

theorem paymentReceived_loading_window (p : PieceDeliveryPipeline) (k : Nat)
    (h : ∀ e ∈ p.drop k, e.state ≠ PieceState.Loading) :
    ∀ e ∈ (p.paymentReceived.getD p).drop k, e.state ≠ PieceState.Loading := by
  unfold paymentReceived
  split
  · intro e he
    exact h e (dropOldestSent_drop p k e he)
  · exact h

/-- Every call the controller makes keeps the entries being loaded within the first
`maxOutstandingPayments + maxPiecesToPreload` entries. -/
theorem perform_loading_window (maxOut maxPre : Nat) (p : PieceDeliveryPipeline)
    (op : PipelineOp)
    (h : ∀ e ∈ p.drop (maxOut + maxPre), e.state ≠ PieceState.Loading) :
    ∀ e ∈ (perform maxOut maxPre p op).drop (maxOut + maxPre),
      e.state ≠ PieceState.Loading := by
  cases op with
  | add index => exact add_loading_window p index _ h
  | dataReady index data => exact dataReady_loading_window p index data _ h
  | getNextBatchToLoad => exact getNextBatchToLoad_loading_window p _ h
  | getNextBatchToSend => exact getNextBatchToSend_loading_window p _ _ h
  | paymentReceived => exact paymentReceived_loading_window p _ h

theorem run_loading_window (maxOut maxPre : Nat) :
    ∀ (ops : List PipelineOp) (p : PieceDeliveryPipeline),
      (∀ e ∈ p.drop (maxOut + maxPre), e.state ≠ PieceState.Loading) →
      ∀ e ∈ (run maxOut maxPre p ops).drop (maxOut + maxPre),
        e.state ≠ PieceState.Loading := by
  intro ops
  induction ops with
  | nil => intro p h; exact h
  | cons op rest ih =>
    intro p h
    exact ih _ (perform_loading_window maxOut maxPre p op h)

/-- Entries being loaded that all lie within the first `k` entries are at most `k`. -/
theorem countIn_loading_le (p : PieceDeliveryPipeline) (k : Nat)
    (h : ∀ e ∈ p.drop k, e.state ≠ PieceState.Loading) :
    countIn PieceState.Loading p ≤ k := by
  unfold countIn
  rw [← List.take_append_drop k p, List.countP_append]
  have h1 : List.countP (fun e => decide (e.state = PieceState.Loading)) (p.drop k) = 0 := by
    rw [List.countP_eq_zero]
    intro e he
    simpa using h e he
  have h2 := List.countP_le_length (fun e => decide (e.state = PieceState.Loading))
    (l := p.take k)
  have h3 := List.length_take_le k p
  omega

end PieceDeliveryPipeline

/-- C14 fails as stated. On a started session with caps 4 and 2 whose connection `5` is
servicing piece requests with an empty pipeline, seven `pieceRequested` calls for the
pieces `0` to `6` all succeed and leave seven entries in flight (six Loading, one
Requested), more than `4 + 2`; and when the data of the seven pieces then arrives, the
pipeline holds four Sent and three Loaded entries, so even without the Requested
entries more than `4 + 2` are in flight. -/
theorem in_flight_entries_exceed_preload_cap :
    (((Selling.run sampleMachine (sampleSelling SessionState.started loneConnections)
        sevenRequests).session.get 5).map
          (fun c => PieceDeliveryPipeline.inFlight c.pieceDeliveryPipeline)) = some 7 ∧
    (((Selling.run sampleMachine (sampleSelling SessionState.started loneConnections)
        sevenRequests).session.get 5).map
          (fun c => c.pieceDeliveryPipeline.map Piece.state)) =
      some [PieceState.Loading, PieceState.Loading, PieceState.Loading, PieceState.Loading,
        PieceState.Loading, PieceState.Loading, PieceState.Requested] ∧
    (sampleSelling SessionState.started loneConnections).maxOutstandingPayments +
      (sampleSelling SessionState.started loneConnections).maxPiecesToPreload = 6 ∧
    (((Selling.run sampleMachine (sampleSelling SessionState.started loneConnections)
        sevenRequestsThenData).session.get 5).map
          (fun c => c.pieceDeliveryPipeline.map Piece.state)) =
      some [PieceState.Sent, PieceState.Sent, PieceState.Sent, PieceState.Sent,
        PieceState.Loaded, PieceState.Loaded, PieceState.Loaded] := by
  decide

/-! ### C15 -/

/-- C15: with `maxOutstandingPayments = 2` and `maxPiecesToPreload = 1`, on an empty
pipeline, `add(0)`, `add(1)`, `add(2)`, `add(3)` succeed and leave four Requested
entries; the first `getNextBatchToLoad(3)` returns exactly `[0, 1, 2]` and leaves `3`
Requested; after `dataReady` for `0`, `1` and `2`, `getNextBatchToSend(2)` returns
exactly the payloads of `0` and `1`, in that order, marks `0` and `1` Sent and leaves
`2` Loaded (and `3` Requested). -/
theorem scenario_load_three_send_two (d0 d1 d2 : PieceData) :
    ((((PieceDeliveryPipeline.add [] 0).bind (fun p => PieceDeliveryPipeline.add p 1)).bind
        (fun p => PieceDeliveryPipeline.add p 2)).bind
          (fun p => PieceDeliveryPipeline.add p 3)) =
      some [{ index := 0, state := PieceState.Requested, data := 0 },
            { index := 1, state := PieceState.Requested, data := 0 },
            { index := 2, state := PieceState.Requested, data := 0 },
            { index := 3, state := PieceState.Requested, data := 0 }] ∧
    PieceDeliveryPipeline.getNextBatchToLoad
        [{ index := 0, state := PieceState.Requested, data := 0 },
         { index := 1, state := PieceState.Requested, data := 0 },
         { index := 2, state := PieceState.Requested, data := 0 },
         { index := 3, state := PieceState.Requested, data := 0 }] (2 + 1) =
      ([0, 1, 2],
       [{ index := 0, state := PieceState.Loading, data := 0 },
        { index := 1, state := PieceState.Loading, data := 0 },
        { index := 2, state := PieceState.Loading, data := 0 },
        { index := 3, state := PieceState.Requested, data := 0 }]) ∧
    PieceDeliveryPipeline.dataReady (PieceDeliveryPipeline.dataReady
        (PieceDeliveryPipeline.dataReady
          [{ index := 0, state := PieceState.Loading, data := 0 },
           { index := 1, state := PieceState.Loading, data := 0 },
           { index := 2, state := PieceState.Loading, data := 0 },
           { index := 3, state := PieceState.Requested, data := 0 }] 0 d0) 1 d1) 2 d2 =
      [{ index := 0, state := PieceState.Loaded, data := d0 },
       { index := 1, state := PieceState.Loaded, data := d1 },
       { index := 2, state := PieceState.Loaded, data := d2 },
       { index := 3, state := PieceState.Requested, data := 0 }] ∧
    PieceDeliveryPipeline.getNextBatchToSend
        [{ index := 0, state := PieceState.Loaded, data := d0 },
         { index := 1, state := PieceState.Loaded, data := d1 },
         { index := 2, state := PieceState.Loaded, data := d2 },
         { index := 3, state := PieceState.Requested, data := 0 }] 2 =
      ([d0, d1],
       [{ index := 0, state := PieceState.Sent, data := d0 },
        { index := 1, state := PieceState.Sent, data := d1 },
        { index := 2, state := PieceState.Loaded, data := d2 },
        { index := 3, state := PieceState.Requested, data := 0 }]) := by
  refine ⟨by decide, by decide, ?_, ?_⟩
  · simp [PieceDeliveryPipeline.dataReady]
  · simp [PieceDeliveryPipeline.getNextBatchToSend, PieceDeliveryPipeline.sendWalk]

/-! ### C16 -/

/-- A pipeline with a Sent entry splits at its oldest Sent entry, and the removal takes
out that entry only. -/
theorem PieceDeliveryPipeline.dropOldestSent_split :
    ∀ p : List Piece, (∃ e ∈ p, e.state = PieceState.Sent) →
      ∃ pre e post, p = pre ++ e :: post ∧ e.state = PieceState.Sent ∧
        (∀ x ∈ pre, x.state ≠ PieceState.Sent) ∧
        PieceDeliveryPipeline.dropOldestSent p = pre ++ post := by
  intro p
  induction p with
  | nil => intro h; simp at h
  | cons a rest ih =>
    intro h
    by_cases ha : a.state = PieceState.Sent
    · exact ⟨[], a, rest, rfl, ha, by simp, by simp [PieceDeliveryPipeline.dropOldestSent, ha]⟩
    · have hrest : ∃ e ∈ rest, e.state = PieceState.Sent := by
        obtain ⟨e, he, hs⟩ := h
        rcases List.mem_cons.1 he with h1 | h1
        · rw [h1] at hs
          exact absurd hs ha
        · exact ⟨e, h1, hs⟩
      obtain ⟨pre, e, post, h1, h2, h3, h4⟩ := ih hrest
      refine ⟨a :: pre, e, post, by simp [h1], h2, ?_, by
        simp [PieceDeliveryPipeline.dropOldestSent, ha, h4]⟩
      intro x hx
      rcases List.mem_cons.1 hx with hx1 | hx1
      · rw [hx1]
        exact ha
      · exact h3 x hx1

/-- C16: an accepted `paymentReceived()` removes the oldest Sent entry and no other
entry, the remaining entries keeping their order; it is accepted exactly when the
pipeline has a Sent entry; and when the pipeline of the connection registered under `id`
has no Sent entry, `receivedValidPayment(id, signature)` ends with the pipeline's error
and leaves the controller state, that pipeline included, as it was. -/
theorem paymentReceived_resolves_oldest_sent (A : CBStateMachine M) (s : Selling M)
    (id : ConnId) (sig : Signature) (c : Connection M) (hc : s.session.get id = some c) :
    (∀ p p1 : PieceDeliveryPipeline, p.paymentReceived = some p1 →
      ∃ pre e post, p = pre ++ e :: post ∧ e.state = PieceState.Sent ∧
        (∀ x ∈ pre, x.state ≠ PieceState.Sent) ∧ p1 = pre ++ post) ∧
    (∀ p : PieceDeliveryPipeline, (∃ e ∈ p, e.state = PieceState.Sent) →
      ∃ p1, p.paymentReceived = some p1) ∧
    (∀ p : PieceDeliveryPipeline, (∀ e ∈ p, e.state ≠ PieceState.Sent) →
      p.paymentReceived = none) ∧
    ((∀ e ∈ c.pieceDeliveryPipeline, e.state ≠ PieceState.Sent) →
      (receivedValidPayment A s id sig).outcome =
        Outcome.raised Exception.PipelineLogicError ∧
      (receivedValidPayment A s id sig).state = s ∧
      (receivedValidPayment A s id sig).state.session.get id = some c) := by
  have hnone : ∀ p : PieceDeliveryPipeline, (∀ e ∈ p, e.state ≠ PieceState.Sent) →
      p.paymentReceived = none := by
    intro p h
    unfold PieceDeliveryPipeline.paymentReceived
    have : p.any (fun e => decide (e.state = PieceState.Sent)) = false := by
      simp only [List.any_eq_false, decide_eq_true_eq]
      exact h
    simp [this]
  have hany : ∀ p : PieceDeliveryPipeline, (∃ e ∈ p, e.state = PieceState.Sent) →
      p.any (fun e => decide (e.state = PieceState.Sent)) = true := by
    intro p h
    simp only [List.any_eq_true, decide_eq_true_eq]
    exact h
  refine ⟨?_, ?_, hnone, ?_⟩
  · intro p p1 hp
    have hex : ∃ e ∈ p, e.state = PieceState.Sent := by
      by_contra hne
      have hall : ∀ e ∈ p, e.state ≠ PieceState.Sent := by
        intro e he hs
        exact hne ⟨e, he, hs⟩
      rw [hnone p hall] at hp
      simp at hp
    obtain ⟨pre, e, post, h1, h2, h3, h4⟩ := PieceDeliveryPipeline.dropOldestSent_split p hex
    refine ⟨pre, e, post, h1, h2, h3, ?_⟩
    unfold PieceDeliveryPipeline.paymentReceived at hp
    simp only [hany p hex, if_true, Option.some.injEq] at hp
    rw [← hp, h4]
  · intro p hex
    exact ⟨PieceDeliveryPipeline.dropOldestSent p, by
      simp [PieceDeliveryPipeline.paymentReceived, hany p hex]⟩
  · intro h
    have hp := hnone c.pieceDeliveryPipeline h
    have hr : receivedValidPayment A s id sig =
        { state := s,
          trace := [Effect.ReceivedValidPayment id (c.payee A).price
            (c.payee A).numberOfPaymentsMade (c.payee A).amountPaid],
          outcome := Outcome.raised Exception.PipelineLogicError } := by
      simp [receivedValidPayment, hc, hp]
    rw [hr]
    exact ⟨rfl, rfl, hc⟩

/-- The statement of C16 on the pipeline Loading, Sent, Loaded, Sent, whose first Sent
entry is removed, and on a started session whose connection `5` has nothing sent. -/
theorem paymentReceived_resolves_oldest_sent_witness :
    PieceDeliveryPipeline.paymentReceived
        [{ index := 3, state := PieceState.Loading, data := 0 },
         { index := 4, state := PieceState.Sent, data := 44 },
         { index := 5, state := PieceState.Loaded, data := 45 },
         { index := 6, state := PieceState.Sent, data := 46 }] =
      some [{ index := 3, state := PieceState.Loading, data := 0 },
            { index := 5, state := PieceState.Loaded, data := 45 },
            { index := 6, state := PieceState.Sent, data := 46 }] ∧
    (receivedValidPayment sampleMachine (sampleSelling SessionState.started sampleConnections)
      5 9).outcome = Outcome.raised Exception.PipelineLogicError ∧
    (receivedValidPayment sampleMachine (sampleSelling SessionState.started sampleConnections)
      5 9).state = sampleSelling SessionState.started sampleConnections :=
  ⟨by decide,
   ((paymentReceived_resolves_oldest_sent sampleMachine
      (sampleSelling SessionState.started sampleConnections) 5 9
      (sampleConnection 5 Phase.ServicingPieceRequests 0 []) (by decide)).2.2.2
      (by decide)).1,
   ((paymentReceived_resolves_oldest_sent sampleMachine
      (sampleSelling SessionState.started sampleConnections) 5 9
      (sampleConnection 5 Phase.ServicingPieceRequests 0 []) (by decide)).2.2.2
      (by decide)).2.1⟩

/-! ### C17 -/

/-- C17 (as amended): `remoteMessageOverflow(id)` has the preconditions of the internal
`removeConnection(id, cause)`. On a session that is not stopped with `id` registered it
returns normally, `id` is no longer registered, and its only call of
`RemovedConnectionCallback` is one call with `(id, buyer_message_overflow)`. On a stopped
session, or for an id that is not registered, an assert of the internal
`removeConnection` fails and nothing is changed or called. -/
theorem remoteMessageOverflow_contract (A : CBStateMachine M) (s : Selling M) (id : ConnId) :
    (s.state ≠ SessionState.stopped → s.session.hasConnection id = true →
      (remoteMessageOverflow A s id).outcome = Outcome.returned () ∧
      (remoteMessageOverflow A s id).state.session.hasConnection id = false ∧
      (remoteMessageOverflow A s id).trace.filter Effect.isRemovedConnection =
        [Effect.RemovedConnection id DisconnectCause.buyer_message_overflow]) ∧
    (s.state = SessionState.stopped ∨ s.session.hasConnection id = false →
      remoteMessageOverflow A s id =
        { state := s, trace := [], outcome := Outcome.aborted }) := by
  unfold Selling.state
  refine ⟨?_, ?_⟩
  · intro hs hh
    obtain ⟨c, hc⟩ := (Session.get_isSome_iff _ _).2 hh
    unfold remoteMessageOverflow
    rw [removeConnectionCause_of_get A s id _ c hs hc]
    exact ⟨rfl, Session.destroyConnection_hasConnection_self _ _,
      filter_removed_claim A c id _⟩
  · intro h
    unfold remoteMessageOverflow removeConnectionCause
    rcases h with h | h
    · simp [h]
    · by_cases hs : s.session.state = SessionState.stopped
      · simp [hs]
      · simp [hs, h]

/-- The statement of C17 (as amended) on a paused session whose connection `2`
overflows. -/
theorem remoteMessageOverflow_contract_witness :
    (remoteMessageOverflow sampleMachine (sampleSelling SessionState.paused sampleConnections)
      2).outcome = Outcome.returned () ∧
    (remoteMessageOverflow sampleMachine (sampleSelling SessionState.paused sampleConnections)
      2).state.session.hasConnection 2 = false ∧
    (remoteMessageOverflow sampleMachine (sampleSelling SessionState.paused sampleConnections)
      2).trace.filter Effect.isRemovedConnection =
        [Effect.RemovedConnection 2 DisconnectCause.buyer_message_overflow] :=
  (remoteMessageOverflow_contract sampleMachine
    (sampleSelling SessionState.paused sampleConnections) 2).1 (by decide) (by decide)

/-- C17 fails as stated. On a stopped session with an empty registry
`remoteMessageOverflow(1)` does not complete normally: the assert of the internal
`removeConnection` on the lifecycle state fails. On a started session on which `3` is
not registered, `remoteMessageOverflow(3)` fails the assert on the registry. -/
theorem remoteMessageOverflow_fails_assert :
    (remoteMessageOverflow sampleMachine (sampleSelling SessionState.stopped []) 1).outcome =
      Outcome.aborted ∧
    (sampleSelling SessionState.started sampleConnections).session.hasConnection 3 = false ∧
    (remoteMessageOverflow sampleMachine (sampleSelling SessionState.started sampleConnections)
      3).outcome = Outcome.aborted := by
  decide

/-! ### C18 -/

theorem Session.insertEntry_length (id : ConnId) (c : Connection M) :
    ∀ l : ConnectionMap M, (Session.insertEntry id c l).length = l.length + 1 := by
  intro l
  induction l with
  | nil => rfl
  | cons p rest ih =>
    unfold Session.insertEntry
    split
    · rfl
    · simp [ih]

theorem Session.insertEntry_mem (id : ConnId) (c : Connection M) (q : ConnId × Connection M) :
    ∀ l : ConnectionMap M, q ∈ Session.insertEntry id c l ↔ q = (id, c) ∨ q ∈ l := by
  intro l
  induction l with
  | nil => simp [Session.insertEntry]
  | cons p rest ih =>
    unfold Session.insertEntry
    split
    · simp
    · simp only [List.mem_cons, ih]
      constructor
      · rintro (h | h | h)
        · exact Or.inr (Or.inl h)
        · exact Or.inl h
        · exact Or.inr (Or.inr h)
      · rintro (h | h | h)
        · exact Or.inr (Or.inl h)
        · exact Or.inl h
        · exact Or.inr (Or.inr h)

theorem Session.insertEntry_find_self (id : ConnId) (c : Connection M) :
    ∀ l : ConnectionMap M, (∀ p ∈ l, p.1 ≠ id) →
      (Session.insertEntry id c l).find? (fun p => p.1 == id) = some (id, c) := by
  intro l
  induction l with
  | nil => intro _; simp [Session.insertEntry]
  | cons p rest ih =>
    intro h
    unfold Session.insertEntry
    split
    · simp
    · have hp : (p.1 == id) = false := by
        simpa using h p (List.mem_cons_self _ _)
      simp only [List.find?_cons, hp]
      exact ih (fun q hq => h q (List.mem_cons_of_mem _ hq))

theorem Session.insertEntry_find_ne (id j : ConnId) (c : Connection M) (hj : j ≠ id) :
    ∀ l : ConnectionMap M,
      (Session.insertEntry id c l).find? (fun p => p.1 == j) = l.find? (fun p => p.1 == j) := by
  intro l
  have hid : (id == j) = false := by
    simpa using fun e : id = j => hj e.symm
  induction l with
  | nil => simp [Session.insertEntry, hid]
  | cons p rest ih =>
    unfold Session.insertEntry
    split
    · simp only [List.find?_cons, hid]
    · simp only [List.find?_cons, ih]

theorem Session.put_get_ne (s : Session M) (id j : ConnId) (c1 : Connection M) (hj : j ≠ id) :
    (s.put id c1).get j = s.get j := by
  unfold Session.get Session.put
  simp only
  induction s.connections with
  | nil => rfl
  | cons p rest ih =>
    obtain ⟨k, c0⟩ := p
    simp only [List.map_cons, List.find?_cons]
    by_cases hk : k = id
    · have hkj : (k == j) = false := by
        simpa [hk] using fun e : id = j => hj e.symm
      simp only [hk, if_true]
      rw [hk] at hkj
      simp only [hkj]
      exact ih
    · simp only [hk, if_false]
      cases hkj : (k == j)
      · exact ih
      · rfl

theorem Session.put_keys (s : Session M) (id : ConnId) (c1 : Connection M) :
    (s.put id c1).connections.keys = s.connections.keys := by
  unfold Session.put ConnectionMap.keys
  simp only [List.map_map]
  apply List.map_congr_left
  intro p _
  simp only [Function.comp]
  split <;> rfl

theorem Session.hasConnection_eq_of_get (s t : Session M) (j : ConnId)
    (h : t.get j = s.get j) : t.hasConnection j = s.hasConnection j := by
  have h1 := Session.get_isSome_iff t j
  have h2 := Session.get_isSome_iff s j
  rw [h] at h1
  have : t.hasConnection j = true ↔ s.hasConnection j = true := h1.symm.trans h2
  cases ha : t.hasConnection j <;> cases hb : s.hasConnection j <;> simp_all

/-- Inserting a new key at its place keeps the keys strictly ascending. -/
theorem Session.insertEntry_keys_ascending (id : ConnId) (c : Connection M) :
    ∀ l : ConnectionMap M, l.keys.Pairwise (fun a b => a < b) → (∀ p ∈ l, p.1 ≠ id) →
      (Session.insertEntry id c l).keys.Pairwise (fun a b => a < b) := by
  intro l
  induction l with
  | nil => intro _ _; simp [Session.insertEntry, ConnectionMap.keys]
  | cons p rest ih =>
    intro hp hne
    simp only [ConnectionMap.keys, List.map_cons, List.pairwise_cons] at hp
    unfold Session.insertEntry
    split
    · rename_i hlt
      simp only [ConnectionMap.keys, List.map_cons, List.pairwise_cons, List.mem_cons,
        List.mem_map]
      refine ⟨?_, ?_, hp.2⟩
      · rintro a (h | ⟨q, hq, rfl⟩)
        · rw [h]
          exact hlt
        · exact Nat.lt_trans hlt (hp.1 q.1 (List.mem_map_of_mem Prod.fst hq))
      · rintro a ⟨q, hq, rfl⟩
        exact hp.1 q.1 (List.mem_map_of_mem Prod.fst hq)
    · rename_i hlt
      have hpid : p.1 < id :=
        Nat.lt_of_le_of_ne (Nat.le_of_not_lt hlt) (hne p (List.mem_cons_self _ _))
      have ih' := ih hp.2 (fun q hq => hne q (List.mem_cons_of_mem _ hq))
      simp only [ConnectionMap.keys, List.map_cons, List.pairwise_cons, List.mem_map]
      refine ⟨?_, ih'⟩
      rintro a ⟨q, hq, rfl⟩
      rcases (Session.insertEntry_mem id c q rest).1 hq with h | h
      · rw [h]
        exact hpid
      · exact hp.1 q.1 (List.mem_map_of_mem Prod.fst h)

/-- C18: for `id` not registered, `addConnection(id, callbacks)` returns the number of
registered connections after the insertion, which is the previous number plus one;
`id` is registered afterwards, with a connection constructed under `id`, whose maximum
piece index is the controller's `MAX_PIECE_INDEX` and whose automaton has taken
`SellModeStarted` with the controller's current terms; every other id is registered
exactly as before, with the same connection; the trace is that one event on the new
connection and nothing else; and a registry that was a well-formed map still is. -/
theorem addConnection_contract (A : CBStateMachine M) (s : Selling M) (id : ConnId)
    (hnew : s.session.hasConnection id = false) :
    (addConnection A s id).outcome = Outcome.returned (s.session.connections.length + 1) ∧
    (addConnection A s id).state.session.connections.length =
      s.session.connections.length + 1 ∧
    (addConnection A s id).state.session.hasConnection id = true ∧
    (addConnection A s id).state.session.get id =
      some { connectionId := id,
             machine := A.processEvent A.fresh (Event.SellModeStarted s.terms),
             maxPieceIndex := s.MAX_PIECE_INDEX,
             pieceDeliveryPipeline := [] } ∧
    (∀ j, j ≠ id →
      (addConnection A s id).state.session.hasConnection j = s.session.hasConnection j ∧
      (addConnection A s id).state.session.get j = s.session.get j) ∧
    (addConnection A s id).trace = [Effect.ProcessEvent id (Event.SellModeStarted s.terms)] ∧
    (addConnection A s id).state.terms = s.terms ∧
    (s.session.connections.Valid → (addConnection A s id).state.session.connections.Valid) := by
  have hne : ∀ p ∈ s.session.connections, p.1 ≠ id := by
    intro p hp he
    have : s.session.hasConnection id = true :=
      (Session.hasConnection_iff _ _).2 (he ▸ List.mem_map_of_mem Prod.fst hp)
    rw [hnew] at this
    exact absurd this (by decide)
  obtain ⟨c0, hc0⟩ : ∃ c0 : Connection M, c0 =
      { connectionId := id, machine := A.fresh, maxPieceIndex := 0,
        pieceDeliveryPipeline := [] } := ⟨_, rfl⟩
  obtain ⟨c1, hc1⟩ : ∃ c1 : Connection M, c1 =
      { connectionId := id,
        machine := A.processEvent A.fresh (Event.SellModeStarted s.terms),
        maxPieceIndex := s.MAX_PIECE_INDEX, pieceDeliveryPipeline := [] } := ⟨_, rfl⟩
  have hadd : addConnection A s id =
      { state := { s with session :=
          (Session.put (Session.mk s.session.state
            (Session.insertEntry id c0 s.session.connections)) id c1) },
        trace := [Effect.ProcessEvent id (Event.SellModeStarted s.terms)],
        outcome := Outcome.returned
          (Session.insertEntry id c0 s.session.connections).length } := by
    rw [hc0, hc1]
    simp [addConnection, Session.createAndAddConnection, hnew, Connection.processEvent,
      Connection.setMaxPieceIndex]
  have hget0 : (Session.mk s.session.state
      (Session.insertEntry id c0 s.session.connections)).get id = some c0 := by
    simp [Session.get, Session.insertEntry_find_self id c0 _ hne]
  have hgetid : (addConnection A s id).state.session.get id = some c1 := by
    rw [hadd]
    exact Session.put_get _ id c0 c1 hget0
  have hgetj : ∀ j, j ≠ id → (addConnection A s id).state.session.get j = s.session.get j := by
    intro j hj
    rw [hadd]
    simp only
    rw [Session.put_get_ne _ id j c1 hj]
    simp [Session.get, Session.insertEntry_find_ne id j c0 hj]
  rw [← hc1]
  refine ⟨?_, ?_, ?_, hgetid, ?_, ?_, ?_, ?_⟩
  · rw [hadd, Session.insertEntry_length]
  · rw [hadd]
    simp [Session.put, Session.insertEntry_length]
  · exact Session.hasConnection_of_get _ _ _ hgetid
  · intro j hj
    exact ⟨Session.hasConnection_eq_of_get _ _ j (hgetj j hj), hgetj j hj⟩
  · rw [hadd]
  · rw [hadd]
  · intro hv
    rw [hadd]
    constructor
    · rw [Session.put_keys]
      exact Session.insertEntry_keys_ascending id c0 _ hv.1 hne
    · intro p hp
      simp only [Session.put, List.mem_map] at hp
      obtain ⟨q, hq, hqp⟩ := hp
      split at hqp
      · rename_i hqid
        rw [← hqp, hc1]
        exact hqid.symm
      · rw [← hqp]
        rcases (Session.insertEntry_mem id c0 q _).1 hq with h | h
        · rw [h, hc0]
        · exact hv.2 q h

/-- The statement of C18 on a started session with the connections `1`, `2` and `5`, to
which connection `3` is added. -/
theorem addConnection_contract_witness :
    (sampleSelling SessionState.started sampleConnections).session.hasConnection 3 = false ∧
    (addConnection sampleMachine (sampleSelling SessionState.started sampleConnections)
      3).outcome = Outcome.returned 4 ∧
    (addConnection sampleMachine (sampleSelling SessionState.started sampleConnections)
      3).trace = [Effect.ProcessEvent 3 (Event.SellModeStarted 11)] ∧
    (addConnection sampleMachine (sampleSelling SessionState.started sampleConnections)
      3).state.ids = [1, 2, 3, 5] := by
  have h := addConnection_contract sampleMachine
    (sampleSelling SessionState.started sampleConnections) 3 (by decide)
  exact ⟨by decide, h.1, h.2.2.2.2.2.1, by decide⟩

/-! ### C19 -/

theorem RemovalEvent.callbacks_append (l1 l2 : List (RemovalEvent M)) :
    RemovalEvent.callbacks (l1 ++ l2) =
      RemovalEvent.callbacks l1 ++ RemovalEvent.callbacks l2 := by
  induction l1 with
  | nil => rfl
  | cons x rest ih =>
    cases x with
    | called e during =>
      show e :: RemovalEvent.callbacks (rest ++ l2) = e :: _ ++ _
      rw [ih]
      rfl
    | destroyed j after =>
      show RemovalEvent.callbacks (rest ++ l2) = _
      rw [ih]
      rfl

theorem RemovalEvent.callbacks_called (l : List Effect) (during : Session M) :
    RemovalEvent.callbacks (l.map (fun e => RemovalEvent.called e during)) = l := by
  induction l with
  | nil => rfl
  | cons e rest ih =>
    show e :: RemovalEvent.callbacks (rest.map (fun e => RemovalEvent.called e during)) = _
    rw [ih]

/-- The statements of the internal `removeConnection(id, cause)`, run in the order of the
source on a connection `c`: the claim and the notification are made with the session as
it was before the call, and the destruction comes last. -/
theorem Selling.runRemovalStatements_source (A : CBStateMachine M) (s : Selling M)
    (id : ConnId) (cause : DisconnectCause) (c : Connection M) :
    runRemovalStatements A id cause c s removeConnectionStatements =
      ({ s with session := s.session.destroyConnection id },
        (tryToClaimLastPayment A c).map (fun e => RemovalEvent.called e s.session) ++
          [RemovalEvent.called (Effect.RemovedConnection id cause) s.session,
           RemovalEvent.destroyed id (s.session.destroyConnection id)]) := by
  simp [removeConnectionStatements, runRemovalStatements, runRemovalStatement]

/-- The log tells the position of the destruction: were the destruction to come before
the notification, the notification would be recorded with a session in which `id` is no
longer registered. -/
theorem Selling.runRemovalStatements_destroy_first (A : CBStateMachine M) (s : Selling M)
    (id : ConnId) (cause : DisconnectCause) (c : Connection M) :
    (runRemovalStatements A id cause c s
      [RemovalStatement.claimLastPayment, RemovalStatement.destroy,
       RemovalStatement.notifyRemoved]).2 =
      (tryToClaimLastPayment A c).map (fun e => RemovalEvent.called e s.session) ++
        [RemovalEvent.destroyed id (s.session.destroyConnection id),
         RemovalEvent.called (Effect.RemovedConnection id cause)
           (s.session.destroyConnection id)] ∧
    (s.session.destroyConnection id).hasConnection id = false := by
  refine ⟨?_, Session.destroyConnection_hasConnection_self _ _⟩
  simp [runRemovalStatements, runRemovalStatement]

/-- The internal `removeConnection(id, cause)` is its statement-by-statement run with
the destruction left out of the trace: same final state, same callbacks in the same
order, same outcome, in every state and for every id. -/
theorem Selling.removeConnectionCause_eq_steps (A : CBStateMachine M) (s : Selling M)
    (id : ConnId) (cause : DisconnectCause) :
    removeConnectionCause A s id cause =
      { state := (removeConnectionSteps A s id cause).state,
        trace := RemovalEvent.callbacks (removeConnectionSteps A s id cause).log,
        outcome := (removeConnectionSteps A s id cause).outcome } := by
  unfold removeConnectionCause removeConnectionSteps
  split
  · rfl
  · split
    · rfl
    · split
      · rfl
      · rename_i c hc
        rw [Selling.runRemovalStatements_source]
        simp only [RemovalEvent.callbacks_append, RemovalEvent.callbacks_called]
        rfl

/-- C19: on a session that is not stopped, whose registry is a well-formed map with `id`
registered, the internal `removeConnection(id, cause)`, run statement by statement,
returns normally and does this, in this order: it calls `ClaimLastPayment(id, payee)`
once if the payee has made at least one payment and not at all otherwise, then it calls
`RemovedConnectionCallback(id, cause)` once, then it destroys the connection in the
registry. Both calls are made with the session as it was before the removal, in which
`id` is registered; `id` is not registered after the destruction. The controller state,
the callbacks and the outcome of the internal `removeConnection(id, cause)` are those of
this run, so that its trace is the claim, if any, followed by the notification. -/
theorem removeConnection_effect_order (A : CBStateMachine M) (s : Selling M) (id : ConnId)
    (cause : DisconnectCause) (c : Connection M) (hs : s.state ≠ SessionState.stopped)
    (hc : s.session.get id = some c) (hv : s.session.connections.Valid) :
    (removeConnectionSteps A s id cause).outcome = Outcome.returned () ∧
    (removeConnectionSteps A s id cause).log =
      (if 0 < (c.payee A).numberOfPaymentsMade then
        [RemovalEvent.called (Effect.ClaimLastPayment id (c.payee A)) s.session] else []) ++
        [RemovalEvent.called (Effect.RemovedConnection id cause) s.session,
         RemovalEvent.destroyed id (s.session.destroyConnection id)] ∧
    (∀ e during, RemovalEvent.called e during ∈ (removeConnectionSteps A s id cause).log →
      during.hasConnection id = true) ∧
    (∀ j after, RemovalEvent.destroyed j after ∈ (removeConnectionSteps A s id cause).log →
      j = id ∧ after.hasConnection id = false ∧
        after = (removeConnectionSteps A s id cause).state.session) ∧
    (removeConnectionSteps A s id cause).state.session.hasConnection id = false ∧
    (removeConnectionCause A s id cause).state = (removeConnectionSteps A s id cause).state ∧
    (removeConnectionCause A s id cause).trace =
      RemovalEvent.callbacks (removeConnectionSteps A s id cause).log ∧
    (removeConnectionCause A s id cause).outcome = Outcome.returned () ∧
    (removeConnectionCause A s id cause).trace =
      (if 0 < (c.payee A).numberOfPaymentsMade then
        [Effect.ClaimLastPayment id (c.payee A)] else []) ++
        [Effect.RemovedConnection id cause] ∧
    (removeConnectionCause A s id cause).trace.filter Effect.isClaimLastPayment =
      (if 0 < (c.payee A).numberOfPaymentsMade then
        [Effect.ClaimLastPayment id (c.payee A)] else []) ∧
    (removeConnectionCause A s id cause).trace.filter Effect.isRemovedConnection =
      [Effect.RemovedConnection id cause] := by
  unfold Selling.state at hs
  have hid : c.connectionId = id := hv.connectionId_of_get id c hc
  have hh : s.session.hasConnection id = true := Session.hasConnection_of_get _ _ _ hc
  have hgone : (s.session.destroyConnection id).hasConnection id = false :=
    Session.destroyConnection_hasConnection_self _ _
  have hrem := removeConnectionCause_of_get A s id cause c hs hc
  have heq := removeConnectionCause_eq_steps A s id cause
  have hclaim : tryToClaimLastPayment A c =
      if 0 < (c.payee A).numberOfPaymentsMade then
        [Effect.ClaimLastPayment id (c.payee A)] else [] := by
    unfold tryToClaimLastPayment
    rw [hid]
  have hsteps : removeConnectionSteps A s id cause =
      { state := { s with session := s.session.destroyConnection id },
        log := (tryToClaimLastPayment A c).map (fun e => RemovalEvent.called e s.session) ++
          [RemovalEvent.called (Effect.RemovedConnection id cause) s.session,
           RemovalEvent.destroyed id (s.session.destroyConnection id)],
        outcome := Outcome.returned () } := by
    unfold removeConnectionSteps
    rw [if_neg hs, if_neg (by simp [hh])]
    simp only [hc, Selling.runRemovalStatements_source]
  have hlog : (removeConnectionSteps A s id cause).log =
      (if 0 < (c.payee A).numberOfPaymentsMade then
        [RemovalEvent.called (Effect.ClaimLastPayment id (c.payee A)) s.session] else []) ++
        [RemovalEvent.called (Effect.RemovedConnection id cause) s.session,
         RemovalEvent.destroyed id (s.session.destroyConnection id)] := by
    rw [hsteps, hclaim]
    split <;> rfl
  refine ⟨by rw [hsteps], hlog, ?_, ?_, ?_, ?_, ?_, by rw [hrem], ?_, ?_, ?_⟩
  · intro e during hmem
    rw [hlog] at hmem
    have hd : during = s.session := by
      split at hmem
      · simp at hmem
        rcases hmem with h | h
        · exact h.2
        · exact h.2
      · simp at hmem
        exact hmem.2
    rw [hd]
    exact hh
  · intro j after hmem
    rw [hlog] at hmem
    have hd : j = id ∧ after = s.session.destroyConnection id := by
      split at hmem <;> simp at hmem <;> exact hmem
    rw [hd.1, hd.2, hsteps]
    exact ⟨rfl, hgone, rfl⟩
  · rw [hsteps]
    exact hgone
  · rw [heq]
  · rw [heq]
  · rw [hrem, hclaim]
  · rw [hrem, hclaim]
    split <;> simp [Effect.isClaimLastPayment]
  · rw [hrem]
    exact filter_removed_claim A c id cause

/-- The statement of C19 on a started session from which connection `2`, whose payee has
one payment, is removed for an interrupted payment. -/
theorem removeConnection_effect_order_witness :
    (removeConnectionSteps sampleMachine (sampleSelling SessionState.started sampleConnections)
      2 DisconnectCause.buyer_interrupted_payment).log =
      [RemovalEvent.called
         (Effect.ClaimLastPayment 2 { price := 3, numberOfPaymentsMade := 1, amountPaid := 3 })
         (sampleSelling SessionState.started sampleConnections).session,
       RemovalEvent.called
         (Effect.RemovedConnection 2 DisconnectCause.buyer_interrupted_payment)
         (sampleSelling SessionState.started sampleConnections).session,
       RemovalEvent.destroyed 2
         ((sampleSelling SessionState.started sampleConnections).session.destroyConnection
           2)] ∧
    (sampleSelling SessionState.started sampleConnections).session.hasConnection 2 = true ∧
    ((sampleSelling SessionState.started sampleConnections).session.destroyConnection
      2).hasConnection 2 = false ∧
    (removeConnectionCause sampleMachine (sampleSelling SessionState.started sampleConnections)
      2 DisconnectCause.buyer_interrupted_payment).trace =
      [Effect.ClaimLastPayment 2 { price := 3, numberOfPaymentsMade := 1, amountPaid := 3 },
       Effect.RemovedConnection 2 DisconnectCause.buyer_interrupted_payment] ∧
    (removeConnectionCause sampleMachine (sampleSelling SessionState.started sampleConnections)
      2 DisconnectCause.buyer_interrupted_payment).state.session.hasConnection 2 = false := by
  have h := removeConnection_effect_order sampleMachine
    (sampleSelling SessionState.started sampleConnections) 2
    DisconnectCause.buyer_interrupted_payment
    (sampleConnection 2 Phase.ServicingPieceRequests 1
      [{ index := 0, state := PieceState.Sent, data := 40 },
       { index := 1, state := PieceState.Loaded, data := 41 }])
    (by decide) (by decide) ⟨by decide, by decide⟩
  exact ⟨h.2.1.trans (by decide), by decide, by decide,
    h.2.2.2.2.2.2.2.2.1.trans (by decide), h.2.2.2.2.2.1 ▸ h.2.2.2.2.1⟩

/-! ### C20 -/

theorem Selling.removeConnectionCause_caps (A : CBStateMachine M) (s : Selling M)
    (id : ConnId) (cause : DisconnectCause) :
    (removeConnectionCause A s id cause).state.maxOutstandingPayments =
      s.maxOutstandingPayments ∧
    (removeConnectionCause A s id cause).state.maxPiecesToPreload = s.maxPiecesToPreload := by
  unfold removeConnectionCause
  split
  · exact ⟨rfl, rfl⟩
  · split
    · exact ⟨rfl, rfl⟩
    · split <;> exact ⟨rfl, rfl⟩

theorem Selling.removeEach_caps (A : CBStateMachine M) :
    ∀ (l : List ConnId) (s : Selling M),
      (removeEach A l s).state.maxOutstandingPayments = s.maxOutstandingPayments ∧
      (removeEach A l s).state.maxPiecesToPreload = s.maxPiecesToPreload := by
  intro l
  induction l with
  | nil => intro s; exact ⟨rfl, rfl⟩
  | cons id rest ih =>
    intro s
    have hc := removeConnectionCause_caps A s id DisconnectCause.client
    rcases removeConnectionCause_cases A s id DisconnectCause.client with h | h
    · have := ih (removeConnectionCause A s id DisconnectCause.client).state
      simp only [removeEach, h]
      exact ⟨this.1.trans hc.1, this.2.trans hc.2⟩
    · simp [removeEach, h]

theorem Selling.removeThenSignalDeletion_caps (A : CBStateMachine M) (s : Selling M)
    (id : ConnId) (cause : DisconnectCause) :
    (removeThenSignalDeletion A s id cause).state.maxOutstandingPayments =
      s.maxOutstandingPayments ∧
    (removeThenSignalDeletion A s id cause).state.maxPiecesToPreload =
      s.maxPiecesToPreload := by
  unfold removeThenSignalDeletion
  split
  · exact ⟨rfl, rfl⟩
  · split
    · exact ⟨rfl, rfl⟩
    · split <;> exact removeConnectionCause_caps A s id cause

/-- No inbound call changes the two caps. -/
theorem Selling.perform_caps (A : CBStateMachine M) (s : Selling M) (op : Op) :
    (s.perform A op).state.maxOutstandingPayments = s.maxOutstandingPayments ∧
    (s.perform A op).state.maxPiecesToPreload = s.maxPiecesToPreload := by
  cases op with
  | addConnection id =>
    simp only [Selling.perform, Result.void, addConnection]
    split <;> exact ⟨rfl, rfl⟩
  | removeConnection id =>
    simp only [Selling.perform, removeConnection]
    split
    · exact ⟨rfl, rfl⟩
    · split
      · exact ⟨rfl, rfl⟩
      · exact removeConnectionCause_caps A s id _
  | startUploading id terms kp hh =>
    simp only [Selling.perform, startUploading]
    repeat' split
    all_goals exact ⟨rfl, rfl⟩
  | pieceLoaded data index =>
    simp only [Selling.perform, pieceLoaded]
    split <;> exact ⟨rfl, rfl⟩
  | pieceRequested id index =>
    simp only [Selling.perform, pieceRequested]
    repeat' split
    all_goals exact ⟨rfl, rfl⟩
  | receivedValidPayment id sig =>
    simp only [Selling.perform, receivedValidPayment]
    repeat' split
    all_goals exact ⟨rfl, rfl⟩
  | receivedInvalidPayment id sig => exact removeThenSignalDeletion_caps A s id _
  | invalidPieceRequested id => exact removeThenSignalDeletion_caps A s id _
  | paymentInterrupted id => exact removeThenSignalDeletion_caps A s id _
  | remoteMessageOverflow id => exact removeConnectionCause_caps A s id _
  | start =>
    simp only [Selling.perform, start]
    split <;> exact ⟨rfl, rfl⟩
  | pause =>
    simp only [Selling.perform, pause]
    split <;> exact ⟨rfl, rfl⟩
  | stop =>
    simp only [Selling.perform, stop]
    split
    · exact ⟨rfl, rfl⟩
    · split
      · exact removeEach_caps A s.ids s
      · exact removeEach_caps A s.ids s
  | updateTerms terms => exact ⟨rfl, rfl⟩
  | leavingState => exact ⟨rfl, rfl⟩

/-- C20 (as amended): on a started session whose registry is a well-formed map, with the
connection
`c` under `id` servicing piece requests and not yet tracking `index`,
`pieceRequested(id, index)` returns normally, appends `index` as Requested to the
pipeline of `c`, and its trace is one `LoadPieceForBuyer(id, j)` for each index `j` that
`getNextBatchToLoad(maxOutstandingPayments + maxPiecesToPreload)` returns on that
pipeline, in the order returned, and nothing else; the pipeline left is the one that
call leaves, and every other connection is as before. The constructor fixes the caps at
4 and 2 whatever the terms, no inbound call (`updateTerms` included) changes them, so the
load limit is 6 and the send limit is 4. -/
theorem pieceRequested_loads_next_batch (A : CBStateMachine M) (s : Selling M) (id : ConnId)
    (index : Int) (c : Connection M)
    (hs : s.state = SessionState.started) (hv : s.session.connections.Valid)
    (hc : s.session.get id = some c) (hserv : c.inServicingPieceRequests A = true)
    (hnew : ∀ e ∈ c.pieceDeliveryPipeline, e.index ≠ index) :
    c.pieceDeliveryPipeline.add index =
      some (c.pieceDeliveryPipeline ++
        [{ index := index, state := PieceState.Requested, data := 0 }]) ∧
    (pieceRequested A s id index).outcome = Outcome.returned () ∧
    (pieceRequested A s id index).trace =
      (PieceDeliveryPipeline.getNextBatchToLoad (c.pieceDeliveryPipeline ++
          [{ index := index, state := PieceState.Requested, data := 0 }])
        (s.maxOutstandingPayments + s.maxPiecesToPreload)).1.map
          (fun j => Effect.LoadPieceForBuyer id j) ∧
    (pieceRequested A s id index).state.session.get id =
      some { c with pieceDeliveryPipeline :=
        (PieceDeliveryPipeline.getNextBatchToLoad (c.pieceDeliveryPipeline ++
            [{ index := index, state := PieceState.Requested, data := 0 }])
          (s.maxOutstandingPayments + s.maxPiecesToPreload)).2 } ∧
    (∀ j, j ≠ id → (pieceRequested A s id index).state.session.get j = s.session.get j) ∧
    (∀ (session : Session M) (terms : SellerTerms) (maxPieceIndex : Int),
      (construct A session terms maxPieceIndex).1.maxOutstandingPayments = 4 ∧
      (construct A session terms maxPieceIndex).1.maxPiecesToPreload = 2 ∧
      (construct A session terms maxPieceIndex).1.maxOutstandingPayments +
        (construct A session terms maxPieceIndex).1.maxPiecesToPreload = 6) ∧
    (∀ (s1 : Selling M) (op : Op),
      (s1.perform A op).state.maxOutstandingPayments = s1.maxOutstandingPayments ∧
      (s1.perform A op).state.maxPiecesToPreload = s1.maxPiecesToPreload) := by
  unfold Selling.state at hs
  have hid : c.connectionId = id := hv.connectionId_of_get id c hc
  have hh : s.session.hasConnection id = true := Session.hasConnection_of_get _ _ _ hc
  have hadd : c.pieceDeliveryPipeline.add index =
      some (c.pieceDeliveryPipeline ++
        [{ index := index, state := PieceState.Requested, data := 0 }]) := by
    unfold PieceDeliveryPipeline.add
    have : c.pieceDeliveryPipeline.any (fun e => e.index == index) = false := by
      simp only [List.any_eq_false, beq_iff_eq]
      exact fun e he => hnew e he
    simp [this]
  have hns : s.session.state ≠ SessionState.stopped := by
    rw [hs]
    decide
  have hload : tryToLoadPieces A s
      { c with pieceDeliveryPipeline := c.pieceDeliveryPipeline ++
        [{ index := index, state := PieceState.Requested, data := 0 }] } =
      { conn := { c with pieceDeliveryPipeline :=
          (PieceDeliveryPipeline.getNextBatchToLoad (c.pieceDeliveryPipeline ++
              [{ index := index, state := PieceState.Requested, data := 0 }])
            (s.maxOutstandingPayments + s.maxPiecesToPreload)).2 },
        trace := (PieceDeliveryPipeline.getNextBatchToLoad (c.pieceDeliveryPipeline ++
              [{ index := index, state := PieceState.Requested, data := 0 }])
            (s.maxOutstandingPayments + s.maxPiecesToPreload)).1.map
              (fun j => Effect.LoadPieceForBuyer id j),
        ok := true } := by
    have hserv1 : ({ c with pieceDeliveryPipeline := c.pieceDeliveryPipeline ++
        [{ index := index, state := PieceState.Requested, data := 0 }] } :
          Connection M).inServicingPieceRequests A = true := hserv
    rw [tryToLoadPieces_ok A s _ hs hserv1]
    simp [hid]
  have hreq : pieceRequested A s id index =
      { state := { s with session := (s.session.put id
          { c with pieceDeliveryPipeline :=
            (PieceDeliveryPipeline.getNextBatchToLoad (c.pieceDeliveryPipeline ++
                [{ index := index, state := PieceState.Requested, data := 0 }])
              (s.maxOutstandingPayments + s.maxPiecesToPreload)).2 }) },
        trace := (PieceDeliveryPipeline.getNextBatchToLoad (c.pieceDeliveryPipeline ++
              [{ index := index, state := PieceState.Requested, data := 0 }])
            (s.maxOutstandingPayments + s.maxPiecesToPreload)).1.map
              (fun j => Effect.LoadPieceForBuyer id j),
        outcome := Outcome.returned () } := by
    unfold pieceRequested
    simp [hns, hh, hc, hadd, hs, hload, finished]
  refine ⟨hadd, by rw [hreq], by rw [hreq], ?_, ?_, ?_, fun s1 op => perform_caps A s1 op⟩
  · rw [hreq]
    exact Session.put_get _ id c _ hc
  · intro j hj
    rw [hreq]
    exact Session.put_get_ne _ id j _ hj
  · intro session terms maxPieceIndex
    exact ⟨rfl, rfl, rfl⟩

/-- The statement of C20 (as amended) on a started session whose connection `5` has an empty
pipeline and requests piece `7`. -/
theorem pieceRequested_loads_next_batch_witness :
    (pieceRequested sampleMachine (sampleSelling SessionState.started sampleConnections)
      5 7).outcome = Outcome.returned () ∧
    (pieceRequested sampleMachine (sampleSelling SessionState.started sampleConnections)
      5 7).trace = [Effect.LoadPieceForBuyer 5 7] := by
  have h := pieceRequested_loads_next_batch sampleMachine
    (sampleSelling SessionState.started sampleConnections) 5 7
    (sampleConnection 5 Phase.ServicingPieceRequests 0 [])
    (by decide) ⟨by decide, by decide⟩ (by decide) (by decide) (by decide)
  exact ⟨h.2.1, h.2.2.1.trans (by decide)⟩

/-- C20 fails as stated. On a started session whose connection `1` is servicing piece
requests and already tracks piece `5`, `pieceRequested(1, 5)` fails the precondition of
`add`: it does not return normally, the pipeline is left as it was, without a new entry
for `5`, and nothing is loaded. -/
theorem pieceRequested_tracked_index_not_appended :
    (sampleSelling SessionState.started repeatConnections).state = SessionState.started ∧
    ((sampleSelling SessionState.started repeatConnections).session.get 1).map
      (Connection.inServicingPieceRequests sampleMachine) = some true ∧
    (pieceRequested sampleMachine (sampleSelling SessionState.started repeatConnections)
      1 5).outcome = Outcome.aborted ∧
    (pieceRequested sampleMachine (sampleSelling SessionState.started repeatConnections)
      1 5).trace = [] ∧
    ((pieceRequested sampleMachine (sampleSelling SessionState.started repeatConnections)
      1 5).state.session.get 1).map Connection.pieceDeliveryPipeline =
      some [{ index := 5, state := PieceState.Loaded, data := 44 }] := by
  decide

/-! ### The controller's calls, seen from a pipeline -/

theorem PieceDeliveryPipeline.run_append (maxOut maxPre : Nat) :
    ∀ (ops1 ops2 : List PipelineOp) (p : PieceDeliveryPipeline),
      PieceDeliveryPipeline.run maxOut maxPre p (ops1 ++ ops2) =
        PieceDeliveryPipeline.run maxOut maxPre
          (PieceDeliveryPipeline.run maxOut maxPre p ops1) ops2 := by
  intro ops1
  induction ops1 with
  | nil => intro ops2 p; rfl
  | cons op rest ih =>
    intro ops2 p
    simp only [List.cons_append, PieceDeliveryPipeline.run]
    exact ih ops2 _

/-- The pipeline `tryToSendPieces(c)` leaves is reached by calls on the pipeline. -/
theorem Selling.tryToSendPieces_pipeline (A : CBStateMachine M) (s : Selling M)
    (c : Connection M) :
    ∃ ops, (tryToSendPieces A s c).conn.pieceDeliveryPipeline =
      PieceDeliveryPipeline.run s.maxOutstandingPayments s.maxPiecesToPreload
        c.pieceDeliveryPipeline ops := by
  unfold tryToSendPieces
  split
  · exact ⟨[], rfl⟩
  · split
    · exact ⟨[], rfl⟩
    · refine ⟨[PipelineOp.getNextBatchToSend], ?_⟩
      simp only [(sendAll_frame A _ _).2.1]
      rfl

/-- The pipeline `tryToLoadPieces(c)` leaves is reached by calls on the pipeline. -/
theorem Selling.tryToLoadPieces_pipeline (A : CBStateMachine M) (s : Selling M)
    (c : Connection M) :
    ∃ ops, (tryToLoadPieces A s c).conn.pieceDeliveryPipeline =
      PieceDeliveryPipeline.run s.maxOutstandingPayments s.maxPiecesToPreload
        c.pieceDeliveryPipeline ops := by
  unfold tryToLoadPieces
  split
  · exact ⟨[], rfl⟩
  · split
    · exact ⟨[], rfl⟩
    · exact ⟨[PipelineOp.getNextBatchToLoad], rfl⟩

theorem Selling.sendThenLoad_pipeline (A : CBStateMachine M) (s : Selling M)
    (c : Connection M) :
    ∃ ops, (sendThenLoad A s c).conn.pieceDeliveryPipeline =
      PieceDeliveryPipeline.run s.maxOutstandingPayments s.maxPiecesToPreload
        c.pieceDeliveryPipeline ops := by
  obtain ⟨ops1, h1⟩ := tryToSendPieces_pipeline A s c
  unfold sendThenLoad
  split
  · obtain ⟨ops2, h2⟩ := tryToLoadPieces_pipeline A s (tryToSendPieces A s c).conn
    refine ⟨ops1 ++ ops2, ?_⟩
    simp only [h2, h1, PieceDeliveryPipeline.run_append]
  · exact ⟨ops1, h1⟩

theorem Selling.startBody_pipeline (A : CBStateMachine M) (s : Selling M)
    (c : Connection M) :
    ∃ ops, (startBody A s c).conn.pieceDeliveryPipeline =
      PieceDeliveryPipeline.run s.maxOutstandingPayments s.maxPiecesToPreload
        c.pieceDeliveryPipeline ops := by
  unfold startBody
  split
  · exact sendThenLoad_pipeline A s c
  · exact ⟨[], rfl⟩

theorem Selling.pieceLoadedBody_pipeline (A : CBStateMachine M) (s : Selling M)
    (data : PieceData) (index : Int) (c : Connection M) :
    ∃ ops, (pieceLoadedBody A s data index c).conn.pieceDeliveryPipeline =
      PieceDeliveryPipeline.run s.maxOutstandingPayments s.maxPiecesToPreload
        c.pieceDeliveryPipeline ops := by
  unfold pieceLoadedBody
  split
  · exact ⟨[], rfl⟩
  · split
    · obtain ⟨ops, h⟩ := tryToSendPieces_pipeline A s
        { c with pieceDeliveryPipeline := c.pieceDeliveryPipeline.dataReady index data }
      exact ⟨PipelineOp.dataReady index data :: ops, h⟩
    · exact ⟨[PipelineOp.dataReady index data], rfl⟩

/-- A walk over the registry leaves under each key the connection that was there or what
the body made of it. -/
theorem Selling.forEachConnection_find (body : Connection M → Step M) (j : ConnId) :
    ∀ (l : ConnectionMap M) (c1 : Connection M),
      ((forEachConnection body l).1.find? (fun p => p.1 == j)).map Prod.snd = some c1 →
      ∃ c, (l.find? (fun p => p.1 == j)).map Prod.snd = some c ∧
        (c1 = c ∨ c1 = (body c).conn) := by
  intro l
  induction l with
  | nil =>
    intro c1 h
    simp [forEachConnection] at h
  | cons p rest ih =>
    intro c1 h
    obtain ⟨k, c⟩ := p
    unfold forEachConnection at h
    split at h
    · simp only [List.find?_cons] at h ⊢
      cases hk : (k == j)
      · simp only [hk] at h
        exact ih c1 h
      · simp only [hk, Option.map_some', Option.some.injEq] at h
        exact ⟨c, rfl, Or.inr h.symm⟩
    · simp only [List.find?_cons] at h ⊢
      cases hk : (k == j)
      · simp only [hk] at h
        exact ⟨c1, h, Or.inl rfl⟩
      · simp only [hk, Option.map_some', Option.some.injEq] at h
        exact ⟨c, rfl, Or.inr h.symm⟩

theorem Session.put_get_self (s : Session M) (id : ConnId) (c1 : Connection M) :
    (s.put id c1).get id = (s.get id).map (fun _ => c1) := by
  cases hg : s.get id with
  | none =>
    have h1 : s.hasConnection id = false := by
      cases hh : s.hasConnection id with
      | false => rfl
      | true =>
        obtain ⟨c, hc⟩ := (Session.get_isSome_iff _ _).2 hh
        rw [hg] at hc
        simp at hc
    have h2 : (s.put id c1).hasConnection id = false := by
      have hk := Session.put_keys s id c1
      cases hh : (s.put id c1).hasConnection id with
      | false => rfl
      | true =>
        have := (Session.hasConnection_iff _ _).1 hh
        rw [hk] at this
        rw [(Session.hasConnection_iff _ _).2 this] at h1
        simp at h1
    simp only [Option.map_none']
    exact Session.get_none_of_not_has _ _ h2
  | some c =>
    simp only [Option.map_some']
    exact Session.put_get s id c c1 hg

theorem Session.destroyConnection_get (s : Session M) (id j : ConnId) (c1 : Connection M)
    (h : (s.destroyConnection id).get j = some c1) : s.get j = some c1 := by
  by_cases hj : j = id
  · rw [hj] at h
    have := Session.hasConnection_of_get _ _ _ h
    rw [Session.destroyConnection_hasConnection_self] at this
    simp at this
  · rw [Session.destroyConnection_get_ne s id j hj] at h
    exact h

theorem Selling.removeConnectionCause_get (A : CBStateMachine M) (s : Selling M)
    (id : ConnId) (cause : DisconnectCause) (j : ConnId) (c1 : Connection M)
    (h : (removeConnectionCause A s id cause).state.session.get j = some c1) :
    s.session.get j = some c1 := by
  rcases removeConnectionCause_cases A s id cause with h1 | h1
  · rw [removeConnectionCause_returned A s id cause h1] at h
    exact Session.destroyConnection_get _ id j c1 h
  · rw [h1] at h
    exact h

theorem Selling.removeEach_get (A : CBStateMachine M) (j : ConnId) (c1 : Connection M) :
    ∀ (l : List ConnId) (s : Selling M),
      (removeEach A l s).state.session.get j = some c1 → s.session.get j = some c1 := by
  intro l
  induction l with
  | nil => intro s h; exact h
  | cons id rest ih =>
    intro s h
    rcases removeConnectionCause_cases A s id DisconnectCause.client with h1 | h1
    · simp only [removeEach, h1] at h
      exact removeConnectionCause_get A s id _ j c1 (ih _ h)
    · simp only [removeEach, h1] at h
      exact h

theorem Selling.Continues.same (s : Selling M) (j : ConnId) (c1 : Connection M)
    (h : s.session.get j = some c1) : s.Continues j c1 :=
  Or.inr ⟨c1, h, [], rfl⟩

/-- Writing back, under `id`, a connection whose pipeline continues the one registered
there leaves every registered connection with a pipeline that continues its own. -/
theorem Selling.Continues.put (s : Selling M) (st : SessionState) (id : ConnId)
    (c c2 : Connection M) (hc : s.session.get id = some c)
    (h2 : PieceDeliveryPipeline.Reaches s.maxOutstandingPayments s.maxPiecesToPreload
      c.pieceDeliveryPipeline c2.pieceDeliveryPipeline)
    (j : ConnId) (c1 : Connection M)
    (h : ((Session.mk st s.session.connections).put id c2).get j = some c1) :
    s.Continues j c1 := by
  by_cases hj : j = id
  · rw [hj] at h ⊢
    rw [Session.put_get_self] at h
    have hc' : (Session.mk st s.session.connections).get id = some c := hc
    rw [hc'] at h
    simp only [Option.map_some', Option.some.injEq] at h
    rw [← h]
    exact Or.inr ⟨c, hc, h2⟩
  · rw [Session.put_get_ne _ id j c2 hj] at h
    exact Continues.same s j c1 h

/-- A walk over the registry whose body continues the pipeline of each connection. -/
theorem Selling.Continues.forEach (s : Selling M) (st : SessionState)
    (body : Connection M → Step M)
    (hb : ∀ c, PieceDeliveryPipeline.Reaches s.maxOutstandingPayments s.maxPiecesToPreload
      c.pieceDeliveryPipeline (body c).conn.pieceDeliveryPipeline)
    (j : ConnId) (c1 : Connection M)
    (h : (Session.mk st (forEachConnection body s.session.connections).1).get j = some c1) :
    s.Continues j c1 := by
  obtain ⟨c, hc, hcase⟩ := forEachConnection_find body j s.session.connections c1 h
  rcases hcase with h1 | h1
  · rw [h1]
    exact Continues.same s j c hc
  · rw [h1]
    exact Or.inr ⟨c, hc, hb c⟩

theorem Selling.addConnection_of_new (A : CBStateMachine M) (s : Selling M) (id : ConnId)
    (hnew : s.session.hasConnection id = false) (j : ConnId) (c1 : Connection M)
    (h : (addConnection A s id).state.session.get j = some c1) :
    s.Continues j c1 := by
  have hne : ∀ p ∈ s.session.connections, p.1 ≠ id := by
    intro p hp he
    have : s.session.hasConnection id = true :=
      (Session.hasConnection_iff _ _).2 (he ▸ List.mem_map_of_mem Prod.fst hp)
    rw [hnew] at this
    exact absurd this (by decide)
  obtain ⟨c0, hc0⟩ : ∃ c0 : Connection M, c0 =
      { connectionId := id, machine := A.fresh, maxPieceIndex := 0,
        pieceDeliveryPipeline := [] } := ⟨_, rfl⟩
  obtain ⟨c2, hc2⟩ : ∃ c2 : Connection M, c2 =
      { connectionId := id,
        machine := A.processEvent A.fresh (Event.SellModeStarted s.terms),
        maxPieceIndex := s.MAX_PIECE_INDEX, pieceDeliveryPipeline := [] } := ⟨_, rfl⟩
  have hadd : (addConnection A s id).state.session =
      Session.put (Session.mk s.session.state
        (Session.insertEntry id c0 s.session.connections)) id c2 := by
    rw [hc0, hc2]
    simp [addConnection, Session.createAndAddConnection, hnew, Connection.processEvent,
      Connection.setMaxPieceIndex]
  rw [hadd] at h
  by_cases hj : j = id
  · rw [hj, Session.put_get_self] at h
    have hget0 : (Session.mk s.session.state
        (Session.insertEntry id c0 s.session.connections)).get id = some c0 := by
      simp [Session.get, Session.insertEntry_find_self id c0 _ hne]
    rw [hget0] at h
    simp only [Option.map_some', Option.some.injEq] at h
    rw [← h, hc2]
    exact Or.inl rfl
  · rw [Session.put_get_ne _ id j c2 hj] at h
    apply Continues.same
    rw [← h]
    simp [Session.get, Session.insertEntry_find_ne id j c0 hj]

/-- After any inbound call, the pipeline of every registered connection is that of a new
connection or continues, by calls on the pipeline with the controller's limits, the
pipeline the connection had before the call. -/
theorem Selling.perform_continues (A : CBStateMachine M) (s : Selling M) (op : Op)
    (j : ConnId) (c1 : Connection M)
    (h : (s.perform A op).state.session.get j = some c1) : s.Continues j c1 := by
  cases op with
  | addConnection id =>
    cases hh : s.session.hasConnection id with
    | false => exact addConnection_of_new A s id hh j c1 h
    | true =>
      have : (s.perform A (Op.addConnection id)).state = s := by
        simp [Selling.perform, Result.void, addConnection, Session.createAndAddConnection, hh]
      rw [this] at h
      exact Continues.same s j c1 h
  | removeConnection id =>
    simp only [Selling.perform, removeConnection] at h
    split at h
    · exact Continues.same s j c1 h
    · split at h
      · exact Continues.same s j c1 h
      · exact Continues.same s j c1 (removeConnectionCause_get A s id _ j c1 h)
  | startUploading id terms kp pk =>
    simp only [Selling.perform, startUploading] at h
    split at h
    · exact Continues.same s j c1 h
    · split at h
      · exact Continues.same s j c1 h
      · split at h
        · exact Continues.same s j c1 h
        · rename_i c hc
          split at h
          · exact Continues.same s j c1 h
          · split at h
            · exact Continues.same s j c1 h
            · split at h
              · exact Continues.same s j c1 h
              · exact Continues.put s s.session.state id c
                  (c.processEvent A (Event.Joined kp pk)).1 hc ⟨[], rfl⟩ j c1 h
  | pieceLoaded data index =>
    simp only [Selling.perform, pieceLoaded] at h
    split at h
    · exact Continues.same s j c1 h
    · exact Continues.forEach s s.session.state _
        (fun c => pieceLoadedBody_pipeline A s data index c) j c1 h
  | pieceRequested id index =>
    simp only [Selling.perform, pieceRequested] at h
    split at h
    · exact Continues.same s j c1 h
    · split at h
      · exact Continues.same s j c1 h
      · split at h
        · exact Continues.same s j c1 h
        · rename_i c hc
          split at h
          · exact Continues.same s j c1 h
          · rename_i p1 hp1
            have hstep : PieceDeliveryPipeline.Reaches s.maxOutstandingPayments
                s.maxPiecesToPreload c.pieceDeliveryPipeline p1 :=
              ⟨[PipelineOp.add index], by
                simp [PieceDeliveryPipeline.run, PieceDeliveryPipeline.perform, hp1]⟩
            split at h
            · obtain ⟨ops, hops⟩ := tryToLoadPieces_pipeline A s
                { c with pieceDeliveryPipeline := p1 }
              obtain ⟨ops0, hops0⟩ := hstep
              refine Continues.put s s.session.state id c _ hc ⟨ops0 ++ ops, ?_⟩ j c1 h
              rw [hops, PieceDeliveryPipeline.run_append, ← hops0]
            · exact Continues.put s s.session.state id c _ hc hstep j c1 h
  | receivedValidPayment id sig =>
    simp only [Selling.perform, receivedValidPayment] at h
    split at h
    · exact Continues.same s j c1 h
    · rename_i c hc
      split at h
      · exact Continues.same s j c1 h
      · rename_i p1 hp1
        have hstep : PieceDeliveryPipeline.Reaches s.maxOutstandingPayments
            s.maxPiecesToPreload c.pieceDeliveryPipeline p1 :=
          ⟨[PipelineOp.paymentReceived], by
            simp [PieceDeliveryPipeline.run, PieceDeliveryPipeline.perform, hp1]⟩
        split at h
        · obtain ⟨ops, hops⟩ := sendThenLoad_pipeline A s
            { c with pieceDeliveryPipeline := p1 }
          obtain ⟨ops0, hops0⟩ := hstep
          refine Continues.put s s.session.state id c _ hc ⟨ops0 ++ ops, ?_⟩ j c1 h
          rw [hops, PieceDeliveryPipeline.run_append, ← hops0]
        · exact Continues.put s s.session.state id c _ hc hstep j c1 h
  | receivedInvalidPayment id sig =>
    simp only [Selling.perform, receivedInvalidPayment, removeThenSignalDeletion] at h
    split at h
    · exact Continues.same s j c1 h
    · split at h
      · exact Continues.same s j c1 h
      · split at h <;> exact Continues.same s j c1 (removeConnectionCause_get A s id _ j c1 h)
  | invalidPieceRequested id =>
    simp only [Selling.perform, invalidPieceRequested, removeThenSignalDeletion] at h
    split at h
    · exact Continues.same s j c1 h
    · split at h
      · exact Continues.same s j c1 h
      · split at h <;> exact Continues.same s j c1 (removeConnectionCause_get A s id _ j c1 h)
  | paymentInterrupted id =>
    simp only [Selling.perform, paymentInterrupted, removeThenSignalDeletion] at h
    split at h
    · exact Continues.same s j c1 h
    · split at h
      · exact Continues.same s j c1 h
      · split at h <;> exact Continues.same s j c1 (removeConnectionCause_get A s id _ j c1 h)
  | remoteMessageOverflow id =>
    exact Continues.same s j c1 (removeConnectionCause_get A s id _ j c1 h)
  | start =>
    simp only [Selling.perform, start] at h
    split at h
    · exact Continues.same s j c1 h
    · exact Continues.forEach s SessionState.started _
        (fun c => startBody_pipeline A
          { s with session := { s.session with state := SessionState.started } } c) j c1 h
  | pause =>
    simp only [Selling.perform, pause] at h
    split at h
    · exact Continues.same s j c1 h
    · exact Continues.same s j c1 h
  | stop =>
    simp only [Selling.perform, stop] at h
    split at h
    · exact Continues.same s j c1 h
    · split at h
      · exact Continues.same s j c1 (removeEach_get A j c1 s.ids s h)
      · exact Continues.same s j c1 (removeEach_get A j c1 s.ids s h)
  | updateTerms terms =>
    simp only [Selling.perform, updateTerms, announceTerms_eq] at h
    have hm := Session.get_map s.session.state
      (fun c => { c with machine := A.processEvent c.machine (Event.UpdateTerms terms) }) j
      s.session.connections
    have h' : (Session.mk s.session.state (s.session.connections.map (fun p => (p.1,
        { p.2 with machine := A.processEvent p.2.machine (Event.UpdateTerms terms) })))).get j
          = some c1 := h
    rw [hm] at h'
    cases hg : s.session.get j with
    | none =>
      have hg' : (Session.mk s.session.state s.session.connections).get j = none := hg
      rw [hg'] at h'
      simp at h'
    | some c =>
      have hg' : (Session.mk s.session.state s.session.connections).get j = some c := hg
      rw [hg'] at h'
      simp only [Option.map_some', Option.some.injEq] at h'
      rw [← h']
      exact Or.inr ⟨c, hg, [], rfl⟩
  | leavingState => exact Continues.same s j c1 h

theorem PieceDeliveryPipeline.run_preserves (P : PieceDeliveryPipeline → Prop) (maxOut maxPre : Nat)
    (hstep : ∀ p op, P p → P (PieceDeliveryPipeline.perform maxOut maxPre p op)) :
    ∀ (ops : List PipelineOp) (p : PieceDeliveryPipeline), P p →
      P (PieceDeliveryPipeline.run maxOut maxPre p ops) := by
  intro ops
  induction ops with
  | nil => intro p h; exact h
  | cons op rest ih =>
    intro p h
    exact ih _ (hstep p op h)

/-- A property of pipelines that holds of the empty pipeline and is kept by every call on
a pipeline holds of the pipeline of every registered connection after any sequence of
inbound calls on a controller of whose connections it holds. -/
theorem Selling.run_keeps (A : CBStateMachine M) (P : PieceDeliveryPipeline → Prop)
    (maxOut maxPre : Nat) (h0 : P [])
    (hstep : ∀ p op, P p → P (PieceDeliveryPipeline.perform maxOut maxPre p op)) :
    ∀ (calls : List Op) (s : Selling M),
      s.maxOutstandingPayments = maxOut → s.maxPiecesToPreload = maxPre →
      (∀ j c, s.session.get j = some c → P c.pieceDeliveryPipeline) →
      ∀ j c, (Selling.run A s calls).session.get j = some c → P c.pieceDeliveryPipeline := by
  intro calls
  induction calls with
  | nil => intro s _ _ h; exact h
  | cons op rest ih =>
    intro s h1 h2 hinv
    have hnext : ∀ j c, (s.perform A op).state.session.get j = some c →
        P c.pieceDeliveryPipeline := by
      intro j c hc
      rcases perform_continues A s op j c hc with hnil | ⟨c0, hc0, ops, hops⟩
      · rw [hnil]
        exact h0
      · rw [hops, h1, h2]
        exact PieceDeliveryPipeline.run_preserves P maxOut maxPre hstep ops _ (hinv j c0 hc0)
    have hcaps := perform_caps A s op
    unfold Selling.run
    split
    · exact hnext
    · exact ih _ (hcaps.1.trans h1) (hcaps.2.trans h2) hnext

/-! ### C13 and C14, on the pipeline and on the controller -/

/-- C13: starting from the empty pipeline of a new connection, after every step of every
finite sequence of the calls the controller makes on it (`add`, `dataReady`,
`getNextBatchToLoad` with limit `maxOutstandingPayments + maxPiecesToPreload`,
`getNextBatchToSend` with limit `maxOutstandingPayments`, `paymentReceived`), the number
of Sent entries is at most `maxOutstandingPayments`. And on the controller: when every
registered connection has at most `maxOutstandingPayments` Sent entries, so has every
registered connection after every step of every finite sequence of inbound calls. -/
theorem sent_entries_within_outstanding_cap (A : CBStateMachine M) (s : Selling M)
    (calls : List Op) (n : Nat)
    (hs : ∀ p ∈ s.session.connections,
      PieceDeliveryPipeline.countIn PieceState.Sent p.2.pieceDeliveryPipeline ≤
        s.maxOutstandingPayments)
    (maxOutstandingPayments maxPiecesToPreload : Nat) (ops : List PipelineOp) (m : Nat) :
    PieceDeliveryPipeline.countIn PieceState.Sent
      (PieceDeliveryPipeline.run maxOutstandingPayments maxPiecesToPreload [] (ops.take m)) ≤
        maxOutstandingPayments ∧
    ∀ j c, (Selling.run A s (calls.take n)).session.get j = some c →
      PieceDeliveryPipeline.countIn PieceState.Sent c.pieceDeliveryPipeline ≤
        s.maxOutstandingPayments := by
  refine ⟨PieceDeliveryPipeline.run_countIn_sent maxOutstandingPayments maxPiecesToPreload
    (ops.take m) [] (Nat.zero_le _), ?_⟩
  exact run_keeps A
    (fun p => PieceDeliveryPipeline.countIn PieceState.Sent p ≤ s.maxOutstandingPayments)
    s.maxOutstandingPayments s.maxPiecesToPreload (Nat.zero_le _)
    (fun p op h => PieceDeliveryPipeline.perform_countIn_sent _ _ p op h)
    (calls.take n) s rfl rfl
    (fun j c hc => hs (j, c) (Session.get_mem _ j c hc))

/-- The statement of C13 on a started session whose connection `5` requests seven
pieces and is handed the data of all seven: four pieces are sent, not more. -/
theorem sent_entries_within_outstanding_cap_witness :
    (∀ p ∈ (sampleSelling SessionState.started loneConnections).session.connections,
      PieceDeliveryPipeline.countIn PieceState.Sent p.2.pieceDeliveryPipeline ≤
        (sampleSelling SessionState.started loneConnections).maxOutstandingPayments) ∧
    ((Selling.run sampleMachine (sampleSelling SessionState.started loneConnections)
        sevenRequestsThenData).session.get 5).map
          (fun c => PieceDeliveryPipeline.countIn PieceState.Sent c.pieceDeliveryPipeline) =
      some 4 ∧
    ∀ c, (Selling.run sampleMachine (sampleSelling SessionState.started loneConnections)
        (sevenRequestsThenData.take 14)).session.get 5 = some c →
      PieceDeliveryPipeline.countIn PieceState.Sent c.pieceDeliveryPipeline ≤
        (sampleSelling SessionState.started loneConnections).maxOutstandingPayments :=
  ⟨by decide, by decide,
   (sent_entries_within_outstanding_cap sampleMachine
      (sampleSelling SessionState.started loneConnections) sevenRequestsThenData 14
      (by decide) 4 2 [] 0).2 5⟩

/-- C14 (as amended): starting from the empty pipeline of a new connection, after every
step of every finite sequence of the calls that `pieceRequested`, `pieceLoaded` and
`receivedValidPayment` make on it (`add`, `dataReady`, `getNextBatchToLoad`,
`getNextBatchToSend`, `paymentReceived`, with the controller's limits), every entry in
state Loading is among the first `maxOutstandingPayments + maxPiecesToPreload` entries,
so at most that many entries are being loaded. And on the controller: when that holds of
every registered connection, it holds of every registered connection after every step of
every finite sequence of inbound calls. -/
theorem loading_entries_within_preload_window (A : CBStateMachine M) (s : Selling M)
    (calls : List Op) (n : Nat)
    (hs : ∀ p ∈ s.session.connections,
      ∀ e ∈ p.2.pieceDeliveryPipeline.drop (s.maxOutstandingPayments + s.maxPiecesToPreload),
        e.state ≠ PieceState.Loading)
    (maxOutstandingPayments maxPiecesToPreload : Nat) (ops : List PipelineOp) (m : Nat) :
    ((∀ e ∈ (PieceDeliveryPipeline.run maxOutstandingPayments maxPiecesToPreload []
        (ops.take m)).drop (maxOutstandingPayments + maxPiecesToPreload),
      e.state ≠ PieceState.Loading) ∧
    PieceDeliveryPipeline.countIn PieceState.Loading
      (PieceDeliveryPipeline.run maxOutstandingPayments maxPiecesToPreload [] (ops.take m)) ≤
        maxOutstandingPayments + maxPiecesToPreload) ∧
    ∀ j c, (Selling.run A s (calls.take n)).session.get j = some c →
      (∀ e ∈ c.pieceDeliveryPipeline.drop (s.maxOutstandingPayments + s.maxPiecesToPreload),
        e.state ≠ PieceState.Loading) ∧
      PieceDeliveryPipeline.countIn PieceState.Loading c.pieceDeliveryPipeline ≤
        s.maxOutstandingPayments + s.maxPiecesToPreload := by
  have h := PieceDeliveryPipeline.run_loading_window maxOutstandingPayments maxPiecesToPreload
    (ops.take m) [] (by simp)
  refine ⟨⟨h, PieceDeliveryPipeline.countIn_loading_le _ _ h⟩, ?_⟩
  intro j c hc
  have hw := run_keeps A
    (fun p => ∀ e ∈ p.drop (s.maxOutstandingPayments + s.maxPiecesToPreload),
      e.state ≠ PieceState.Loading)
    s.maxOutstandingPayments s.maxPiecesToPreload (by simp)
    (fun p op h => PieceDeliveryPipeline.perform_loading_window _ _ p op h)
    (calls.take n) s rfl rfl
    (fun j c hc => hs (j, c) (Session.get_mem _ j c hc)) j c hc
  exact ⟨hw, PieceDeliveryPipeline.countIn_loading_le _ _ hw⟩

/-- The statement of C14 (as amended) on a started session whose connection `5` requests
seven pieces: six of them are being loaded, not more. -/
theorem loading_entries_within_preload_window_witness :
    (∀ p ∈ (sampleSelling SessionState.started loneConnections).session.connections,
      ∀ e ∈ p.2.pieceDeliveryPipeline.drop
          ((sampleSelling SessionState.started loneConnections).maxOutstandingPayments +
            (sampleSelling SessionState.started loneConnections).maxPiecesToPreload),
        e.state ≠ PieceState.Loading) ∧
    ((Selling.run sampleMachine (sampleSelling SessionState.started loneConnections)
        sevenRequests).session.get 5).map
          (fun c => PieceDeliveryPipeline.countIn PieceState.Loading c.pieceDeliveryPipeline) =
      some 6 ∧
    ∀ c, (Selling.run sampleMachine (sampleSelling SessionState.started loneConnections)
        (sevenRequests.take 7)).session.get 5 = some c →
      PieceDeliveryPipeline.countIn PieceState.Loading c.pieceDeliveryPipeline ≤
        (sampleSelling SessionState.started loneConnections).maxOutstandingPayments +
          (sampleSelling SessionState.started loneConnections).maxPiecesToPreload :=
  ⟨by decide, by decide,
   fun c hc => ((loading_entries_within_preload_window sampleMachine
      (sampleSelling SessionState.started loneConnections) sevenRequests 7
      (by decide) 4 2 [] 0).2 5 c hc).2⟩

/-! ### C21 -/

/-- The five ways `startUploading` ends, in the order of its checks, for an automaton in
which an invited connection's peer has announced buy mode. -/
theorem Selling.startUploading_outcome (A : CBStateMachine M) (s : Selling M) (id : ConnId)
    (terms : BuyerTerms) (kp : KeyPair) (pk : PubKeyHash)
    (hbuy : ∀ c, s.session.get id = some c → c.inInvited A = true →
      (c.announcedModeAndTermsFromPeer A).modeAnnounced = ModeAnnounced.buy) :
    (s.session.state = SessionState.stopped ∧
      (startUploading A s id terms kp pk).outcome =
        Outcome.raised Exception.StateIncompatibleOperation) ∨
    (s.session.state ≠ SessionState.stopped ∧ s.session.hasConnection id = false ∧
      (startUploading A s id terms kp pk).outcome =
        Outcome.raised (Exception.PeerNotReadyToStartUploading
          PeerNotReadyToStartUploadingCause.connection_gone)) ∨
    (∃ c, s.session.state ≠ SessionState.stopped ∧ s.session.get id = some c ∧
      c.inInvited A = false ∧
      (startUploading A s id terms kp pk).outcome =
        Outcome.raised (Exception.PeerNotReadyToStartUploading
          PeerNotReadyToStartUploadingCause.connection_not_in_invited_state)) ∨
    (∃ c, s.session.state ≠ SessionState.stopped ∧ s.session.get id = some c ∧
      c.inInvited A = true ∧ (c.announcedModeAndTermsFromPeer A).buyModeTerms ≠ terms ∧
      (startUploading A s id terms kp pk).outcome =
        Outcome.raised (Exception.PeerNotReadyToStartUploading
          PeerNotReadyToStartUploadingCause.terms_expired)) ∨
    (∃ c, s.session.state ≠ SessionState.stopped ∧ s.session.get id = some c ∧
      c.inInvited A = true ∧ (c.announcedModeAndTermsFromPeer A).buyModeTerms = terms ∧
      (startUploading A s id terms kp pk).outcome = Outcome.returned ()) := by
  by_cases h1 : s.session.state = SessionState.stopped
  · exact Or.inl ⟨h1, by simp [startUploading, h1]⟩
  · cases hh : s.session.hasConnection id with
    | false => exact Or.inr (Or.inl ⟨h1, rfl, by simp [startUploading, h1, hh]⟩)
    | true =>
      obtain ⟨c, hc⟩ := (Session.get_isSome_iff _ _).2 hh
      cases h3 : c.inInvited A with
      | false =>
        exact Or.inr (Or.inr (Or.inl ⟨c, h1, hc, h3, by
          simp [startUploading, h1, hh, hc, h3]⟩))
      | true =>
        have hb := hbuy c hc h3
        by_cases h4 : (c.announcedModeAndTermsFromPeer A).buyModeTerms = terms
        · exact Or.inr (Or.inr (Or.inr (Or.inr ⟨c, h1, hc, h3, h4, by
            simp [startUploading, h1, hh, hc, h3, hb, h4]⟩)))
        · exact Or.inr (Or.inr (Or.inr (Or.inl ⟨c, h1, hc, h3, h4, by
            simp [startUploading, h1, hh, hc, h3, hb, h4]⟩)))

/-- C21: the lifecycle check comes first. On a stopped session, for every id, registered
or not, `removeConnection(id)` and `startUploading(id, ...)` raise
`StateIncompatibleOperation` and leave everything as it was, so `removeConnection` raises
`ConnectionDoesNotExist` and `startUploading` raises `PeerNotReadyToStartUploading` only
on a session that is not stopped. For an automaton in which an invited connection's
peer has announced buy mode, the error of `startUploading` is the one of the first
check that fails, in the order stopped, `connection_gone`,
`connection_not_in_invited_state`, `terms_expired`: each is raised exactly when its
check fails and all earlier ones pass, the call returns normally exactly when all pass,
and no other exception is raised. -/
theorem lifecycle_check_precedes_registry_check (A : CBStateMachine M) (s : Selling M)
    (id : ConnId) (terms : BuyerTerms) (kp : KeyPair) (pk : PubKeyHash)
    (hbuy : ∀ c, s.session.get id = some c → c.inInvited A = true →
      (c.announcedModeAndTermsFromPeer A).modeAnnounced = ModeAnnounced.buy) :
    (s.state = SessionState.stopped →
      ∀ (id1 : ConnId) (terms1 : BuyerTerms) (kp1 : KeyPair) (pk1 : PubKeyHash),
        removeConnection A s id1 =
          { state := s, trace := [],
            outcome := Outcome.raised Exception.StateIncompatibleOperation } ∧
        startUploading A s id1 terms1 kp1 pk1 =
          { state := s, trace := [],
            outcome := Outcome.raised Exception.StateIncompatibleOperation }) ∧
    (∀ id1 id2, (removeConnection A s id1).outcome =
        Outcome.raised (Exception.ConnectionDoesNotExist id2) →
      s.state ≠ SessionState.stopped) ∧
    (∀ id1 terms1 kp1 pk1 cause, (startUploading A s id1 terms1 kp1 pk1).outcome =
        Outcome.raised (Exception.PeerNotReadyToStartUploading cause) →
      s.state ≠ SessionState.stopped) ∧
    ((startUploading A s id terms kp pk).outcome =
        Outcome.raised Exception.StateIncompatibleOperation ↔
      s.state = SessionState.stopped) ∧
    ((startUploading A s id terms kp pk).outcome =
        Outcome.raised (Exception.PeerNotReadyToStartUploading
          PeerNotReadyToStartUploadingCause.connection_gone) ↔
      s.state ≠ SessionState.stopped ∧ s.session.hasConnection id = false) ∧
    ((startUploading A s id terms kp pk).outcome =
        Outcome.raised (Exception.PeerNotReadyToStartUploading
          PeerNotReadyToStartUploadingCause.connection_not_in_invited_state) ↔
      s.state ≠ SessionState.stopped ∧
        ∃ c, s.session.get id = some c ∧ c.inInvited A = false) ∧
    ((startUploading A s id terms kp pk).outcome =
        Outcome.raised (Exception.PeerNotReadyToStartUploading
          PeerNotReadyToStartUploadingCause.terms_expired) ↔
      s.state ≠ SessionState.stopped ∧
        ∃ c, s.session.get id = some c ∧ c.inInvited A = true ∧
          (c.announcedModeAndTermsFromPeer A).buyModeTerms ≠ terms) ∧
    ((startUploading A s id terms kp pk).outcome = Outcome.returned () ↔
      s.state ≠ SessionState.stopped ∧
        ∃ c, s.session.get id = some c ∧ c.inInvited A = true ∧
          (c.announcedModeAndTermsFromPeer A).buyModeTerms = terms) ∧
    (∀ e, (startUploading A s id terms kp pk).outcome = Outcome.raised e →
      e = Exception.StateIncompatibleOperation ∨
      e = Exception.PeerNotReadyToStartUploading
        PeerNotReadyToStartUploadingCause.connection_gone ∨
      e = Exception.PeerNotReadyToStartUploading
        PeerNotReadyToStartUploadingCause.connection_not_in_invited_state ∨
      e = Exception.PeerNotReadyToStartUploading
        PeerNotReadyToStartUploadingCause.terms_expired) := by
  unfold Selling.state
  have hcases := startUploading_outcome A s id terms kp pk hbuy
  have hno : ∀ c, s.session.get id = some c → s.session.hasConnection id = false → False := by
    intro c hc hh
    have := Session.hasConnection_of_get _ _ _ hc
    rw [hh] at this
    exact absurd this (by decide)
  refine ⟨?_, ?_, ?_, ?_, ?_, ?_, ?_, ?_, ?_⟩
  · intro hs id1 terms1 kp1 pk1
    exact ⟨by simp [removeConnection, hs], by simp [startUploading, hs]⟩
  · intro id1 id2 h hs
    simp [removeConnection, hs] at h
  · intro id1 terms1 kp1 pk1 cause h hs
    simp [startUploading, hs] at h
  · constructor
    · intro h
      rcases hcases with ⟨h1, _⟩ | ⟨_, _, ho⟩ | ⟨c, _, _, _, ho⟩ | ⟨c, _, _, _, _, ho⟩ |
        ⟨c, _, _, _, _, ho⟩
      · exact h1
      all_goals (rw [ho] at h; simp at h)
    · intro h
      simp [startUploading, h]
  · constructor
    · intro h
      rcases hcases with ⟨_, ho⟩ | ⟨h1, h2, _⟩ | ⟨c, _, _, _, ho⟩ | ⟨c, _, _, _, _, ho⟩ |
        ⟨c, _, _, _, _, ho⟩
      · rw [ho] at h
        simp at h
      · exact ⟨h1, h2⟩
      all_goals (rw [ho] at h; simp at h)
    · rintro ⟨h1, h2⟩
      simp [startUploading, h1, h2]
  · constructor
    · intro h
      rcases hcases with ⟨_, ho⟩ | ⟨_, _, ho⟩ | ⟨c, h1, hc, h3, _⟩ | ⟨c, _, _, _, _, ho⟩ |
        ⟨c, _, _, _, _, ho⟩
      · rw [ho] at h
        simp at h
      · rw [ho] at h
        simp at h
      · exact ⟨h1, c, hc, h3⟩
      all_goals (rw [ho] at h; simp at h)
    · rintro ⟨h1, c, hc, h3⟩
      have hh := Session.hasConnection_of_get _ _ _ hc
      simp [startUploading, h1, hh, hc, h3]
  · constructor
    · intro h
      rcases hcases with ⟨_, ho⟩ | ⟨_, _, ho⟩ | ⟨c, _, _, _, ho⟩ | ⟨c, h1, hc, h3, h4, _⟩ |
        ⟨c, _, _, _, _, ho⟩
      · rw [ho] at h
        simp at h
      · rw [ho] at h
        simp at h
      · rw [ho] at h
        simp at h
      · exact ⟨h1, c, hc, h3, h4⟩
      · rw [ho] at h
        simp at h
    · rintro ⟨h1, c, hc, h3, h4⟩
      have hh := Session.hasConnection_of_get _ _ _ hc
      have hb := hbuy c hc h3
      simp [startUploading, h1, hh, hc, h3, hb, h4]
  · constructor
    · intro h
      rcases hcases with ⟨_, ho⟩ | ⟨_, _, ho⟩ | ⟨c, _, _, _, ho⟩ | ⟨c, _, _, _, _, ho⟩ |
        ⟨c, h1, hc, h3, h4, _⟩
      · rw [ho] at h
        simp at h
      · rw [ho] at h
        simp at h
      · rw [ho] at h
        simp at h
      · rw [ho] at h
        simp at h
      · exact ⟨h1, c, hc, h3, h4⟩
    · rintro ⟨h1, c, hc, h3, h4⟩
      have hh := Session.hasConnection_of_get _ _ _ hc
      have hb := hbuy c hc h3
      simp [startUploading, h1, hh, hc, h3, hb, h4]
  · intro e h
    rcases hcases with ⟨_, ho⟩ | ⟨_, _, ho⟩ | ⟨c, _, _, _, ho⟩ | ⟨c, _, _, _, _, ho⟩ |
      ⟨c, _, _, _, _, ho⟩
    · rw [ho] at h
      simp only [Outcome.raised.injEq] at h
      exact Or.inl h.symm
    · rw [ho] at h
      simp only [Outcome.raised.injEq] at h
      exact Or.inr (Or.inl h.symm)
    · rw [ho] at h
      simp only [Outcome.raised.injEq] at h
      exact Or.inr (Or.inr (Or.inl h.symm))
    · rw [ho] at h
      simp only [Outcome.raised.injEq] at h
      exact Or.inr (Or.inr (Or.inr h.symm))
    · rw [ho] at h
      simp at h

/-- The statement of C21 on a stopped session on which `1` is registered and `3` is not,
and on a started session whose connection `2` is not invited and is offered terms that
differ from the announced ones: the error is `connection_not_in_invited_state`. -/
theorem lifecycle_check_precedes_registry_check_witness :
    (removeConnection sampleMachine (sampleSelling SessionState.stopped sampleConnections)
      1).outcome = Outcome.raised Exception.StateIncompatibleOperation ∧
    (removeConnection sampleMachine (sampleSelling SessionState.stopped sampleConnections)
      3).outcome = Outcome.raised Exception.StateIncompatibleOperation ∧
    (startUploading sampleMachine (sampleSelling SessionState.stopped sampleConnections)
      3 7 20 30).outcome = Outcome.raised Exception.StateIncompatibleOperation ∧
    (startUploading sampleMachine (sampleSelling SessionState.started sampleConnections)
      2 8 20 30).outcome =
        Outcome.raised (Exception.PeerNotReadyToStartUploading
          PeerNotReadyToStartUploadingCause.connection_not_in_invited_state) := by
  have h := lifecycle_check_precedes_registry_check sampleMachine
    (sampleSelling SessionState.stopped sampleConnections) 3 7 20 30 (by decide)
  have h2 := lifecycle_check_precedes_registry_check sampleMachine
    (sampleSelling SessionState.started sampleConnections) 2 8 20 30 (by decide)
  refine ⟨?_, ?_, ?_, ?_⟩
  · exact (congrArg Result.outcome (h.1 (by decide) 1 7 20 30).1).trans rfl
  · exact (congrArg Result.outcome (h.1 (by decide) 3 7 20 30).1).trans rfl
  · exact h.2.2.2.1.2 (by decide)
  · exact h2.2.2.2.2.2.1.2 ⟨by decide,
      sampleConnection 2 Phase.ServicingPieceRequests 1
        [{ index := 0, state := PieceState.Sent, data := 40 },
         { index := 1, state := PieceState.Loaded, data := 41 }], by decide, by decide⟩

end ProtocolSession
